import Mathlib

/-!
Verification of the TYP-file codec (package `parser`: `parser.go`, `types.go`,
and the writer file containing `WriteFile`).  Strings are modelled as `List Char`
(one entry per physical line of the file; the Go `bufio.Scanner` yields lines
without their terminating newline, and `WriteFile` emits only complete
`\n`-terminated lines, so both directions are faithfully modelled at line
granularity).  Go `int` values are modelled as `Int` (the 64-bit overflow
behaviour of `strconv.Atoi` is not modelled; no claim depends on it).
-/

namespace TypCodec

/-- A Go string (also used for one logical line of a TYP file). -/
abbrev Str := List Char

deriving instance DecidableEq for Except

/-! ### Go string primitives used by the codec -/

/-- The whitespace test of Go `unicode.IsSpace`, restricted to the ASCII
space characters (the only ones relevant to this codec). -/
def goIsSpace (c : Char) : Bool :=
  c == ' ' || c == '\t' || c == '\n' || c == '\r' || c == '\x0b' || c == '\x0c'

/-- Drop leading characters satisfying `p`. -/
def dropWhileB (p : Char → Bool) : Str → Str
  | [] => []
  | c :: s => if p c then dropWhileB p s else c :: s

/-- Go `strings.Trim` with a cut-predicate: remove leading and trailing
characters satisfying `p`. -/
def goTrimP (p : Char → Bool) (s : Str) : Str :=
  (dropWhileB p (dropWhileB p s).reverse).reverse

/-- Go `strings.TrimSpace`. -/
def goTrimSpace (s : Str) : Str := goTrimP goIsSpace s

/-- Go `strings.Trim(s, "\"")`. -/
def goTrimQuotes (s : Str) : Str := goTrimP (fun c => c == '"') s

/-- Go `strings.Trim(s, "[]")`. -/
def goTrimBrackets (s : Str) : Str := goTrimP (fun c => c == '[' || c == ']') s

/-- `line[:strings.Index(line, ch)]` when `ch` occurs, else the whole line:
the part of the line strictly before the first occurrence of `ch`. -/
def cutAtChar (ch : Char) : Str → Str
  | [] => []
  | c :: s => if c == ch then [] else c :: cutAtChar ch s

/-- `cleanLine` of `parser.go`: cut at the first `;`, then at the first `#`,
then trim whitespace. -/
def cleanLine (line : Str) : Str :=
  goTrimSpace (cutAtChar '#' (cutAtChar ';' line))

/-- Go `strings.SplitN(s, string(ch), 2)`: `none` when `ch` is absent,
otherwise the parts before and after its first occurrence. -/
def splitFirstChar (ch : Char) : Str → Option (Str × Str)
  | [] => none
  | c :: s =>
    if c == ch then some ([], s)
    else (splitFirstChar ch s).map (fun p => (c :: p.1, p.2))

/-- Boolean list-prefix test (Go `strings.HasPrefix`). -/
def isPfx : Str → Str → Bool
  | [], _ => true
  | _ :: _, [] => false
  | a :: as, b :: bs => a == b && isPfx as bs

/-- Go `strings.SplitN(s, sep, 2)` for a non-empty separator `sep`:
`none` when `sep` does not occur (Go `strings.Contains` is false),
otherwise the parts before and after its first occurrence. -/
def splitFirstSub (sep : Str) : Str → Option (Str × Str)
  | [] => none
  | c :: s =>
    if isPfx sep (c :: s) then some ([], (c :: s).drop sep.length)
    else (splitFirstSub sep s).map (fun p => (c :: p.1, p.2))

/-- Single pass behind `fieldsWS`, carrying the reversed current word. -/
def fieldsWSAux (cur : Str) : Str → List Str
  | [] => if cur = [] then [] else [cur.reverse]
  | c :: s =>
    if goIsSpace c then
      if cur = [] then fieldsWSAux [] s else cur.reverse :: fieldsWSAux [] s
    else fieldsWSAux (c :: cur) s

/-- Go `strings.Fields`: the whitespace-separated words of `s`. -/
def fieldsWS (s : Str) : List Str := fieldsWSAux [] s

/-- Numeric value of an ASCII digit. -/
def digitVal (c : Char) : Option Nat :=
  if '0' ≤ c ∧ c ≤ '9' then some (c.toNat - '0'.toNat) else none

/-- Accumulating decimal parse; fails on the first non-digit. -/
def parseDigitsAux (acc : Nat) : Str → Option Nat
  | [] => some acc
  | c :: s =>
    match digitVal c with
    | none => none
    | some d => parseDigitsAux (acc * 10 + d) s

/-- Parse a non-empty all-digit string. -/
def parseDigits : Str → Option Nat
  | [] => none
  | c :: s => parseDigitsAux 0 (c :: s)

/-- Go `strconv.Atoi`: optional sign followed by at least one digit, and the
whole input must be consumed.  (Overflow of the machine `int` is not
modelled.) -/
def goAtoi (s : Str) : Option Int :=
  match s with
  | [] => none
  | c :: rest =>
    if c = '+' then (parseDigits rest).map Int.ofNat
    else if c = '-' then (parseDigits rest).map (fun n => -(n : Int))
    else (parseDigits (c :: rest)).map Int.ofNat

/-- The ASCII digit character for `d < 10` (Go `fmt %d` digit). -/
def digitChar (d : Nat) : Char :=
  match d with
  | 0 => '0' | 1 => '1' | 2 => '2' | 3 => '3' | 4 => '4'
  | 5 => '5' | 6 => '6' | 7 => '7' | 8 => '8' | _ => '9'

/-- Digit-emitting loop behind `natToChars`; `fuel > n` is always enough,
since the number of decimal digits of `n` is at most `n + 1`. -/
def natToCharsAux : Nat → Nat → Str → Str
  | 0, _, acc => acc
  | fuel + 1, n, acc =>
    if n < 10 then digitChar n :: acc
    else natToCharsAux fuel (n / 10) (digitChar (n % 10) :: acc)

/-- Decimal digits of a natural number (Go `fmt.Sprintf("%d", n)` for `n ≥ 0`). -/
def natToChars (n : Nat) : Str := natToCharsAux (n + 1) n []

/-- Go `fmt.Sprintf("%d", i)` for a (signed) integer. -/
def intToChars (i : Int) : Str :=
  if i < 0 then '-' :: natToChars (-i).toNat else natToChars i.toNat

/-- Go ASCII upper-casing (the fragment of `strings.ToUpper` relevant here). -/
def goToUpper (s : Str) : Str :=
  s.map (fun c => if 'a' ≤ c ∧ c ≤ 'z' then Char.ofNat (c.toNat - 32) else c)

/-! ### Data model (`types.go`) -/

/-- `Color` of `types.go`. -/
structure Color where
  Hex : Str
  Day : Bool
  Name : Str
deriving DecidableEq

/-- `XPMIcon` of `types.go`.  The Go `map[string]Color` palette is modelled as
an association list with at most one entry per key (`mapUpdate` below is the
Go map-assignment); its list order stands for one concrete iteration order. -/
structure XPMIcon where
  Width : Int
  Height : Int
  Colors : Int
  CharsPerPixel : Int
  Data : List Str
  Palette : List (Str × Color)
deriving DecidableEq

/-- `Header` of `types.go`. -/
structure Header where
  CodePage : Int
  FID : Int
  ProductCode : Int
  MapID : Int
deriving DecidableEq

/-- `PointType` of `types.go` (the field `Type` is called `Typ`, since `Type`
is reserved in Lean). -/
structure PointType where
  Typ : Str
  SubType : Str
  Labels : List (Str × Str)
  DayXpm : Option XPMIcon
  NightXpm : Option XPMIcon
  DayColors : List Color
  NightColors : List Color
  FontStyle : Str
deriving DecidableEq

/-- `LineType` of `types.go`. -/
structure LineType where
  Typ : Str
  Labels : List (Str × Str)
  LineWidth : Int
  BorderWidth : Int
  DayXpm : Option XPMIcon
  NightXpm : Option XPMIcon
  UseOrientation : Bool
  LineStyle : Str
deriving DecidableEq

/-- `PolygonType` of `types.go`. -/
structure PolygonType where
  Typ : Str
  Labels : List (Str × Str)
  DayXpm : Option XPMIcon
  NightXpm : Option XPMIcon
  FontStyle : Str
  ExtendedLabels : Bool
deriving DecidableEq

/-- `DrawOrder` of `types.go`. -/
structure DrawOrder where
  Points : List Str
  Lines : List Str
  Polygons : List Str
deriving DecidableEq

/-- `TYPFile` of `types.go`. -/
structure TYPFile where
  Header : Header
  Points : List PointType
  Lines : List LineType
  Polygons : List PolygonType
  Draw : DrawOrder
  FilePath : Str
  Modified : Bool
deriving DecidableEq

/-- `ParseError` of `types.go`. -/
structure ParseError where
  Line : Int
  Column : Int
  Message : Str
  File : Str
deriving DecidableEq

/-- Go `string(rune(n))`: the one-code-point string for a valid code point,
`"�"` for a negative, surrogate, or out-of-range value. -/
def goRuneStr (n : Int) : Str :=
  if (0 ≤ n ∧ n < 0xD800) ∨ (0xE000 ≤ n ∧ n ≤ 0x10FFFF) then
    [Char.ofNat n.toNat]
  else ['�']

/-- `ParseError.Error()` of `types.go`. -/
def errString (e : ParseError) : Str :=
  if e.File ≠ [] then
    e.File ++ (":").toList ++ goRuneStr e.Line ++ (":").toList ++
      goRuneStr e.Column ++ (": ").toList ++ e.Message
  else
    ("line ").toList ++ goRuneStr e.Line ++ (", col ").toList ++
      goRuneStr e.Column ++ (": ").toList ++ e.Message

/-- The error outcomes of a parse: a structured `ParseError`, a raw
`strconv.Atoi` error propagated unwrapped (as `parseXPM` does for a bad
header integer), or fuel exhaustion — an artefact of the embedding that is
never reached when the fuel is at least the number of remaining lines. -/
inductive GoErr where
  | parseE (e : ParseError)
  | atoiE (s : Str)
  | fuelE
deriving DecidableEq

/-- Build the `ParseError` the parser constructs at a failure point: line
number, zero column (never set by `parser.go`), message and file path. -/
def mkPE (line : Int) (msg : Str) (file : Str) : ParseError :=
  { Line := line, Column := 0, Message := msg, File := file }

/-- Go map assignment `m[k] = v` on the association-list model: overwrite in
place, or append a fresh entry. -/
def mapUpdate (m : List (Str × α)) (k : Str) (v : α) : List (Str × α) :=
  match m with
  | [] => [(k, v)]
  | (k', v') :: rest =>
    if k' = k then (k, v) :: rest else (k', v') :: mapUpdate rest k v

/-- Go map lookup `m[k]`. -/
def mapLookup (m : List (Str × α)) (k : Str) : Option α :=
  match m with
  | [] => none
  | (k', v') :: rest => if k' = k then some v' else mapLookup rest k

/-! ### The parser (`parser.go`)

Each section parser takes the current line count `ln` (`p.lineNum`) and the
remaining lines of the file, and returns the updated count and the lines it
did not consume.  `parsePointBody`, `parseLineBody`, `parsePolygonBody` and
`parseTop` additionally take a fuel argument because a bitmap property
consumes an unbounded number of lines; fuel at least the number of remaining
lines is always sufficient (each iteration consumes at least one line). -/

def endTag : Str := ("[end]").toList

def scSep : Str := (" c ").toList

/-- The line-consuming loop of `parseXPM` (parser.go:450-484): read quoted
lines until `colors + height` of them were seen, skipping blank lines and
`;`-comment lines, and stopping (after consuming the offending line) at the
first other non-quoted line.  Returns palette, pixel data, line count, and
the unconsumed stream. -/
def xpmLoop (colors total : Int) (pal : List (Str × Color)) (dat : List Str)
    (linesRead : Int) (ln : Nat) :
    List Str → List (Str × Color) × List Str × Nat × List Str
  | [] => (pal, dat, ln, [])
  | l :: rest =>
    if total ≤ linesRead then (pal, dat, ln, l :: rest)
    else if goTrimSpace l = [] || isPfx ([';']) (goTrimSpace l) then
      xpmLoop colors total pal dat linesRead (ln + 1) rest
    else if !isPfx (['"']) (goTrimSpace l) then (pal, dat, ln + 1, rest)
    else
      let content := goTrimQuotes (goTrimSpace l)
      if linesRead < colors then
        let pal' :=
          match splitFirstSub scSep content with
          | some (ch, rest2) =>
            mapUpdate pal ch { Hex := goTrimSpace rest2, Day := false, Name := [] }
          | none => pal
        xpmLoop colors total pal' dat (linesRead + 1) (ln + 1) rest
      else
        xpmLoop colors total pal (dat ++ [content]) (linesRead + 1) (ln + 1) rest

/-- `Parser.parseXPM` (parser.go:406-487): parse the quoted 4-integer header
carried on the property line, then consume palette and pixel lines. -/
def parseXPM (file : Str) (value : Str) (ln : Nat) (stream : List Str) :
    Except GoErr (XPMIcon × Nat × List Str) :=
  let v := goTrimQuotes value
  match fieldsWS v with
  | p0 :: p1 :: p2 :: p3 :: _ =>
    match goAtoi p0 with
    | none => .error (.atoiE p0)
    | some w =>
      match goAtoi p1 with
      | none => .error (.atoiE p1)
      | some h =>
        match goAtoi p2 with
        | none => .error (.atoiE p2)
        | some colors =>
          match goAtoi p3 with
          | none => .error (.atoiE p3)
          | some cpp =>
            let r := xpmLoop colors (colors + h) [] [] 0 ln stream
            .ok ({ Width := w, Height := h, Colors := colors,
                   CharsPerPixel := cpp, Data := r.2.1, Palette := r.1 },
                 r.2.2.1, r.2.2.2)
  | _ =>
    .error (.parseE (mkPE (ln) (("invalid XPM format").toList) file))

/-- `Parser.parseString` (parser.go:394-403): split `code,text` at the first
comma; no comma yields the empty pair. -/
def parseStringVal (value : Str) : Str × Str :=
  match splitFirstChar ',' value with
  | none => ([], [])
  | some (a, b) => (goTrimSpace a, goTrimSpace b)

def isStringKey (key : Str) : Bool :=
  key = ("String").toList || key = ("String1").toList || key = ("String2").toList ||
    key = ("String3").toList || key = ("String4").toList

/-- `Parser.parsePointProperty` (parser.go:191-227). -/
def parsePointProperty (file : Str) (pt : PointType) (line : Str) (ln : Nat)
    (stream : List Str) : Except GoErr (PointType × Nat × List Str) :=
  match splitFirstChar '=' line with
  | none => .ok (pt, ln, stream)
  | some (k, v) =>
    let key := goTrimSpace k
    let value := goTrimSpace v
    if key = ("Type").toList then .ok ({ pt with Typ := value }, ln, stream)
    else if key = ("SubType").toList then .ok ({ pt with SubType := value }, ln, stream)
    else if isStringKey key then
      let p := parseStringVal value
      if p.1 ≠ [] then
        .ok ({ pt with Labels := mapUpdate pt.Labels p.1 p.2 }, ln, stream)
      else .ok (pt, ln, stream)
    else if key = ("DayXpm").toList then
      match parseXPM file value ln stream with
      | .error e => .error e
      | .ok (xpm, ln', rest) => .ok ({ pt with DayXpm := some xpm }, ln', rest)
    else if key = ("NightXpm").toList then
      match parseXPM file value ln stream with
      | .error e => .error e
      | .ok (xpm, ln', rest) => .ok ({ pt with NightXpm := some xpm }, ln', rest)
    else if key = ("FontStyle").toList then .ok ({ pt with FontStyle := value }, ln, stream)
    else .ok (pt, ln, stream)

/-- `Parser.parseLineProperty` (parser.go:260-299).  A failing `Atoi` (or a
failing `parseXPM` header) is wrapped into a `ParseError` naming the key. -/
def parseLineProperty (file : Str) (lt : LineType) (line : Str) (ln : Nat)
    (stream : List Str) : Except GoErr (LineType × Nat × List Str) :=
  match splitFirstChar '=' line with
  | none => .ok (lt, ln, stream)
  | some (k, v) =>
    let key := goTrimSpace k
    let value := goTrimSpace v
    let wrapErr : GoErr :=
      .parseE (mkPE (ln) (("invalid value for ").toList ++ key ++ (": ").toList ++ value) file)
    if key = ("Type").toList then .ok ({ lt with Typ := value }, ln, stream)
    else if isStringKey key then
      let p := parseStringVal value
      if p.1 ≠ [] then
        .ok ({ lt with Labels := mapUpdate lt.Labels p.1 p.2 }, ln, stream)
      else .ok (lt, ln, stream)
    else if key = ("LineWidth").toList then
      match goAtoi value with
      | none => .error wrapErr
      | some n => .ok ({ lt with LineWidth := n }, ln, stream)
    else if key = ("BorderWidth").toList then
      match goAtoi value with
      | none => .error wrapErr
      | some n => .ok ({ lt with BorderWidth := n }, ln, stream)
    else if key = ("LineStyle").toList then .ok ({ lt with LineStyle := value }, ln, stream)
    else if key = ("Xpm").toList then
      match parseXPM file value ln stream with
      | .error _ => .error wrapErr
      | .ok (xpm, ln', rest) => .ok ({ lt with DayXpm := some xpm }, ln', rest)
    else if key = ("UseOrientation").toList then
      .ok ({ lt with UseOrientation := goToUpper value = ("Y").toList || value = ("1").toList },
           ln, stream)
    else .ok (lt, ln, stream)

/-- `Parser.parsePolygonProperty` (parser.go:332-362). -/
def parsePolygonProperty (file : Str) (pg : PolygonType) (line : Str) (ln : Nat)
    (stream : List Str) : Except GoErr (PolygonType × Nat × List Str) :=
  match splitFirstChar '=' line with
  | none => .ok (pg, ln, stream)
  | some (k, v) =>
    let key := goTrimSpace k
    let value := goTrimSpace v
    if key = ("Type").toList then .ok ({ pg with Typ := value }, ln, stream)
    else if isStringKey key then
      let p := parseStringVal value
      if p.1 ≠ [] then
        .ok ({ pg with Labels := mapUpdate pg.Labels p.1 p.2 }, ln, stream)
      else .ok (pg, ln, stream)
    else if key = ("Xpm").toList then
      match parseXPM file value ln stream with
      | .error e => .error e
      | .ok (xpm, ln', rest) => .ok ({ pg with DayXpm := some xpm }, ln', rest)
    else if key = ("ExtendedLabels").toList then
      .ok ({ pg with ExtendedLabels := goToUpper value = ("Y").toList || value = ("1").toList },
           ln, stream)
    else if key = ("FontStyle").toList then .ok ({ pg with FontStyle := value }, ln, stream)
    else .ok (pg, ln, stream)

/-- `Parser.parseHeader` (parser.go:111-158): key/value lines until `[end]`;
a non-integer value for one of the four numeric keys is a fatal `ParseError`
naming the key; end of input is a fatal `ParseError`. -/
def parseHeaderBody (file : Str) (h : Header) (ln : Nat) :
    List Str → Except GoErr (Header × Nat × List Str)
  | [] =>
    .error (.parseE (mkPE (ln) (("unexpected end of file in header section").toList) file))
  | l :: rest =>
    let c := cleanLine l
    if c = [] then parseHeaderBody file h (ln + 1) rest
    else if c = endTag then .ok (h, ln + 1, rest)
    else
      match splitFirstChar '=' c with
      | none => parseHeaderBody file h (ln + 1) rest
      | some (k, v) =>
        let key := goTrimSpace k
        let value := goTrimSpace v
        let numErr : GoErr :=
          .parseE (mkPE (ln + 1) (("invalid value for ").toList ++ key ++ (": ").toList ++ value) file)
        if key = ("CodePage").toList then
          match goAtoi value with
          | none => .error numErr
          | some n => parseHeaderBody file { h with CodePage := n } (ln + 1) rest
        else if key = ("FID").toList then
          match goAtoi value with
          | none => .error numErr
          | some n => parseHeaderBody file { h with FID := n } (ln + 1) rest
        else if key = ("ProductCode").toList then
          match goAtoi value with
          | none => .error numErr
          | some n => parseHeaderBody file { h with ProductCode := n } (ln + 1) rest
        else if key = ("MapID").toList then
          match goAtoi value with
          | none => .error numErr
          | some n => parseHeaderBody file { h with MapID := n } (ln + 1) rest
        else parseHeaderBody file h (ln + 1) rest

/-- `Parser.parseDrawOrder` (parser.go:365-391): collect the type code before
the first comma of each `Type=` line; end of input returns successfully. -/
def parseDrawOrderBody (dw : DrawOrder) (ln : Nat) :
    List Str → DrawOrder × Nat × List Str
  | [] => (dw, ln, [])
  | l :: rest =>
    let c := cleanLine l
    if c = [] then parseDrawOrderBody dw (ln + 1) rest
    else if c = endTag then (dw, ln + 1, rest)
    else
      match splitFirstChar '=' c with
      | none => parseDrawOrderBody dw (ln + 1) rest
      | some (k, v) =>
        if goTrimSpace k = ("Type").toList then
          let tv := goTrimSpace v
          let typeCode :=
            match splitFirstChar ',' tv with
            | some p => p.1
            | none => tv
          parseDrawOrderBody { dw with Points := dw.Points ++ [typeCode] } (ln + 1) rest
        else parseDrawOrderBody dw (ln + 1) rest

/-- `Parser.skipToEnd` (parser.go:490-503). -/
def skipToEndBody (file : Str) (ln : Nat) :
    List Str → Except GoErr (Nat × List Str)
  | [] =>
    .error (.parseE (mkPE (ln) (("unexpected end of file while skipping section").toList) file))
  | l :: rest =>
    if cleanLine l = endTag then .ok (ln + 1, rest)
    else skipToEndBody file (ln + 1) rest

def initPoint : PointType :=
  { Typ := [], SubType := [], Labels := [], DayXpm := none, NightXpm := none,
    DayColors := [], NightColors := [], FontStyle := [] }

def initLine : LineType :=
  { Typ := [], Labels := [], LineWidth := 0, BorderWidth := 0, DayXpm := none,
    NightXpm := none, UseOrientation := false, LineStyle := [] }

def initPolygon : PolygonType :=
  { Typ := [], Labels := [], DayXpm := none, NightXpm := none, FontStyle := [],
    ExtendedLabels := false }

/-- `Parser.parsePoint` (parser.go:161-188). -/
def parsePointBody (file : Str) (fuel : Nat) (pt : PointType) (ln : Nat)
    (stream : List Str) : Except GoErr (PointType × Nat × List Str) :=
  match stream, fuel with
  | [], _ =>
    .error (.parseE (mkPE (ln) (("unexpected end of file in point section").toList) file))
  | _ :: _, 0 => .error .fuelE
  | l :: rest, fuel + 1 =>
    let c := cleanLine l
    if c = [] then parsePointBody file fuel pt (ln + 1) rest
    else if c = endTag then .ok (pt, ln + 1, rest)
    else
      match parsePointProperty file pt c (ln + 1) rest with
      | .error e => .error e
      | .ok (pt', ln', rest') => parsePointBody file fuel pt' ln' rest'

/-- `Parser.parseLine` (parser.go:230-257). -/
def parseLineBody (file : Str) (fuel : Nat) (lt : LineType) (ln : Nat)
    (stream : List Str) : Except GoErr (LineType × Nat × List Str) :=
  match stream, fuel with
  | [], _ =>
    .error (.parseE (mkPE (ln) (("unexpected end of file in line section").toList) file))
  | _ :: _, 0 => .error .fuelE
  | l :: rest, fuel + 1 =>
    let c := cleanLine l
    if c = [] then parseLineBody file fuel lt (ln + 1) rest
    else if c = endTag then .ok (lt, ln + 1, rest)
    else
      match parseLineProperty file lt c (ln + 1) rest with
      | .error e => .error e
      | .ok (lt', ln', rest') => parseLineBody file fuel lt' ln' rest'

/-- `Parser.parsePolygon` (parser.go:302-329). -/
def parsePolygonBody (file : Str) (fuel : Nat) (pg : PolygonType) (ln : Nat)
    (stream : List Str) : Except GoErr (PolygonType × Nat × List Str) :=
  match stream, fuel with
  | [], _ =>
    .error (.parseE (mkPE (ln) (("unexpected end of file in polygon section").toList) file))
  | _ :: _, 0 => .error .fuelE
  | l :: rest, fuel + 1 =>
    let c := cleanLine l
    if c = [] then parsePolygonBody file fuel pg (ln + 1) rest
    else if c = endTag then .ok (pg, ln + 1, rest)
    else
      match parsePolygonProperty file pg c (ln + 1) rest with
      | .error e => .error e
      | .ok (pg', ln', rest') => parsePolygonBody file fuel pg' ln' rest'

/-- `Parser.Parse` (parser.go:34-96): the top-level dispatcher. -/
def parseTop (file : Str) (fuel : Nat) (acc : TYPFile) (ln : Nat)
    (stream : List Str) : Except GoErr TYPFile :=
  match stream, fuel with
  | [], _ => .ok acc
  | _ :: _, 0 => .error .fuelE
  | l :: rest, fuel + 1 =>
    let c := cleanLine l
    if c = [] then parseTop file fuel acc (ln + 1) rest
    else if isPfx (['[']) c then
      let sectionName := goTrimSpace (goTrimBrackets c)
      if sectionName = ("_id").toList then
        match parseHeaderBody file acc.Header (ln + 1) rest with
        | .error e => .error e
        | .ok (h, ln', rest') => parseTop file fuel { acc with Header := h } ln' rest'
      else if sectionName = ("_point").toList then
        match parsePointBody file rest.length initPoint (ln + 1) rest with
        | .error e => .error e
        | .ok (pt, ln', rest') =>
          parseTop file fuel { acc with Points := acc.Points ++ [pt] } ln' rest'
      else if sectionName = ("_line").toList then
        match parseLineBody file rest.length initLine (ln + 1) rest with
        | .error e => .error e
        | .ok (lt, ln', rest') =>
          parseTop file fuel { acc with Lines := acc.Lines ++ [lt] } ln' rest'
      else if sectionName = ("_polygon").toList then
        match parsePolygonBody file rest.length initPolygon (ln + 1) rest with
        | .error e => .error e
        | .ok (pg, ln', rest') =>
          parseTop file fuel { acc with Polygons := acc.Polygons ++ [pg] } ln' rest'
      else if sectionName = ("_drawOrder").toList then
        let r := parseDrawOrderBody acc.Draw (ln + 1) rest
        parseTop file fuel { acc with Draw := r.1 } r.2.1 r.2.2
      else if sectionName = ("end").toList then parseTop file fuel acc (ln + 1) rest
      else
        match skipToEndBody file (ln + 1) rest with
        | .error e => .error e
        | .ok (ln', rest') => parseTop file fuel acc ln' rest'
    else parseTop file fuel acc (ln + 1) rest

/-- The initial `TYPFile` built by `Parser.Parse`. -/
def initTYP (file : Str) : TYPFile :=
  { Header := { CodePage := 0, FID := 0, ProductCode := 0, MapID := 0 },
    Points := [], Lines := [], Polygons := [],
    Draw := { Points := [], Lines := [], Polygons := [] },
    FilePath := file, Modified := false }

/-- `ParseFile`: parse the lines of a file. -/
def parseFile (file : Str) (input : List Str) : Except GoErr TYPFile :=
  parseTop file input.length (initTYP file) 0 input

/-! ### The writer (`WriteFile` and its helpers)

Every `WriteString` of the Go writer appends complete `\n`-terminated lines,
so the produced text is modelled as the list of its lines. -/

def eng04 : Str := ("0x04").toList

/-- `writeLabels`: the `0x04` entry first (if present), then the remaining
entries in map iteration order — here, association-list order. -/
def writeLabels (labels : List (Str × Str)) : List Str :=
  if labels = [] then []
  else
    (match mapLookup labels eng04 with
     | some label => [("String=0x04,").toList ++ label]
     | none => []) ++
    (labels.filter (fun p => decide (¬ p.1 = eng04))).map
      (fun p => ("String=").toList ++ p.1 ++ [','] ++ p.2)

/-- `writeXPM`: regenerated header line, then one quoted line per palette
entry (map iteration order — association-list order), then one quoted line
per pixel row. -/
def writeXPM (fieldName : Str) (xpm : XPMIcon) : List Str :=
  (fieldName ++ ('=' :: '"' :: intToChars xpm.Width) ++ (' ' :: intToChars xpm.Height) ++
    (' ' :: intToChars xpm.Colors) ++ (' ' :: intToChars xpm.CharsPerPixel) ++ ['"']) ::
  xpm.Palette.map (fun p =>
    if p.2.Hex = ("none").toList ∨ p.2.Hex = ("transparent").toList then
      '"' :: p.1 ++ (" c none\"").toList
    else '"' :: p.1 ++ scSep ++ p.2.Hex ++ ['"']) ++
  xpm.Data.map (fun row => '"' :: row ++ ['"'])

/-- `writeHeader`: only fields with positive stored value are emitted. -/
def writeHeaderL (h : Header) : List Str :=
  [("[_id]").toList] ++
  (if 0 < h.CodePage then [("CodePage=").toList ++ intToChars h.CodePage] else []) ++
  (if 0 < h.FID then [("FID=").toList ++ intToChars h.FID] else []) ++
  (if 0 < h.ProductCode then [("ProductCode=").toList ++ intToChars h.ProductCode] else []) ++
  (if 0 < h.MapID then [("MapID=").toList ++ intToChars h.MapID] else []) ++
  [endTag, []]

/-- `writePointType`. -/
def writePointTypeL (p : PointType) : List Str :=
  [("[_point]").toList, ("Type=").toList ++ p.Typ] ++
  (if p.SubType ≠ [] then [("SubType=").toList ++ p.SubType] else []) ++
  writeLabels p.Labels ++
  (match p.DayXpm with
   | some xpm => writeXPM (("DayXpm").toList) xpm
   | none => []) ++
  (match p.NightXpm with
   | some xpm => writeXPM (("NightXpm").toList) xpm
   | none => []) ++
  (if p.FontStyle ≠ [] then [("FontStyle=").toList ++ p.FontStyle] else []) ++
  [endTag, []]

/-- `writeLineType`. -/
def writeLineTypeL (l : LineType) : List Str :=
  [("[_line]").toList, ("Type=").toList ++ l.Typ] ++
  writeLabels l.Labels ++
  (if 0 < l.LineWidth then [("LineWidth=").toList ++ intToChars l.LineWidth] else []) ++
  (if 0 < l.BorderWidth then [("BorderWidth=").toList ++ intToChars l.BorderWidth] else []) ++
  (if l.LineStyle ≠ [] then [("LineStyle=").toList ++ l.LineStyle] else []) ++
  (if l.UseOrientation then [("UseOrientation=Y").toList] else []) ++
  (match l.DayXpm with
   | some xpm => writeXPM (("Xpm").toList) xpm
   | none => []) ++
  (match l.NightXpm with
   | some xpm => writeXPM (("NightXpm").toList) xpm
   | none => []) ++
  [endTag, []]

/-- `writePolygonType`. -/
def writePolygonTypeL (pg : PolygonType) : List Str :=
  [("[_polygon]").toList, ("Type=").toList ++ pg.Typ] ++
  writeLabels pg.Labels ++
  (if pg.ExtendedLabels then [("ExtendedLabels=Y").toList] else []) ++
  (if pg.FontStyle ≠ [] then [("FontStyle=").toList ++ pg.FontStyle] else []) ++
  (match pg.DayXpm with
   | some xpm => writeXPM (("Xpm").toList) xpm
   | none => []) ++
  (match pg.NightXpm with
   | some xpm => writeXPM (("NightXpm").toList) xpm
   | none => []) ++
  [endTag, []]

/-- `WriteFile`: header section, then all point, line, and polygon records in
stored order.  The draw-order field is never serialized. -/
def writeFileLines (t : TYPFile) : List Str :=
  writeHeaderL t.Header ++
  (t.Points.map writePointTypeL).flatten ++
  (t.Lines.map writeLineTypeL).flatten ++
  (t.Polygons.map writePolygonTypeL).flatten

/-! ### Claim C10: the `ParseError.Error` string -/

/-- ASCII decimal digit test. -/
def isDigitCh (c : Char) : Bool := decide ('0' ≤ c) && decide (c ≤ '9')

theorem digitFree_append {a b : Str}
    (ha : ∀ c ∈ a, isDigitCh c = false) (hb : ∀ c ∈ b, isDigitCh c = false) :
    ∀ c ∈ a ++ b, isDigitCh c = false := by
  intro c hmem
  rcases List.mem_append.mp hmem with h | h
  · exact ha c h
  · exact hb c h

/-- The concrete `ParseError` used as the C10 witness input. -/
def c10exErr : ParseError :=
  { Line := 65, Column := 66, Message := ("msg").toList, File := ("fx").toList }

/-- Claim C10, counterexample: for the `ParseError` with line number 2,
column 0, message `msg` and file `f2`, the `Error()` string does contain the
decimal digit representation `2` of the line number (it occurs inside the
file name), contradicting the claim that it never does. -/
theorem c10_counterexample :
    (splitFirstSub (intToChars 2)
        (errString (mkPE 2 (("msg").toList) (("f2").toList)))).isSome = true := by
  decide

/-- Claim C10 (amended): `Error()` embeds the single code points `rune(n)`
and `rune(c)` rather than their decimal digit representations; decimal
digits can nevertheless appear when the `File` or `Message` fields contain
digits or when the code point itself is a digit character.  Formally: when
`File`, `Message` and the two rune strings are digit-free, the whole error
string is digit-free, and it always decomposes around `rune(Line)` and
around `rune(Column)`. -/
theorem c10_error_runes_amended (e : ParseError)
    (hf : ∀ c ∈ e.File, isDigitCh c = false)
    (hm : ∀ c ∈ e.Message, isDigitCh c = false)
    (hl : ∀ c ∈ goRuneStr e.Line, isDigitCh c = false)
    (hc : ∀ c ∈ goRuneStr e.Column, isDigitCh c = false) :
    (∀ c ∈ errString e, isDigitCh c = false) ∧
    (∃ a b, errString e = a ++ goRuneStr e.Line ++ b) ∧
    (∃ a b, errString e = a ++ goRuneStr e.Column ++ b) := by
  unfold errString
  by_cases hF : e.File ≠ []
  · rw [if_pos hF]
    refine ⟨?_, ⟨e.File ++ (":").toList,
        (":").toList ++ goRuneStr e.Column ++ (": ").toList ++ e.Message, by simp⟩,
      ⟨e.File ++ (":").toList ++ goRuneStr e.Line ++ (":").toList,
        (": ").toList ++ e.Message, by simp⟩⟩
    exact digitFree_append (digitFree_append (digitFree_append (digitFree_append
      (digitFree_append (digitFree_append hf (by decide)) hl) (by decide)) hc)
      (by decide)) hm
  · rw [if_neg hF]
    refine ⟨?_, ⟨("line ").toList,
        (", col ").toList ++ goRuneStr e.Column ++ (": ").toList ++ e.Message, by simp⟩,
      ⟨("line ").toList ++ goRuneStr e.Line ++ (", col ").toList,
        (": ").toList ++ e.Message, by simp⟩⟩
    exact digitFree_append (digitFree_append (digitFree_append (digitFree_append
      (digitFree_append (by decide) hl) (by decide)) hc) (by decide)) hm

/-- Claim C10 amended, witness at a concrete error value. -/
theorem c10_error_runes_amended_witness :
    (∀ c ∈ errString c10exErr, isDigitCh c = false) ∧
    (∃ a b, errString c10exErr = a ++ goRuneStr c10exErr.Line ++ b) ∧
    (∃ a b, errString c10exErr = a ++ goRuneStr c10exErr.Column ++ b) :=
  c10_error_runes_amended c10exErr (by decide) (by decide) (by decide) (by decide)

/-! ### Claim C6: the bitmap header check -/

/-- Claim C6, counterexample: a quoted header with five integer fields
(`"1 2 3 4 5"`) and one with a negative integer (`"-1 2 2 1"`) are both
accepted by `parseXPM`, although the claim requires a fatal parse error
whenever the value does not consist of exactly four non-negative
integers. -/
theorem c6_counterexample :
    (parseXPM (("f").toList) (("\"1 2 3 4 5\"").toList) 1 []).isOk = true ∧
    (parseXPM (("f").toList) (("\"-1 2 2 1\"").toList) 1 []).isOk = true := by
  decide

/-- Claim C6 (amended): `parseXPM` raises the fatal parse error
`invalid XPM format` exactly when the quoted header value has fewer than
four whitespace-separated fields; fields beyond the fourth are ignored; a
field among the first four that is not a (possibly signed) integer makes
the parse fail with the raw `strconv.Atoi` error (not with the
`invalid XPM format` ParseError); negative integers are accepted. -/
theorem c6_xpm_header_amended (file value : Str) (ln : Nat) (stream : List Str) :
    ((fieldsWS (goTrimQuotes value)).length < 4 →
      parseXPM file value ln stream =
        .error (.parseE (mkPE (ln) (("invalid XPM format").toList) file))) ∧
    (∀ p0 p1 p2 p3 ps, fieldsWS (goTrimQuotes value) = p0 :: p1 :: p2 :: p3 :: ps →
      (goAtoi p0 = none → parseXPM file value ln stream = .error (.atoiE p0)) ∧
      (∀ w, goAtoi p0 = some w → goAtoi p1 = none →
        parseXPM file value ln stream = .error (.atoiE p1)) ∧
      (∀ w h, goAtoi p0 = some w → goAtoi p1 = some h → goAtoi p2 = none →
        parseXPM file value ln stream = .error (.atoiE p2)) ∧
      (∀ w h cz, goAtoi p0 = some w → goAtoi p1 = some h → goAtoi p2 = some cz →
        goAtoi p3 = none → parseXPM file value ln stream = .error (.atoiE p3)) ∧
      (∀ w h cz cp, goAtoi p0 = some w → goAtoi p1 = some h → goAtoi p2 = some cz →
        goAtoi p3 = some cp →
        ∃ icon ln' rest, parseXPM file value ln stream = .ok (icon, ln', rest) ∧
          icon.Width = w ∧ icon.Height = h ∧ icon.Colors = cz ∧
          icon.CharsPerPixel = cp)) := by
  constructor
  · intro hlen
    rcases hfw : fieldsWS (goTrimQuotes value) with _ | ⟨a, _ | ⟨b, _ | ⟨c, _ | ⟨d, ps⟩⟩⟩⟩
    · simp only [parseXPM, hfw]
    · simp only [parseXPM, hfw]
    · simp only [parseXPM, hfw]
    · simp only [parseXPM, hfw]
    · rw [hfw] at hlen; simp only [List.length_cons] at hlen; omega
  · intro p0 p1 p2 p3 ps hfw
    refine ⟨?_, ?_, ?_, ?_, ?_⟩
    · intro h0; simp only [parseXPM, hfw, h0]
    · intro w h0 h1; simp only [parseXPM, hfw, h0, h1]
    · intro w h h0 h1 h2; simp only [parseXPM, hfw, h0, h1, h2]
    · intro w h cz h0 h1 h2 h3; simp only [parseXPM, hfw, h0, h1, h2, h3]
    · intro w h cz cp h0 h1 h2 h3
      simp only [parseXPM, hfw, h0, h1, h2, h3]
      exact ⟨_, _, _, rfl, rfl, rfl, rfl, rfl⟩

/-! ### The `xpmLoop` consumption lemmas (claims C2 and C7) -/

/-- The quote-stripped content of a consumed bitmap line. -/
def contentOf (l : Str) : Str := goTrimQuotes (goTrimSpace l)

/-- A line the bitmap loop treats as quoted data. -/
def xpmQuoted (l : Str) : Bool := isPfx (['"']) (goTrimSpace l)

/-- A line the bitmap loop skips: blank, or a `;` comment. -/
def xpmSkippable (l : Str) : Bool :=
  decide (goTrimSpace l = []) || isPfx ([';']) (goTrimSpace l)

/-- The palette-phase action of `xpmLoop` on one consumed line. -/
def palStep (pal : List (Str × Color)) (l : Str) : List (Str × Color) :=
  match splitFirstSub scSep (contentOf l) with
  | some p => mapUpdate pal p.1 { Hex := goTrimSpace p.2, Day := false, Name := [] }
  | none => pal

/-- The palette key a consumed palette line contributes, if any. -/
def palKeyOf (l : Str) : Option Str :=
  (splitFirstSub scSep (contentOf l)).map (fun p => p.1)

theorem isPfx_single {c : Char} {s : Str} :
    isPfx [c] s = true ↔ ∃ t, s = c :: t := by
  cases s with
  | nil => simp [isPfx]
  | cons d t =>
    constructor
    · intro h
      have hcd : c = d := by simpa [isPfx] using h
      exact ⟨t, by rw [hcd]⟩
    · rintro ⟨t', ht'⟩
      injection ht' with h1 h2
      simp [isPfx, h1]

theorem quoted_not_skippable {l : Str} (h : xpmQuoted l = true) :
    ¬ goTrimSpace l = [] ∧ isPfx ([';']) (goTrimSpace l) = false := by
  rcases isPfx_single.mp h with ⟨t, ht⟩
  refine ⟨by rw [ht]; simp, ?_⟩
  rw [ht]
  simp [isPfx]

theorem mapUpdate_length_le (m : List (Str × α)) (k : Str) (v : α) :
    (mapUpdate m k v).length ≤ m.length + 1 := by
  induction m with
  | nil => simp [mapUpdate]
  | cons p rest ih =>
    unfold mapUpdate
    by_cases h : p.1 = k
    · rw [if_pos h]; simp
    · rw [if_neg h]; simpa using Nat.succ_le_succ ih

theorem mapUpdate_length_fresh (m : List (Str × α)) (k : Str) (v : α)
    (h : mapLookup m k = none) : (mapUpdate m k v).length = m.length + 1 := by
  induction m with
  | nil => simp [mapUpdate]
  | cons p rest ih =>
    unfold mapLookup at h
    unfold mapUpdate
    by_cases hk : p.1 = k
    · rw [if_pos hk] at h; exact absurd h (by simp)
    · rw [if_neg hk] at h
      rw [if_neg hk]
      simp [ih h]

theorem mapLookup_update_other (m : List (Str × α)) (k k' : Str) (v : α)
    (h : k ≠ k') : mapLookup (mapUpdate m k v) k' = mapLookup m k' := by
  induction m with
  | nil => simp [mapUpdate, mapLookup, h]
  | cons p rest ih =>
    unfold mapUpdate
    by_cases hk : p.1 = k
    · rw [if_pos hk]
      unfold mapLookup
      rw [if_neg h, if_neg (by rw [hk]; exact h)]
    · rw [if_neg hk]
      unfold mapLookup
      by_cases hk' : p.1 = k'
      · rw [if_pos hk', if_pos hk']
      · rw [if_neg hk', if_neg hk', ih]

theorem mapLookup_update_same (m : List (Str × α)) (k : Str) (v : α) :
    mapLookup (mapUpdate m k v) k = some v := by
  induction m with
  | nil => simp [mapUpdate, mapLookup]
  | cons p rest ih =>
    unfold mapUpdate
    by_cases hk : p.1 = k
    · rw [if_pos hk]; simp [mapLookup]
    · rw [if_neg hk]
      unfold mapLookup
      rw [if_neg hk]
      exact ih

/-- Full characterization of `xpmLoop` on a stream whose next `m` lines (the
number still to be consumed) are all quoted: it consumes exactly those `m`
lines, feeds the first `(colors - linesRead)⁺` of them through the palette
step and appends the contents of the remaining ones as pixel rows. -/
theorem xpmLoop_run (m : Nat) :
    ∀ (colors total : Int) (pal : List (Str × Color)) (dat : List Str)
      (lr : Int) (ln : Nat) (s : List Str),
      total = lr + m →
      (∀ l ∈ s.take m, xpmQuoted l = true) →
      m ≤ s.length →
      xpmLoop colors total pal dat lr ln s =
        ((s.take (min m (colors - lr).toNat)).foldl palStep pal,
         dat ++ ((s.take m).drop (colors - lr).toNat).map contentOf,
         ln + m, s.drop m) := by
  induction m with
  | zero =>
    intro colors total pal dat lr ln s htot _ _
    cases s with
    | nil => simp [xpmLoop]
    | cons l rest =>
      unfold xpmLoop
      rw [if_pos (by omega : total ≤ lr)]
      simp
  | succ m ih =>
    intro colors total pal dat lr ln s htot hq hlen
    cases s with
    | nil => simp at hlen
    | cons l rest =>
      have hql : xpmQuoted l = true := hq l (by simp)
      have hqrest : ∀ x ∈ rest.take m, xpmQuoted x = true := by
        intro x hx
        refine hq x ?_
        rw [List.take_succ_cons]
        exact List.mem_cons_of_mem l hx
      obtain ⟨hne, hnsemi⟩ := quoted_not_skippable hql
      have hq2 : isPfx (['"']) (goTrimSpace l) = true := hql
      unfold xpmLoop
      rw [if_neg (by omega : ¬ total ≤ lr)]
      rw [if_neg (by simp [hne, hnsemi])]
      rw [if_neg (by simp [hq2])]
      by_cases hcl : lr < colors
      · rw [if_pos hcl]
        have hK : (colors - lr).toNat = (colors - (lr + 1)).toNat + 1 := by omega
        have hmin : min (m + 1) ((colors - (lr + 1)).toNat + 1)
            = min m (colors - (lr + 1)).toNat + 1 := by omega
        rcases hsp : splitFirstSub scSep (goTrimQuotes (goTrimSpace l)) with _ | ⟨ch, r2⟩
        · simp only [hsp]
          rw [ih colors total pal dat (lr + 1) (ln + 1) rest (by omega) hqrest
            (by simpa using hlen)]
          have hps : palStep pal l = pal := by simp [palStep, contentOf, hsp]
          simp only [hmin, hK, List.take_succ_cons, List.foldl_cons, List.drop_succ_cons,
            hps, Prod.mk.injEq]
          simp only [true_and, and_true, List.append_assoc, List.cons_append,
            List.nil_append, List.singleton_append]
          omega
        · simp only [hsp]
          rw [ih colors total
            (mapUpdate pal ch { Hex := goTrimSpace r2, Day := false, Name := [] })
            dat (lr + 1) (ln + 1) rest (by omega) hqrest (by simpa using hlen)]
          have hps : palStep pal l =
              mapUpdate pal ch { Hex := goTrimSpace r2, Day := false, Name := [] } := by
            simp [palStep, contentOf, hsp]
          simp only [hmin, hK, List.take_succ_cons, List.foldl_cons, List.drop_succ_cons,
            hps, Prod.mk.injEq]
          simp only [true_and, and_true, List.append_assoc, List.cons_append,
            List.nil_append, List.singleton_append]
          omega
      · rw [if_neg hcl]
        rw [ih colors total pal (dat ++ [goTrimQuotes (goTrimSpace l)]) (lr + 1) (ln + 1)
          rest (by omega) hqrest (by simpa using hlen)]
        have hc0 : (colors - lr).toNat = 0 := by omega
        have hc0' : (colors - (lr + 1)).toNat = 0 := by omega
        have hcnt : goTrimQuotes (goTrimSpace l) = contentOf l := rfl
        simp only [hc0, hc0', Nat.min_zero, List.take_zero, List.foldl_nil,
          List.drop_zero, List.take_succ_cons, List.map_cons, List.drop_succ_cons,
          hcnt, Prod.mk.injEq]
        simp only [true_and, and_true, List.append_assoc, List.cons_append,
          List.nil_append, List.singleton_append]
        omega

/-- Palette size bound: `xpmLoop` adds at most `(colors - linesRead)⁺`
palette entries. -/
theorem xpmLoop_pal_bound :
    ∀ (s : List Str) (colors total : Int) (pal : List (Str × Color))
      (dat : List Str) (lr : Int) (ln : Nat),
      (xpmLoop colors total pal dat lr ln s).1.length ≤
        pal.length + (colors - lr).toNat := by
  intro s
  induction s with
  | nil => intro colors total pal dat lr ln; simp [xpmLoop]
  | cons l rest ih =>
    intro colors total pal dat lr ln
    unfold xpmLoop
    by_cases h1 : total ≤ lr
    · rw [if_pos h1]; simp
    · rw [if_neg h1]
      by_cases h2 : (decide (goTrimSpace l = []) || isPfx ([';']) (goTrimSpace l)) = true
      · rw [if_pos h2]
        exact le_trans (ih colors total pal dat lr (ln + 1)) (by omega)
      · rw [if_neg h2]
        by_cases h3 : (!isPfx (['"']) (goTrimSpace l)) = true
        · rw [if_pos h3]; simp
        · rw [if_neg h3]
          by_cases h4 : lr < colors
          · rw [if_pos h4]
            rcases hsp : splitFirstSub scSep (goTrimQuotes (goTrimSpace l)) with _ | ⟨ch, r2⟩
            · simp only [hsp]
              exact le_trans (ih colors total pal dat (lr + 1) (ln + 1)) (by omega)
            · simp only [hsp]
              have hih := ih colors total
                (mapUpdate pal ch { Hex := goTrimSpace r2, Day := false, Name := [] })
                dat (lr + 1) (ln + 1)
              have hu := mapUpdate_length_le pal ch
                { Hex := goTrimSpace r2, Day := false, Name := [] }
              have hgoal : (mapUpdate pal ch
                    { Hex := goTrimSpace r2, Day := false, Name := [] }).length +
                  (colors - (lr + 1)).toNat ≤ pal.length + (colors - lr).toNat := by
                omega
              exact le_trans hih hgoal
          · rw [if_neg h4]
            exact le_trans
              (ih colors total pal (dat ++ [goTrimQuotes (goTrimSpace l)]) (lr + 1) (ln + 1))
              (by omega)

/-- Pixel-row size bound: `xpmLoop` appends at most
`(total - max linesRead colors)⁺` rows. -/
theorem xpmLoop_dat_bound :
    ∀ (s : List Str) (colors total : Int) (pal : List (Str × Color))
      (dat : List Str) (lr : Int) (ln : Nat),
      (xpmLoop colors total pal dat lr ln s).2.1.length ≤
        dat.length + (total - max lr colors).toNat := by
  intro s
  induction s with
  | nil => intro colors total pal dat lr ln; simp [xpmLoop]
  | cons l rest ih =>
    intro colors total pal dat lr ln
    unfold xpmLoop
    by_cases h1 : total ≤ lr
    · rw [if_pos h1]; simp
    · rw [if_neg h1]
      by_cases h2 : (decide (goTrimSpace l = []) || isPfx ([';']) (goTrimSpace l)) = true
      · rw [if_pos h2]
        exact le_trans (ih colors total pal dat lr (ln + 1)) (by omega)
      · rw [if_neg h2]
        by_cases h3 : (!isPfx (['"']) (goTrimSpace l)) = true
        · rw [if_pos h3]; simp
        · rw [if_neg h3]
          by_cases h4 : lr < colors
          · rw [if_pos h4]
            rcases hsp : splitFirstSub scSep (goTrimQuotes (goTrimSpace l)) with _ | ⟨ch, r2⟩
            · simp only [hsp]
              exact le_trans (ih colors total pal dat (lr + 1) (ln + 1)) (by omega)
            · simp only [hsp]
              exact le_trans (ih colors total
                (mapUpdate pal ch { Hex := goTrimSpace r2, Day := false, Name := [] })
                dat (lr + 1) (ln + 1)) (by omega)
          · rw [if_neg h4]
            have hr := ih colors total pal (dat ++ [goTrimQuotes (goTrimSpace l)])
              (lr + 1) (ln + 1)
            simp only [List.length_append, List.length_singleton] at hr
            exact le_trans hr (by omega)

/-- The palette, pixel data, and unconsumed stream computed by `xpmLoop` do
not depend on the line counter. -/
theorem xpmLoop_ln_irrel :
    ∀ (s : List Str) (colors total : Int) (pal : List (Str × Color))
      (dat : List Str) (lr : Int) (ln ln' : Nat),
      (xpmLoop colors total pal dat lr ln s).1 =
        (xpmLoop colors total pal dat lr ln' s).1 ∧
      (xpmLoop colors total pal dat lr ln s).2.1 =
        (xpmLoop colors total pal dat lr ln' s).2.1 ∧
      (xpmLoop colors total pal dat lr ln s).2.2.2 =
        (xpmLoop colors total pal dat lr ln' s).2.2.2 := by
  intro s
  induction s with
  | nil => intro colors total pal dat lr ln ln'; simp [xpmLoop]
  | cons l rest ih =>
    intro colors total pal dat lr ln ln'
    conv_lhs => unfold xpmLoop
    conv_rhs => unfold xpmLoop
    by_cases h1 : total ≤ lr
    · rw [if_pos h1, if_pos h1]; exact ⟨rfl, rfl, rfl⟩
    · rw [if_neg h1, if_neg h1]
      by_cases h2 : (decide (goTrimSpace l = []) || isPfx ([';']) (goTrimSpace l)) = true
      · rw [if_pos h2, if_pos h2]; exact ih colors total pal dat lr (ln + 1) (ln' + 1)
      · rw [if_neg h2, if_neg h2]
        by_cases h3 : (!isPfx (['"']) (goTrimSpace l)) = true
        · rw [if_pos h3, if_pos h3]; exact ⟨rfl, rfl, rfl⟩
        · rw [if_neg h3, if_neg h3]
          by_cases h4 : lr < colors
          · rw [if_pos h4, if_pos h4]
            rcases hsp : splitFirstSub scSep (goTrimQuotes (goTrimSpace l)) with _ | ⟨ch, r2⟩
            · simp only [hsp]
              exact ih colors total pal dat (lr + 1) (ln + 1) (ln' + 1)
            · simp only [hsp]
              exact ih colors total
                (mapUpdate pal ch { Hex := goTrimSpace r2, Day := false, Name := [] })
                dat (lr + 1) (ln + 1) (ln' + 1)
          · rw [if_neg h4, if_neg h4]
            exact ih colors total pal (dat ++ [goTrimQuotes (goTrimSpace l)])
              (lr + 1) (ln + 1) (ln' + 1)

/-- One-step unfolding of `xpmLoop` phrased with the named line predicates
and the named palette step. -/
theorem xpmLoop_cons (colors total : Int) (pal : List (Str × Color))
    (dat : List Str) (lr : Int) (ln : Nat) (l : Str) (rest : List Str) :
    xpmLoop colors total pal dat lr ln (l :: rest) =
      if total ≤ lr then (pal, dat, ln, l :: rest)
      else if xpmSkippable l = true then xpmLoop colors total pal dat lr (ln + 1) rest
      else if xpmQuoted l = false then (pal, dat, ln + 1, rest)
      else if lr < colors then
        xpmLoop colors total (palStep pal l) dat (lr + 1) (ln + 1) rest
      else xpmLoop colors total pal (dat ++ [contentOf l]) (lr + 1) (ln + 1) rest := by
  conv_lhs => unfold xpmLoop
  by_cases h1 : total ≤ lr
  · rw [if_pos h1, if_pos h1]
  · rw [if_neg h1, if_neg h1]
    by_cases h2 : xpmSkippable l = true
    · rw [if_pos (show (decide (goTrimSpace l = []) ||
          isPfx ([';']) (goTrimSpace l)) = true from h2), if_pos h2]
    · rw [if_neg (show ¬ (decide (goTrimSpace l = []) ||
          isPfx ([';']) (goTrimSpace l)) = true from h2), if_neg h2]
      by_cases h3 : xpmQuoted l = true
      · have h3' : isPfx (['"']) (goTrimSpace l) = true := h3
        rw [if_neg (show ¬ ((!isPfx (['"']) (goTrimSpace l)) = true) by simp [h3'])]
        rw [if_neg (show ¬ (xpmQuoted l = false) by simp [h3])]
        by_cases h4 : lr < colors
        · rw [if_pos h4, if_pos h4]
          rcases hsp : splitFirstSub scSep (goTrimQuotes (goTrimSpace l)) with _ | ⟨ch, r2⟩
          · simp [hsp, palStep, contentOf]
          · simp [hsp, palStep, contentOf]
        · rw [if_neg h4, if_neg h4]
          rfl
      · have h3' : isPfx (['"']) (goTrimSpace l) = false := by
          simpa [xpmQuoted] using h3
        rw [if_pos (show (!isPfx (['"']) (goTrimSpace l)) = true by simp [h3'])]
        rw [if_pos (show xpmQuoted l = false from h3')]

/-- Inserting one blank or `;`-comment line anywhere into a stream whose
prior lines are all blank, `;`-comment, or quoted leaves the computed
palette and pixel data unchanged. -/
theorem xpmLoop_skip_insert :
    ∀ (s1 : List Str) (junk : Str) (s2 : List Str) (colors total : Int)
      (pal : List (Str × Color)) (dat : List Str) (lr : Int) (ln : Nat),
      xpmSkippable junk = true →
      (∀ l ∈ s1, xpmSkippable l = true ∨ xpmQuoted l = true) →
      (xpmLoop colors total pal dat lr ln (s1 ++ junk :: s2)).1 =
        (xpmLoop colors total pal dat lr ln (s1 ++ s2)).1 ∧
      (xpmLoop colors total pal dat lr ln (s1 ++ junk :: s2)).2.1 =
        (xpmLoop colors total pal dat lr ln (s1 ++ s2)).2.1 := by
  intro s1
  induction s1 with
  | nil =>
    intro junk s2 colors total pal dat lr ln hjunk _
    simp only [List.nil_append]
    by_cases h1 : total ≤ lr
    · cases s2 with
      | nil =>
        rw [xpmLoop_cons, if_pos h1]
        exact ⟨rfl, rfl⟩
      | cons x xs =>
        rw [xpmLoop_cons, if_pos h1, xpmLoop_cons, if_pos h1]
        exact ⟨rfl, rfl⟩
    · rw [xpmLoop_cons, if_neg h1, if_pos hjunk]
      have hirr := xpmLoop_ln_irrel s2 colors total pal dat lr (ln + 1) ln
      exact ⟨hirr.1, hirr.2.1⟩
  | cons l s1' ih =>
    intro junk s2 colors total pal dat lr ln hjunk hs1
    have hl := hs1 l (by simp)
    have hs1' : ∀ x ∈ s1', xpmSkippable x = true ∨ xpmQuoted x = true :=
      fun x hx => hs1 x (List.mem_cons_of_mem l hx)
    simp only [List.cons_append]
    rw [xpmLoop_cons, xpmLoop_cons]
    by_cases h1 : total ≤ lr
    · rw [if_pos h1, if_pos h1]; exact ⟨rfl, rfl⟩
    · rw [if_neg h1, if_neg h1]
      rcases hl with hskip | hquot
      · rw [if_pos hskip, if_pos hskip]
        exact ih junk s2 colors total pal dat lr (ln + 1) hjunk hs1'
      · have hnskip : ¬ xpmSkippable l = true := by
          obtain ⟨hne, hnsemi⟩ := quoted_not_skippable hquot
          simp [xpmSkippable, hne, hnsemi]
        rw [if_neg hnskip, if_neg hnskip]
        rw [if_neg (show ¬ (xpmQuoted l = false) by simp [hquot])]
        rw [if_neg (show ¬ (xpmQuoted l = false) by simp [hquot])]
        by_cases h4 : lr < colors
        · rw [if_pos h4, if_pos h4]
          exact ih junk s2 colors total (palStep pal l) dat (lr + 1) (ln + 1) hjunk hs1'
        · rw [if_neg h4, if_neg h4]
          exact ih junk s2 colors total pal (dat ++ [contentOf l]) (lr + 1) (ln + 1)
            hjunk hs1'

/-! ### Claim C7: skipped lines inside a bitmap -/

/-- Claim C7, counterexample: a `#`-comment line inside the bitmap stream is
not skipped — it terminates the read.  With header `"1 1 1 1"`, the stream
`"a c #fff"`, `#cmt`, `"x"` yields no pixel rows, while the same stream with
the comment line removed yields the row `x`; the claim requires the two
bitmaps to be equal. -/
theorem c7_counterexample :
    (∃ icon a r, parseXPM (("f").toList) (("\"1 1 1 1\"").toList) 1
        [("\"a c #fff\"").toList, ("#cmt").toList, ("\"x\"").toList] =
          .ok (icon, a, r) ∧ icon.Data = []) ∧
    (∃ icon a r, parseXPM (("f").toList) (("\"1 1 1 1\"").toList) 1
        [("\"a c #fff\"").toList, ("\"x\"").toList] =
          .ok (icon, a, r) ∧ icon.Data = [("x").toList]) := by
  constructor
  · exact ⟨_, _, _, rfl, by decide⟩
  · exact ⟨_, _, _, rfl, by decide⟩

/-- Claim C7 (amended): blank lines and `;`-comment lines are skipped by the
bitmap sub-record parser without counting toward the required total, so the
bitmap parsed from a stream equals the bitmap parsed with such a line
removed (`#`-comment lines, by contrast, stop the read — see the
counterexample): inserting one skippable line at any point whose preceding
lines are themselves skippable or quoted leaves the parsed bitmap value
unchanged, and header errors are also unchanged. -/
theorem c7_skip_amended (file value : Str) (ln : Nat) (s1 : List Str)
    (junk : Str) (s2 : List Str)
    (hjunk : xpmSkippable junk = true)
    (hs1 : ∀ l ∈ s1, xpmSkippable l = true ∨ xpmQuoted l = true) :
    (∀ icon1 a1 r1, parseXPM file value ln (s1 ++ junk :: s2) = .ok (icon1, a1, r1) →
      ∃ icon2 a2 r2, parseXPM file value ln (s1 ++ s2) = .ok (icon2, a2, r2) ∧
        icon1 = icon2) ∧
    (∀ e, parseXPM file value ln (s1 ++ junk :: s2) = .error e →
      parseXPM file value ln (s1 ++ s2) = .error e) := by
  rcases hfw : fieldsWS (goTrimQuotes value) with _ | ⟨p0, _ | ⟨p1, _ | ⟨p2, _ | ⟨p3, ps⟩⟩⟩⟩
  · exact ⟨fun icon1 a1 r1 hok => by simp [parseXPM, hfw] at hok,
      fun e he => by simpa [parseXPM, hfw] using he⟩
  · exact ⟨fun icon1 a1 r1 hok => by simp [parseXPM, hfw] at hok,
      fun e he => by simpa [parseXPM, hfw] using he⟩
  · exact ⟨fun icon1 a1 r1 hok => by simp [parseXPM, hfw] at hok,
      fun e he => by simpa [parseXPM, hfw] using he⟩
  · exact ⟨fun icon1 a1 r1 hok => by simp [parseXPM, hfw] at hok,
      fun e he => by simpa [parseXPM, hfw] using he⟩
  · rcases h0 : goAtoi p0 with _ | w
    · exact ⟨fun icon1 a1 r1 hok => by simp [parseXPM, hfw, h0] at hok,
        fun e he => by simpa [parseXPM, hfw, h0] using he⟩
    · rcases h1 : goAtoi p1 with _ | h
      · exact ⟨fun icon1 a1 r1 hok => by simp [parseXPM, hfw, h0, h1] at hok,
          fun e he => by simpa [parseXPM, hfw, h0, h1] using he⟩
      · rcases h2 : goAtoi p2 with _ | cz
        · exact ⟨fun icon1 a1 r1 hok => by simp [parseXPM, hfw, h0, h1, h2] at hok,
            fun e he => by simpa [parseXPM, hfw, h0, h1, h2] using he⟩
        · rcases h3 : goAtoi p3 with _ | cp
          · exact ⟨fun icon1 a1 r1 hok => by
                simp [parseXPM, hfw, h0, h1, h2, h3] at hok,
              fun e he => by simpa [parseXPM, hfw, h0, h1, h2, h3] using he⟩
          · have hins := xpmLoop_skip_insert s1 junk s2 cz (cz + h) [] [] 0 ln hjunk hs1
            constructor
            · intro icon1 a1 r1 hok
              simp only [parseXPM, hfw, h0, h1, h2, h3] at hok ⊢
              refine ⟨_, _, _, rfl, ?_⟩
              have h' := hok
              simp only [Except.ok.injEq, Prod.mk.injEq] at h'
              rw [← h'.1, hins.1, hins.2]
            · intro e he
              simp [parseXPM, hfw, h0, h1, h2, h3] at he
  

/-! ### Claim C2: the bitmap counting law -/

theorem palKeyOf_eq_some {l : Str} {k : Str} (hk : palKeyOf l = some k) :
    ∃ v, splitFirstSub scSep (contentOf l) = some (k, v) := by
  unfold palKeyOf at hk
  rcases hsp : splitFirstSub scSep (contentOf l) with _ | ⟨k', v⟩
  · rw [hsp] at hk; exact absurd hk (by simp)
  · rw [hsp] at hk
    have hkk : k' = k := by simpa using hk
    exact ⟨v, by rw [hkk]⟩


theorem palStep_of_key {l : Str} {k v : Str}
    (hsp : splitFirstSub scSep (contentOf l) = some (k, v)) (pal : List (Str × Color)) :
    palStep pal l = mapUpdate pal k { Hex := goTrimSpace v, Day := false, Name := [] } := by
  simp [palStep, hsp]

/-- Folding the palette step over lines with present, pairwise-distinct,
fresh keys grows the palette by exactly one entry per line. -/
theorem foldl_palStep_length :
    ∀ (lines : List Str) (pal : List (Str × Color)),
      (∀ l ∈ lines, (palKeyOf l).isSome = true) →
      (lines.map palKeyOf).Nodup →
      (∀ l ∈ lines, ∀ k, palKeyOf l = some k → mapLookup pal k = none) →
      (lines.foldl palStep pal).length = pal.length + lines.length := by
  intro lines
  induction lines with
  | nil => intro pal _ _ _; simp
  | cons l rest ih =>
    intro pal hsome hnodup hfresh
    obtain ⟨k, hk⟩ := Option.isSome_iff_exists.mp (hsome l (List.mem_cons_self l rest))
    obtain ⟨v, hsp⟩ := palKeyOf_eq_some hk
    have hnotin : palKeyOf l ∉ rest.map palKeyOf := by
      have := hnodup
      rw [List.map_cons, List.nodup_cons] at this
      exact this.1
    have hnodup' : (rest.map palKeyOf).Nodup := by
      have := hnodup
      rw [List.map_cons, List.nodup_cons] at this
      exact this.2
    have hfresh' : ∀ l' ∈ rest, ∀ k2, palKeyOf l' = some k2 →
        mapLookup (mapUpdate pal k { Hex := goTrimSpace v, Day := false, Name := [] })
          k2 = none := by
      intro l' hl' k2 hk2
      have hne : k ≠ k2 := by
        intro he
        apply hnotin
        rw [hk, he, ← hk2]
        exact List.mem_map_of_mem palKeyOf hl'
      rw [mapLookup_update_other pal k k2 _ hne]
      exact hfresh l' (List.mem_cons_of_mem l hl') k2 hk2
    simp only [List.foldl_cons, palStep_of_key hsp]
    rw [ih (mapUpdate pal k { Hex := goTrimSpace v, Day := false, Name := [] })
      (fun x hx => hsome x (List.mem_cons_of_mem l hx)) hnodup' hfresh']
    rw [mapUpdate_length_fresh pal k _ (hfresh l (List.mem_cons_self l rest) k hk)]
    simp only [List.length_cons]
    omega

/-- Inversion of a successful `parseXPM`: the header fields and the loop
results. -/
theorem parseXPM_ok_inv (file value : Str) (ln : Nat) (s : List Str)
    (icon : XPMIcon) (ln' : Nat) (rest : List Str)
    (hok : parseXPM file value ln s = .ok (icon, ln', rest)) :
    icon.Palette = (xpmLoop icon.Colors (icon.Colors + icon.Height) [] [] 0 ln s).1 ∧
    icon.Data = (xpmLoop icon.Colors (icon.Colors + icon.Height) [] [] 0 ln s).2.1 ∧
    rest = (xpmLoop icon.Colors (icon.Colors + icon.Height) [] [] 0 ln s).2.2.2 := by
  rcases hfw : fieldsWS (goTrimQuotes value) with _ | ⟨p0, _ | ⟨p1, _ | ⟨p2, _ | ⟨p3, ps⟩⟩⟩⟩
  · simp [parseXPM, hfw] at hok
  · simp [parseXPM, hfw] at hok
  · simp [parseXPM, hfw] at hok
  · simp [parseXPM, hfw] at hok
  · rcases h0 : goAtoi p0 with _ | w
    · simp [parseXPM, hfw, h0] at hok
    · rcases h1 : goAtoi p1 with _ | h
      · simp [parseXPM, hfw, h0, h1] at hok
      · rcases h2 : goAtoi p2 with _ | cz
        · simp [parseXPM, hfw, h0, h1, h2] at hok
        · rcases h3 : goAtoi p3 with _ | cp
          · simp [parseXPM, hfw, h0, h1, h2, h3] at hok
          · simp only [parseXPM, hfw, h0, h1, h2, h3, Except.ok.injEq,
              Prod.mk.injEq] at hok
            obtain ⟨hicon, -, hrest⟩ := hok
            rw [← hicon]
            exact ⟨rfl, rfl, hrest.symm⟩

/-- Claim C2, counterexample: with header `"1 0 1 1"` (C = 1, H = 0) and a
stream supplying one quoted line (which is at least C + H quoted lines), the
resulting palette has 0 entries, not the C = 1 the claim requires, because
the quoted line has no ` c ` separator. -/
theorem c2_counterexample :
    ∃ icon a r,
      parseXPM (("f").toList) (("\"1 0 1 1\"").toList) 1 [("\"ab\"").toList] =
          .ok (icon, a, r) ∧
        icon.Colors = 1 ∧ icon.Height = 0 ∧ icon.Palette.length = 0 :=
  ⟨_, _, _, rfl, by decide, by decide, by decide⟩

/-- Claim C2 (amended): for a parsed bitmap the palette has at most `C`
entries and the pixel data at most `H` rows; when the stream supplies at
least `C + H` quoted lines (with `C, H ≥ 0`), the parser consumes exactly
those lines — the first `C` as palette lines, the following `H` as pixel
rows, so `Data` has exactly `H` rows; the palette reaches exactly `C`
entries only under the extra conditions that each of the first `C` quoted
lines contains the ` c ` separator and their key tokens are pairwise
distinct. -/
theorem c2_bitmap_counting_amended (file value : Str) (ln : Nat) (s : List Str)
    (icon : XPMIcon) (ln' : Nat) (rest : List Str)
    (hok : parseXPM file value ln s = .ok (icon, ln', rest)) :
    (icon.Palette.length ≤ icon.Colors.toNat ∧
     icon.Data.length ≤ icon.Height.toNat) ∧
    (0 ≤ icon.Colors → 0 ≤ icon.Height →
      (∀ l ∈ s.take (icon.Colors + icon.Height).toNat, xpmQuoted l = true) →
      (icon.Colors + icon.Height).toNat ≤ s.length →
      rest = s.drop (icon.Colors + icon.Height).toNat ∧
      icon.Data =
        ((s.take (icon.Colors + icon.Height).toNat).drop icon.Colors.toNat).map contentOf ∧
      icon.Data.length = icon.Height.toNat ∧
      ((∀ l ∈ s.take icon.Colors.toNat, (palKeyOf l).isSome = true) →
        ((s.take icon.Colors.toNat).map palKeyOf).Nodup →
        icon.Palette.length = icon.Colors.toNat)) := by
  obtain ⟨hpal, hdat, hrest⟩ := parseXPM_ok_inv file value ln s icon ln' rest hok
  constructor
  · constructor
    · rw [hpal]
      have hb := xpmLoop_pal_bound s icon.Colors (icon.Colors + icon.Height) [] [] 0 ln
      exact le_trans hb (by simp)
    · rw [hdat]
      have hb := xpmLoop_dat_bound s icon.Colors (icon.Colors + icon.Height) [] [] 0 ln
      refine le_trans hb ?_
      simp only [List.length_nil, Nat.zero_add]
      omega
  · intro hc hh hq hlen
    have hrun := xpmLoop_run (icon.Colors + icon.Height).toNat icon.Colors
      (icon.Colors + icon.Height) [] [] 0 ln s (by omega) hq hlen
    have hsub : (icon.Colors - 0).toNat = icon.Colors.toNat := by omega
    have hmin : min (icon.Colors + icon.Height).toNat icon.Colors.toNat =
        icon.Colors.toNat := by omega
    rw [hrun] at hpal hdat hrest
    simp only [hsub, hmin, List.nil_append] at hpal hdat hrest
    refine ⟨hrest, hdat, ?_, ?_⟩
    · rw [hdat]
      rw [List.length_map, List.length_drop, List.length_take]
      omega
    · intro hsome hnodup
      rw [hpal]
      rw [foldl_palStep_length (s.take icon.Colors.toNat) [] hsome hnodup
        (fun _ _ _ _ => rfl)]
      simp only [List.length_nil, List.length_take, Nat.zero_add]
      omega

/-- The concrete bitmap used as the C2 witness input. -/
def c2exIcon : XPMIcon :=
  { Width := 2, Height := 2, Colors := 2, CharsPerPixel := 1,
    Data := [("xy").toList, ("zw").toList],
    Palette :=
      [((("a").toList), { Hex := ("#1").toList, Day := false, Name := [] }),
       ((("b").toList), { Hex := ("#2").toList, Day := false, Name := [] })] }

/-- The concrete bitmap stream used as the C2 witness input. -/
def c2exStream : List Str :=
  [("\"a c #1\"").toList, ("\"b c #2\"").toList, ("\"xy\"").toList,
   ("\"zw\"").toList, ("[end]").toList]

/-- Claim C2 amended, witness: header `"2 2 2 1"` with two well-formed
palette lines and two pixel rows gives exactly 2 palette entries and 2
rows, and leaves the `[end]` line unconsumed. -/
theorem c2_bitmap_counting_amended_witness :
    c2exIcon.Data.length = c2exIcon.Height.toNat ∧
    c2exIcon.Palette.length = c2exIcon.Colors.toNat := by
  have R := c2_bitmap_counting_amended (("f").toList) (("\"2 2 2 1\"").toList) 1
    c2exStream c2exIcon 5 [("[end]").toList] (by decide)
  have R2 := R.2 (by decide) (by decide) (by decide) (by decide)
  exact ⟨R2.2.2.1, R2.2.2.2 (by decide) (by decide)⟩

/-- The concrete bitmap used as the C7 witness. -/
def c7exIcon : XPMIcon :=
  { Width := 1, Height := 1, Colors := 1, CharsPerPixel := 1,
    Data := [("x").toList],
    Palette := [((("a").toList), { Hex := ("#fff").toList, Day := false, Name := [] })] }

/-- Claim C7 amended, witness: inserting a `; cmt` comment line between the
palette line and the pixel row leaves the parsed bitmap unchanged. -/
theorem c7_skip_amended_witness :
    ∃ icon2 a2 r2,
      parseXPM (("f").toList) (("\"1 1 1 1\"").toList) 1
          ([("\"a c #fff\"").toList] ++ [("\"x\"").toList]) = .ok (icon2, a2, r2) ∧
        c7exIcon = icon2 :=
  (c7_skip_amended (("f").toList) (("\"1 1 1 1\"").toList) 1
      [("\"a c #fff\"").toList] (("; cmt").toList) [("\"x\"").toList]
      (by decide) (by decide)).1 c7exIcon 4 [] (by decide)

/-! ### Claim C4: end of input inside a section -/

theorem drawOrderBody_no_end (dw : DrawOrder) (ln : Nat) (stream : List Str)
    (h : ∀ r ∈ stream, cleanLine r ≠ endTag) :
    (parseDrawOrderBody dw ln stream).2.2 = [] := by
  induction stream generalizing dw ln with
  | nil => simp [parseDrawOrderBody]
  | cons l rest ih =>
    have hl := h l (by simp)
    have hrest : ∀ r ∈ rest, cleanLine r ≠ endTag := fun r hr => h r (by simp [hr])
    unfold parseDrawOrderBody
    by_cases h1 : cleanLine l = []
    · rw [if_pos h1]; exact ih _ _ hrest
    · rw [if_neg h1, if_neg hl]
      cases hsplit : splitFirstChar '=' (cleanLine l) with
      | none => exact ih _ _ hrest
      | some kv =>
        by_cases h2 : goTrimSpace kv.1 = ("Type").toList
        · simp only [h2, if_pos]; exact ih _ _ hrest
        · simp only [h2, if_neg, if_false]; exact ih _ _ hrest

/-- Claim C4, counterexample: a file ending while a `[_drawOrder]` section is
still open (no `[end]` seen) parses successfully — `parseDrawOrder` treats
end of input as normal termination — although the claim requires every
end-of-input inside an open section to be a fatal parse error. -/
theorem c4_counterexample :
    ∃ d, parseFile (("f").toList)
        [("[_drawOrder]").toList, ("Type=0x01,1").toList] = .ok d ∧
      d.Draw.Points = [("0x01").toList] := by
  refine ⟨_, rfl, ?_⟩
  decide

/-- Claim C4 (amended): end of input while a header, point, line, polygon, or
unknown section is open is a fatal `ParseError` whose message reads
"unexpected end of file in/while …" and names the section kind, and no
Document is returned; but end of input while a `[_drawOrder]` section is
open is tolerated and the parse succeeds; end of input at top level also
succeeds. -/
theorem c4_eof_amended (file : Str) (h : Header) (pt : PointType) (lt : LineType)
    (pg : PolygonType) (dw : DrawOrder) (acc : TYPFile) (fuel ln : Nat)
    (rest : List Str) (hrest : ∀ r ∈ rest, cleanLine r ≠ endTag) :
    (parseHeaderBody file h ln [] = .error (.parseE (mkPE ((ln : Int)) (("unexpected end of file in header section").toList) file))) ∧
    (parsePointBody file fuel pt ln [] = .error (.parseE (mkPE ((ln : Int)) (("unexpected end of file in point section").toList) file))) ∧
    (parseLineBody file fuel lt ln [] = .error (.parseE (mkPE ((ln : Int)) (("unexpected end of file in line section").toList) file))) ∧
    (parsePolygonBody file fuel pg ln [] = .error (.parseE (mkPE ((ln : Int)) (("unexpected end of file in polygon section").toList) file))) ∧
    (skipToEndBody file ln [] = .error (.parseE (mkPE ((ln : Int)) (("unexpected end of file while skipping section").toList) file))) ∧
    (parseDrawOrderBody dw ln [] = (dw, ln, [])) ∧
    (parseTop file fuel acc ln [] = .ok acc) ∧
    (∃ d, parseTop file (fuel + 1) acc ln ((("[_drawOrder]").toList) :: rest) = .ok d) := by
  refine ⟨rfl, ?_, ?_, ?_, rfl, rfl, ?_, ?_⟩
  · cases fuel <;> rfl
  · cases fuel <;> rfl
  · cases fuel <;> rfl
  · cases fuel <;> rfl
  · have hclean : cleanLine (("[_drawOrder]").toList) = ("[_drawOrder]").toList := by decide
    unfold parseTop
    rw [hclean]
    have h1 : (("[_drawOrder]").toList : Str) ≠ [] := by decide
    rw [if_neg h1]
    have h2 : isPfx (['[']) (("[_drawOrder]").toList) = true := by decide
    simp only [h2, if_true]
    have h3 : goTrimSpace (goTrimBrackets (("[_drawOrder]").toList)) =
        ("_drawOrder").toList := by decide
    rw [h3]
    simp only [if_neg (by decide : ¬(("_drawOrder").toList = ("_id").toList)),
      if_neg (by decide : ¬(("_drawOrder").toList = ("_point").toList)),
      if_neg (by decide : ¬(("_drawOrder").toList = ("_line").toList)),
      if_neg (by decide : ¬(("_drawOrder").toList = ("_polygon").toList)),
      if_pos (rfl : (("_drawOrder").toList : Str) = ("_drawOrder").toList)]
    rw [drawOrderBody_no_end _ _ _ hrest]
    simp only [if_true]
    cases fuel with
    | zero => exact ⟨_, rfl⟩
    | succ f => exact ⟨_, rfl⟩

/-- Claim C4 amended, witness at concrete values. -/
theorem c4_eof_amended_witness :
    (parseHeaderBody (("f").toList) (initTYP (("f").toList)).Header 3 [] =
      .error (.parseE (mkPE 3
        (("unexpected end of file in header section").toList) (("f").toList)))) ∧
    (∃ d, parseTop (("f").toList) 3 (initTYP (("f").toList)) 0
        ((("[_drawOrder]").toList) :: [("Type=0x01,1").toList]) = .ok d) :=
  ⟨(c4_eof_amended (("f").toList) (initTYP (("f").toList)).Header initPoint initLine
      initPolygon (initTYP (("f").toList)).Draw (initTYP (("f").toList)) 2 3
      [("Type=0x01,1").toList] (by decide)).1,
   (c4_eof_amended (("f").toList) (initTYP (("f").toList)).Header initPoint initLine
      initPolygon (initTYP (("f").toList)).Draw (initTYP (("f").toList)) 2 0
      [("Type=0x01,1").toList] (by decide)).2.2.2.2.2.2.2⟩

/-! ### Claim C5: fatal numeric header errors -/

/-- Claim C5 (confirmed): a metadata line whose key is `CodePage`, `FID`,
`ProductCode` or `MapID` and whose value does not parse as an integer makes
the whole parse abort with a `ParseError` carrying the line number and the
offending key in its message, and no `TYPFile` is returned: `parseHeaderBody`
fails on such a line, and `parseTop` entering the `[_id]` section with that
line next propagates exactly that error. -/
theorem c5_header_numeric_fatal (file : Str) (h : Header) (ln : Nat) (l : Str)
    (rest : List Str) (k v : Str)
    (hsplit : splitFirstChar '=' (cleanLine l) = some (k, v))
    (hnum : goTrimSpace k = ("CodePage").toList ∨ goTrimSpace k = ("FID").toList ∨
            goTrimSpace k = ("ProductCode").toList ∨ goTrimSpace k = ("MapID").toList)
    (hbad : goAtoi (goTrimSpace v) = none) :
    parseHeaderBody file h ln (l :: rest) =
      .error (.parseE (mkPE (ln + 1 : Nat)
        (("invalid value for ").toList ++ goTrimSpace k ++
          (": ").toList ++ goTrimSpace v) file)) ∧
    (∀ fuel (acc : TYPFile) idLine, cleanLine idLine = ("[_id]").toList →
      parseTop file (fuel + 1) acc ln (idLine :: l :: rest) =
        .error (.parseE (mkPE (ln + 1 + 1 : Nat)
          (("invalid value for ").toList ++ goTrimSpace k ++
            (": ").toList ++ goTrimSpace v) file))) := by
  have hne : cleanLine l ≠ [] := by
    intro hc; rw [hc] at hsplit; simp [splitFirstChar] at hsplit
  have hnend : cleanLine l ≠ endTag := by
    intro hc; rw [hc] at hsplit
    have : splitFirstChar '=' endTag = none := by decide
    rw [this] at hsplit; exact Option.noConfusion hsplit
  have main : ∀ (h : Header) (ln' : Nat), parseHeaderBody file h ln' (l :: rest) =
      .error (.parseE (mkPE (ln' + 1 : Nat)
        (("invalid value for ").toList ++ goTrimSpace k ++
          (": ").toList ++ goTrimSpace v) file)) := by
    intro h ln'
    unfold parseHeaderBody
    rw [if_neg hne, if_neg hnend, hsplit]
    dsimp only
    rcases hnum with hk | hk | hk | hk
    · rw [hk, if_pos rfl, hbad]; simp
    · rw [hk, if_neg (by decide : ¬((("FID").toList : Str) = ("CodePage").toList)),
        if_pos rfl, hbad]
      simp
    · rw [hk, if_neg (by decide : ¬((("ProductCode").toList : Str) = ("CodePage").toList)),
        if_neg (by decide : ¬((("ProductCode").toList : Str) = ("FID").toList)),
        if_pos rfl, hbad]
      simp
    · rw [hk, if_neg (by decide : ¬((("MapID").toList : Str) = ("CodePage").toList)),
        if_neg (by decide : ¬((("MapID").toList : Str) = ("FID").toList)),
        if_neg (by decide : ¬((("MapID").toList : Str) = ("ProductCode").toList)),
        if_pos rfl, hbad]
      simp
  refine ⟨main h ln, ?_⟩
  intro fuel acc idLine hid
  unfold parseTop
  rw [hid]
  rw [if_neg (by decide : (("[_id]").toList : Str) ≠ [])]
  simp only [(by decide : isPfx (['[']) (("[_id]").toList) = true), if_true]
  rw [(by decide : goTrimSpace (goTrimBrackets (("[_id]").toList)) = ("_id").toList)]
  rw [if_pos (rfl : (("_id").toList : Str) = ("_id").toList)]
  rw [main acc.Header (ln + 1)]

/-- Claim C5, witness: the concrete scenario `FID=0xZZ.typ` on line 2 of an
`[_id]` section. -/
theorem c5_header_numeric_fatal_witness :
    parseHeaderBody (("f").toList) (initTYP (("f").toList)).Header 1
        [("FID=0xZZ.typ").toList, ("[end]").toList] =
      .error (.parseE (mkPE (2 : Nat)
        (("invalid value for ").toList ++ ("FID").toList ++
          (": ").toList ++ ("0xZZ.typ").toList) (("f").toList))) :=
  (c5_header_numeric_fatal (("f").toList) (initTYP (("f").toList)).Header 1
      (("FID=0xZZ.typ").toList) [("[end]").toList]
      (("FID").toList) (("0xZZ.typ").toList) (by decide)
      (by right; left; decide) (by decide)).1

/-- Claim C6 amended, witness: a five-field header with a negative first
integer parses successfully with the declared dimensions. -/
theorem c6_xpm_header_amended_witness :
    ∃ icon ln' rest,
      parseXPM (("f").toList) (("\"-1 2 3 4 5\"").toList) 7 [] = .ok (icon, ln', rest) ∧
      icon.Width = -1 ∧ icon.Height = 2 ∧ icon.Colors = 3 ∧ icon.CharsPerPixel = 4 :=
  ((c6_xpm_header_amended (("f").toList) (("\"-1 2 3 4 5\"").toList) 7 []).2
      (("-1").toList) (("2").toList) (("3").toList) (("4").toList) [("5").toList]
      (by decide)).2.2.2.2 (-1) 2 3 4 (by decide) (by decide) (by decide) (by decide)

/-! ### Claim C3: the label overwrite law -/

theorem mapUpdate_countP_other (m : List (Str × α)) (k c : Str) (v : α) (h : k ≠ c) :
    (mapUpdate m k v).countP (fun p => decide (p.1 = c)) =
      m.countP (fun p => decide (p.1 = c)) := by
  induction m with
  | nil =>
    simp only [mapUpdate, List.countP_cons, List.countP_nil, decide_eq_true_eq]
    simp [h]
  | cons q rest ih =>
    unfold mapUpdate
    by_cases hq : q.1 = k
    · rw [if_pos hq]
      rcases q with ⟨qk, qv⟩
      simp only [List.countP_cons, decide_eq_true_eq]
      simp only at hq
      rw [hq]
    · rcases q with ⟨qk, qv⟩
      simp only at hq
      rw [if_neg hq]
      simp only [List.countP_cons, ih]

theorem mapUpdate_countP_self (m : List (Str × α)) (k : Str) (v : α) :
    (mapUpdate m k v).countP (fun p => decide (p.1 = k)) =
      if m.countP (fun p => decide (p.1 = k)) = 0 then 1
      else m.countP (fun p => decide (p.1 = k)) := by
  induction m with
  | nil =>
    simp [mapUpdate, List.countP_cons]
  | cons q rest ih =>
    unfold mapUpdate
    by_cases hq : q.1 = k
    · rcases q with ⟨qk, qv⟩
      simp only at hq
      rw [if_pos hq]
      simp only [List.countP_cons, decide_eq_true_eq, hq, if_true, eq_self_iff_true]
      rw [if_neg (by omega : ¬ (List.countP (fun p => decide (p.1 = k)) rest + 1 = 0))]
    · rcases q with ⟨qk, qv⟩
      simp only at hq
      rw [if_neg hq]
      simp only [List.countP_cons, ih, decide_eq_true_eq, if_neg hq, Nat.add_zero]

/-- A point-section property line that neither consumes extra stream lines
(no bitmap key) nor writes the label for language code `c`. -/
def ptNeutral (c : Str) (l : Str) : Bool :=
  match splitFirstChar '=' (cleanLine l) with
  | none => true
  | some (k, v) =>
    !(goTrimSpace k == ("DayXpm").toList) && !(goTrimSpace k == ("NightXpm").toList) &&
      (!isStringKey (goTrimSpace k) || !((parseStringVal (goTrimSpace v)).1 == c))

/-- A line that parses as a `String`-family property assigning text `v` to
language code `c`. -/
def isStringLineFor (c v : Str) (l : Str) : Bool :=
  match splitFirstChar '=' (cleanLine l) with
  | none => false
  | some (k, w) =>
    isStringKey (goTrimSpace k) && ((parseStringVal (goTrimSpace w)) == (c, v))

theorem stringKey_cases {k : Str} (h : isStringKey k = true) :
    k = ("String").toList ∨ k = ("String1").toList ∨ k = ("String2").toList ∨
      k = ("String3").toList ∨ k = ("String4").toList := by
  unfold isStringKey at h
  simp only [Bool.or_eq_true, decide_eq_true_eq] at h
  tauto

/-- Processing one neutral, non-terminator line with `parsePointBody` just
moves to the next line, with the label map unchanged at code `c`. -/
theorem pointBody_neutral_step (file : Str) (fuel : Nat) (pt : PointType) (ln : Nat)
    (l : Str) (rest : List Str) (c : Str)
    (hne : cleanLine l ≠ endTag) (hn : ptNeutral c l = true) :
    ∃ pt', parsePointBody file (fuel + 1) pt ln (l :: rest) =
        parsePointBody file fuel pt' (ln + 1) rest ∧
      mapLookup pt'.Labels c = mapLookup pt.Labels c ∧
      pt'.Labels.countP (fun p => decide (p.1 = c)) =
        pt.Labels.countP (fun p => decide (p.1 = c)) := by
  have hred : parsePointBody file (fuel + 1) pt ln (l :: rest) =
      (if cleanLine l = [] then parsePointBody file fuel pt (ln + 1) rest
       else if cleanLine l = endTag then .ok (pt, ln + 1, rest)
       else
         match parsePointProperty file pt (cleanLine l) (ln + 1) rest with
         | .error e => .error e
         | .ok (pt', ln', rest') => parsePointBody file fuel pt' ln' rest') := rfl
  rw [hred]
  by_cases hb : cleanLine l = []
  · rw [if_pos hb]
    exact ⟨pt, rfl, rfl, rfl⟩
  · rw [if_neg hb, if_neg hne]
    unfold ptNeutral at hn
    unfold parsePointProperty
    rcases hsp : splitFirstChar '=' (cleanLine l) with _ | ⟨k, w⟩
    · exact ⟨pt, rfl, rfl, rfl⟩
    · try rw [hsp] at hn
      try dsimp only at hn
      try dsimp only
      simp only [Bool.and_eq_true, Bool.or_eq_true, Bool.not_eq_eq_eq_not,
        Bool.not_true, beq_eq_false_iff_ne, ne_eq, Bool.not_eq_true] at hn
      obtain ⟨⟨hnd, hnn⟩, hstr⟩ := hn
      by_cases h1 : goTrimSpace k = ("Type").toList
      · rw [if_pos h1]; exact ⟨_, rfl, rfl, rfl⟩
      · rw [if_neg h1]
        by_cases h2 : goTrimSpace k = ("SubType").toList
        · rw [if_pos h2]; exact ⟨_, rfl, rfl, rfl⟩
        · rw [if_neg h2]
          by_cases h3 : isStringKey (goTrimSpace k) = true
          · rw [if_pos h3]
            rcases hstr with hstr | hstr
            · rw [hstr] at h3; exact absurd h3 (by simp)
            · by_cases h4 : (parseStringVal (goTrimSpace w)).1 ≠ []
              · rw [if_pos h4]
                refine ⟨_, rfl, ?_, ?_⟩
                · exact mapLookup_update_other pt.Labels _ c _ hstr
                · exact mapUpdate_countP_other pt.Labels _ c _ hstr
              · rw [if_neg h4]; exact ⟨pt, rfl, rfl, rfl⟩
          · rw [if_neg h3]
            by_cases h5 : goTrimSpace k = ("DayXpm").toList
            · exact absurd h5 hnd
            · rw [if_neg h5]
              by_cases h6 : goTrimSpace k = ("NightXpm").toList
              · exact absurd h6 hnn
              · rw [if_neg h6]
                by_cases h7 : goTrimSpace k = ("FontStyle").toList
                · rw [if_pos h7]; exact ⟨_, rfl, rfl, rfl⟩
                · rw [if_neg h7]; exact ⟨pt, rfl, rfl, rfl⟩

/-- Processing a `String`-family line for code `c` with `parsePointBody`
updates the label map at `c` and moves on. -/
theorem pointBody_string_step (file : Str) (fuel : Nat) (pt : PointType) (ln : Nat)
    (l : Str) (rest : List Str) (c v : Str)
    (hs : isStringLineFor c v l = true) (hc : c ≠ []) :
    parsePointBody file (fuel + 1) pt ln (l :: rest) =
      parsePointBody file fuel
        { pt with Labels := mapUpdate pt.Labels c v } (ln + 1) rest := by
  unfold isStringLineFor at hs
  rcases hsp : splitFirstChar '=' (cleanLine l) with _ | ⟨k, w⟩
  · rw [hsp] at hs; simp at hs
  · rw [hsp] at hs
    simp only [Bool.and_eq_true, beq_iff_eq] at hs
    obtain ⟨hkey, hval⟩ := hs
    have hb : cleanLine l ≠ [] := by
      intro hb; rw [hb] at hsp; simp [splitFirstChar] at hsp
    have hne : cleanLine l ≠ endTag := by
      intro hb; rw [hb] at hsp
      have : splitFirstChar '=' endTag = none := by decide
      rw [this] at hsp; exact Option.noConfusion hsp
    have hred : parsePointBody file (fuel + 1) pt ln (l :: rest) =
        (if cleanLine l = [] then parsePointBody file fuel pt (ln + 1) rest
         else if cleanLine l = endTag then .ok (pt, ln + 1, rest)
         else
           match parsePointProperty file pt (cleanLine l) (ln + 1) rest with
           | .error e => .error e
           | .ok (pt', ln', rest') => parsePointBody file fuel pt' ln' rest') := rfl
    rw [hred]
    rw [if_neg hb, if_neg hne]
    unfold parsePointProperty
    rw [hsp]
    try dsimp only
    have hnt : ¬ goTrimSpace k = ("Type").toList := by
      rcases stringKey_cases hkey with h | h | h | h | h <;> rw [h] <;> decide
    have hns : ¬ goTrimSpace k = ("SubType").toList := by
      rcases stringKey_cases hkey with h | h | h | h | h <;> rw [h] <;> decide
    rw [if_neg hnt, if_neg hns, if_pos hkey, hval]
    rw [if_pos (show (c, v).1 ≠ [] from hc)]

/-- Iterating `pointBody_neutral_step` over a block of neutral lines. -/
theorem pointBody_neutral_chain (file : Str) (mid : List Str) :
    ∀ (fuel : Nat) (pt : PointType) (ln : Nat) (rest : List Str) (c : Str),
      (∀ m ∈ mid, cleanLine m ≠ endTag ∧ ptNeutral c m = true) →
      ∃ pt', parsePointBody file (fuel + mid.length) pt ln (mid ++ rest) =
          parsePointBody file fuel pt' (ln + mid.length) rest ∧
        mapLookup pt'.Labels c = mapLookup pt.Labels c ∧
        pt'.Labels.countP (fun p => decide (p.1 = c)) =
          pt.Labels.countP (fun p => decide (p.1 = c)) := by
  induction mid with
  | nil => intro fuel pt ln rest c _; exact ⟨pt, by simp, rfl, rfl⟩
  | cons m mid' ih =>
    intro fuel pt ln rest c hmid
    obtain ⟨hne, hn⟩ := hmid m (List.mem_cons_self m mid')
    have hmid' : ∀ x ∈ mid', cleanLine x ≠ endTag ∧ ptNeutral c x = true :=
      fun x hx => hmid x (List.mem_cons_of_mem m hx)
    obtain ⟨pt1, hstep, hl1, hc1⟩ :=
      pointBody_neutral_step file (fuel + mid'.length) pt ln m (mid' ++ rest) c hne hn
    obtain ⟨pt2, hchain, hl2, hc2⟩ := ih fuel pt1 (ln + 1) rest c hmid'
    refine ⟨pt2, ?_, hl2.trans hl1, hc2.trans hc1⟩
    have harith : fuel + (m :: mid').length = fuel + mid'.length + 1 := by
      simp only [List.length_cons]; omega
    rw [harith]
    rw [show (m :: mid') ++ rest = m :: (mid' ++ rest) from rfl]
    rw [hstep, hchain]
    have : ln + 1 + mid'.length = ln + (m :: mid').length := by
      simp only [List.length_cons]; omega
    rw [this]

/-- Claim C3 (confirmed): a point section containing two `String`-family
lines with the same language code `c` (values `v1` then `v2`), all other
lines neither being bitmap properties nor writing code `c`, parses to a
record with exactly one label for `c`, whose text is `v2`, the value of the
later line. -/
theorem c3_label_overwrite (file : Str) (pt : PointType) (ln : Nat)
    (l1 l2 endLine : Str) (mid post : List Str) (c v1 v2 : Str)
    (h1 : isStringLineFor c v1 l1 = true) (h2 : isStringLineFor c v2 l2 = true)
    (hc : c ≠ [])
    (hmid : ∀ m ∈ mid, cleanLine m ≠ endTag ∧ ptNeutral c m = true)
    (hpost : ∀ m ∈ post, cleanLine m ≠ endTag ∧ ptNeutral c m = true)
    (hend : cleanLine endLine = endTag)
    (hcount : pt.Labels.countP (fun p => decide (p.1 = c)) = 0) :
    ∃ pt' ln', parsePointBody file (mid.length + post.length + 3) pt ln
        (l1 :: (mid ++ l2 :: (post ++ [endLine]))) = .ok (pt', ln', []) ∧
      mapLookup pt'.Labels c = some v2 ∧
      pt'.Labels.countP (fun p => decide (p.1 = c)) = 1 := by
  have hstep1 := pointBody_string_step file (mid.length + post.length + 2) pt ln l1
    (mid ++ l2 :: (post ++ [endLine])) c v1 h1 hc
  rw [show mid.length + post.length + 3 = mid.length + post.length + 2 + 1 from rfl,
    hstep1]
  set pt1 : PointType := { pt with Labels := mapUpdate pt.Labels c v1 } with hpt1
  obtain ⟨pt2, hchain1, hl2, hc2⟩ := pointBody_neutral_chain file mid
    (post.length + 2) pt1 (ln + 1) (l2 :: (post ++ [endLine])) c hmid
  rw [show mid.length + post.length + 2 = post.length + 2 + mid.length by omega]
  rw [hchain1]
  have hstep2 := pointBody_string_step file (post.length + 1) pt2 (ln + 1 + mid.length)
    l2 (post ++ [endLine]) c v2 h2 hc
  rw [show post.length + 2 = post.length + 1 + 1 from rfl, hstep2]
  set pt3 : PointType := { pt2 with Labels := mapUpdate pt2.Labels c v2 } with hpt3
  obtain ⟨pt4, hchain2, hl4, hc4⟩ := pointBody_neutral_chain file post
    1 pt3 (ln + 1 + mid.length + 1) [endLine] c hpost
  rw [show post.length + 1 = 1 + post.length by omega]
  rw [hchain2]
  have hred : parsePointBody file 1 pt4 (ln + 1 + mid.length + 1 + post.length) [endLine] =
      (if cleanLine endLine = [] then
        parsePointBody file 0 pt4 (ln + 1 + mid.length + 1 + post.length + 1) []
       else if cleanLine endLine = endTag then
        .ok (pt4, ln + 1 + mid.length + 1 + post.length + 1, ([] : List Str))
       else
         match parsePointProperty file pt4 (cleanLine endLine)
             (ln + 1 + mid.length + 1 + post.length + 1) [] with
         | .error e => .error e
         | .ok (pt', ln', rest') => parsePointBody file 0 pt' ln' rest') := rfl
  rw [hred, if_neg (by rw [hend]; decide), if_pos hend]
  refine ⟨pt4, _, rfl, ?_, ?_⟩
  · rw [hl4, hpt3]
    exact mapLookup_update_same pt2.Labels c v2
  · rw [hc4, hpt3]
    have hone : pt1.Labels.countP (fun p => decide (p.1 = c)) = 1 := by
      rw [hpt1]
      rw [mapUpdate_countP_self pt.Labels c v1, if_pos hcount]
    have h2' : pt2.Labels.countP (fun p => decide (p.1 = c)) = 1 := hc2.trans hone
    show (mapUpdate pt2.Labels c v2).countP (fun p => decide (p.1 = c)) = 1
    rw [mapUpdate_countP_self pt2.Labels c v2, h2']
    simp

/-- Claim C3, witness: `String=0x04,Bank` then later `String1=0x04,Banque`
in one point section yields exactly one `0x04` label, equal to `Banque`. -/
theorem c3_label_overwrite_witness :
    ∃ pt' ln', parsePointBody (("f").toList) 4 initPoint 1
        ((("String=0x04,Bank").toList) ::
          ([("Type=0x2f06").toList] ++ (("String1=0x04,Banque").toList) ::
            ([] ++ [("[end]").toList]))) = .ok (pt', ln', []) ∧
      mapLookup pt'.Labels (("0x04").toList) = some (("Banque").toList) ∧
      pt'.Labels.countP (fun p => decide (p.1 = ("0x04").toList)) = 1 :=
  c3_label_overwrite (("f").toList) initPoint 1
    (("String=0x04,Bank").toList) (("String1=0x04,Banque").toList) (("[end]").toList)
    [("Type=0x2f06").toList] [] (("0x04").toList) (("Bank").toList) (("Banque").toList)
    (by decide) (by decide) (by decide)
    (by intro m hm; simp only [List.mem_singleton] at hm; rw [hm]; exact ⟨by decide, by decide⟩)
    (by intro m hm; simp at hm)
    (by decide) (by decide)


/-! ### Claim C8: determinism and shape of the writer output -/

/-- Membership in a conditional singleton block of the writer. -/
theorem mem_ite_nil (p : Prop) [Decidable p] (x l : Str)
    (h : l ∈ (if p then [x] else [])) : l = x := by
  split at h
  · simpa using h
  · simp at h

def c8labels1 : List (Str × Str) :=
  [((("0x01").toList), (("Bank").toList)), ((("0x02").toList), (("Banque").toList))]

def c8labels2 : List (Str × Str) :=
  [((("0x02").toList), (("Banque").toList)), ((("0x01").toList), (("Bank").toList))]

/-- A one-point document over the given label table. -/
def c8doc (labels : List (Str × Str)) : TYPFile :=
  { initTYP (("f").toList) with
    Points := [{ initPoint with Typ := ("0x2f06").toList, Labels := labels }] }

/-- Claim C8, counterexample: two Documents whose point label tables are equal
as mappings (the association lists are permutations agreeing under lookup on
every key, and neither contains `0x04`) serialize to different texts, because
the non-`0x04` labels are emitted in map iteration order; so equal Documents
do not always produce identical output text. -/
theorem c8_counterexample :
    c8labels1.Perm c8labels2 ∧
    (∀ k ∈ c8labels1.map Prod.fst, mapLookup c8labels1 k = mapLookup c8labels2 k) ∧
    writeFileLines (c8doc c8labels1) ≠ writeFileLines (c8doc c8labels2) := by
  refine ⟨List.Perm.swap _ _ _, by decide, by decide⟩

/-- Claim C8 (corrected): the writer output is the metadata section first
(emitting only fields with positive stored value, witnessed here by `FID`),
then all point blocks in stored order, then all line blocks, then all polygon
blocks; each block is opened by its tag and closed by the `[end]` terminator
followed by a blank separator line; within a block the `0x04` label (when
present) is emitted before all other labels.  The remaining labels follow map
iteration order, so the text is not determined by the Document up to map
equality (see the counterexample). -/
theorem c8_deterministic_amended (d : TYPFile) :
    writeFileLines d =
      writeHeaderL d.Header ++
        ((d.Points.map writePointTypeL).flatten ++
          ((d.Lines.map writeLineTypeL).flatten ++
            (d.Polygons.map writePolygonTypeL).flatten)) ∧
    (d.Header.FID ≤ 0 →
      ∀ l ∈ writeHeaderL d.Header, isPfx (("FID=").toList) l = false) ∧
    (∀ pt ∈ d.Points, ∃ body,
      writePointTypeL pt = (("[_point]").toList) :: body ++ [endTag, []]) ∧
    (∀ lt ∈ d.Lines, ∃ body,
      writeLineTypeL lt = (("[_line]").toList) :: body ++ [endTag, []]) ∧
    (∀ pg ∈ d.Polygons, ∃ body,
      writePolygonTypeL pg = (("[_polygon]").toList) :: body ++ [endTag, []]) ∧
    (∀ pt ∈ d.Points, ∀ v, mapLookup pt.Labels eng04 = some v →
      ∃ t, writeLabels pt.Labels = ((("String=0x04,").toList) ++ v) :: t) := by
  refine ⟨by simp [writeFileLines, List.append_assoc], ?_, ?_, ?_, ?_, ?_⟩
  · intro hF l hl
    unfold writeHeaderL at hl
    rw [if_neg (by omega : ¬ (0 : Int) < d.Header.FID)] at hl
    rcases List.mem_append.mp hl with h5 | h6
    rcases List.mem_append.mp h5 with h4 | h5
    rcases List.mem_append.mp h4 with h3 | h4
    rcases List.mem_append.mp h3 with h2 | h3
    rcases List.mem_append.mp h2 with h1 | h2
    · rw [List.mem_singleton.mp h1]; rfl
    · rw [mem_ite_nil _ _ _ h2]; rfl
    · simp at h3
    · rw [mem_ite_nil _ _ _ h4]; rfl
    · rw [mem_ite_nil _ _ _ h5]; rfl
    · rcases List.mem_cons.mp h6 with h | h
      · rw [h]; rfl
      · rw [List.mem_singleton.mp h]; rfl
  · intro pt _; exact ⟨_, rfl⟩
  · intro lt _; exact ⟨_, rfl⟩
  · intro pg _; exact ⟨_, rfl⟩
  · intro pt _ v hv
    have hne : pt.Labels ≠ [] := by
      intro h0; rw [h0] at hv; exact Option.noConfusion hv
    refine ⟨(pt.Labels.filter (fun p => decide (¬ p.1 = eng04))).map
        (fun p => ("String=").toList ++ p.1 ++ [','] ++ p.2), ?_⟩
    unfold writeLabels
    rw [if_neg hne, hv]
    rfl

/-- The point used by the C8 witness. -/
def c8pt : PointType :=
  { initPoint with Typ := ("0x2f06").toList, Labels := [(eng04, ("Bank").toList)] }

def c8doc3 : TYPFile := { initTYP (("f").toList) with Points := [c8pt] }

/-- Claim C8, witness: on a concrete document with `FID = 0` and a single
`0x04` label, the amended theorem yields the omitted-`FID` property and the
`0x04`-first label line. -/
theorem c8_deterministic_amended_witness :
    isPfx (("FID=").toList) (("[_id]").toList) = false ∧
    (∃ body, writePointTypeL c8pt = (("[_point]").toList) :: body ++ [endTag, []]) ∧
    (∃ t, writeLabels c8pt.Labels =
      ((("String=0x04,").toList) ++ ("Bank").toList) :: t) := by
  have h := c8_deterministic_amended c8doc3
  exact ⟨h.2.1 (by decide) (("[_id]").toList) (by decide),
    h.2.2.1 c8pt (by decide),
    h.2.2.2.2.2 c8pt (by decide) (("Bank").toList) (by decide)⟩

/-! ### Claim C9: the writer never serializes the draw-order field -/

/-- Whether a line makes `parseTop` open a `[_drawOrder]` section. -/
def opensDraw (l : Str) : Bool :=
  decide (¬ cleanLine l = []) && isPfx (['[']) (cleanLine l) &&
    decide (goTrimSpace (goTrimBrackets (cleanLine l)) = ("_drawOrder").toList)

theorem dropWhileB_cons_neg (p : Char → Bool) (c : Char) (s : Str) (h : p c = false) :
    dropWhileB p (c :: s) = c :: s := by
  simp [dropWhileB, h]

theorem dropWhileB_append_last (p : Char → Bool) (c : Char) (h : p c = false)
    (w : Str) : ∃ w', dropWhileB p (w ++ [c]) = w' ++ [c] := by
  induction w with
  | nil => exact ⟨[], by simp [dropWhileB, h]⟩
  | cons a w ih =>
    by_cases ha : p a = true
    · obtain ⟨w', hw⟩ := ih
      refine ⟨w', ?_⟩
      rw [List.cons_append]
      simpa [dropWhileB, ha] using hw
    · exact ⟨a :: w, by rw [List.cons_append]; simp [dropWhileB, ha]⟩

theorem goTrimSpace_cons_of_head (c : Char) (u : Str) (h : goIsSpace c = false) :
    ∃ u', goTrimSpace (c :: u) = c :: u' := by
  obtain ⟨w', hw⟩ := dropWhileB_append_last goIsSpace c h u.reverse
  refine ⟨w'.reverse, ?_⟩
  unfold goTrimSpace goTrimP
  rw [dropWhileB_cons_neg _ _ _ h, List.reverse_cons, hw]
  simp

theorem cleanLine_cons_shape (c : Char) (u : Str) (h : goIsSpace c = false) :
    cleanLine (c :: u) = [] ∨ ∃ u', cleanLine (c :: u) = c :: u' := by
  unfold cleanLine
  by_cases h1 : c = ';'
  · left
    have hc : cutAtChar ';' (c :: u) = [] := by simp [cutAtChar, h1]
    rw [hc]; rfl
  · have hc1 : cutAtChar ';' (c :: u) = c :: cutAtChar ';' u := by simp [cutAtChar, h1]
    rw [hc1]
    by_cases h2 : c = '#'
    · left
      have hc : cutAtChar '#' (c :: cutAtChar ';' u) = [] := by simp [cutAtChar, h2]
      rw [hc]; rfl
    · have hc2 : cutAtChar '#' (c :: cutAtChar ';' u) =
          c :: cutAtChar '#' (cutAtChar ';' u) := by simp [cutAtChar, h2]
      rw [hc2]
      exact .inr (goTrimSpace_cons_of_head c _ h)

theorem opensDraw_head_false (l : Str) (a : Char) (t : Str) (hl : l = a :: t)
    (hsp : goIsSpace a = false) (hbr : a ≠ '[') : opensDraw l = false := by
  subst hl
  unfold opensDraw
  rcases cleanLine_cons_shape a t hsp with h | ⟨u', h⟩
  · rw [h]; simp
  · rw [h]
    have hne : (('[' : Char) == a) = false := beq_eq_false_iff_ne.mpr (Ne.symm hbr)
    simp [isPfx, hne]

theorem writeLabels_no_draw (m : List (Str × Str)) :
    ∀ l ∈ writeLabels m, opensDraw l = false := by
  intro l hl
  unfold writeLabels at hl
  split at hl
  · simp at hl
  · rcases List.mem_append.mp hl with h1 | h2
    · rcases hm : mapLookup m eng04 with _ | v
      · rw [hm] at h1; simp at h1
      · rw [hm] at h1
        simp only [List.mem_singleton] at h1
        rw [h1]
        exact opensDraw_head_false _ 'S' (("tring=0x04,").toList ++ v) rfl
          (by decide) (by decide)
    · obtain ⟨p, hp, hlp⟩ := List.mem_map.mp h2
      rw [← hlp]
      exact opensDraw_head_false _ 'S'
        (("tring=").toList ++ p.1 ++ [','] ++ p.2) rfl (by decide) (by decide)

theorem writeXPM_no_draw (f : Str) (x : XPMIcon) (a : Char) (t : Str) (hf : f = a :: t)
    (hsp : goIsSpace a = false) (hbr : a ≠ '[') :
    ∀ l ∈ writeXPM f x, opensDraw l = false := by
  intro l hl
  unfold writeXPM at hl
  rcases List.mem_cons.mp hl with h1 | h2
  · rw [h1, hf]
    exact opensDraw_head_false _ a
      (t ++ ('=' :: '"' :: intToChars x.Width) ++ (' ' :: intToChars x.Height) ++
        (' ' :: intToChars x.Colors) ++ (' ' :: intToChars x.CharsPerPixel) ++ ['"'])
      rfl hsp hbr
  · rcases List.mem_append.mp h2 with h3 | h4
    · obtain ⟨p, hp, hlp⟩ := List.mem_map.mp h3
      rw [← hlp]
      split
      · exact opensDraw_head_false _ '"' (p.1 ++ (" c none\"").toList) rfl
          (by decide) (by decide)
      · exact opensDraw_head_false _ '"' (p.1 ++ scSep ++ p.2.Hex ++ ['"']) rfl
          (by decide) (by decide)
    · obtain ⟨row, hr, hlr⟩ := List.mem_map.mp h4
      rw [← hlr]
      exact opensDraw_head_false _ '"' (row ++ ['"']) rfl (by decide) (by decide)

theorem writeHeaderL_no_draw (h : Header) : ∀ l ∈ writeHeaderL h, opensDraw l = false := by
  intro l hl
  unfold writeHeaderL at hl
  rcases List.mem_append.mp hl with h5 | h6
  rcases List.mem_append.mp h5 with h4 | h5
  rcases List.mem_append.mp h4 with h3 | h4
  rcases List.mem_append.mp h3 with h2 | h3
  rcases List.mem_append.mp h2 with h1 | h2
  · rw [List.mem_singleton.mp h1]; decide
  · rw [mem_ite_nil _ _ _ h2]
    exact opensDraw_head_false _ 'C' (("odePage=").toList ++ intToChars h.CodePage) rfl
      (by decide) (by decide)
  · rw [mem_ite_nil _ _ _ h3]
    exact opensDraw_head_false _ 'F' (("ID=").toList ++ intToChars h.FID) rfl
      (by decide) (by decide)
  · rw [mem_ite_nil _ _ _ h4]
    exact opensDraw_head_false _ 'P' (("roductCode=").toList ++ intToChars h.ProductCode) rfl
      (by decide) (by decide)
  · rw [mem_ite_nil _ _ _ h5]
    exact opensDraw_head_false _ 'M' (("apID=").toList ++ intToChars h.MapID) rfl
      (by decide) (by decide)
  · rcases List.mem_cons.mp h6 with h | h
    · rw [h]; decide
    · rw [List.mem_singleton.mp h]; decide

theorem writePointTypeL_no_draw (p : PointType) :
    ∀ l ∈ writePointTypeL p, opensDraw l = false := by
  intro l hl
  unfold writePointTypeL at hl
  rcases List.mem_append.mp hl with h6 | h7
  rcases List.mem_append.mp h6 with h5 | h6
  rcases List.mem_append.mp h5 with h4 | h5
  rcases List.mem_append.mp h4 with h3 | h4
  rcases List.mem_append.mp h3 with h2 | h3
  rcases List.mem_append.mp h2 with h1 | h2
  · rcases List.mem_cons.mp h1 with h | h
    · rw [h]; decide
    · rw [List.mem_singleton.mp h]
      exact opensDraw_head_false _ 'T' (("ype=").toList ++ p.Typ) rfl (by decide) (by decide)
  · rw [mem_ite_nil _ _ _ h2]
    exact opensDraw_head_false _ 'S' (("ubType=").toList ++ p.SubType) rfl
      (by decide) (by decide)
  · exact writeLabels_no_draw _ l h3
  · rcases hD : p.DayXpm with _ | xpm
    · rw [hD] at h4; simp at h4
    · rw [hD] at h4
      exact writeXPM_no_draw _ xpm 'D' (("ayXpm").toList) rfl (by decide) (by decide) l h4
  · rcases hN : p.NightXpm with _ | xpm
    · rw [hN] at h5; simp at h5
    · rw [hN] at h5
      exact writeXPM_no_draw _ xpm 'N' (("ightXpm").toList) rfl (by decide) (by decide) l h5
  · rw [mem_ite_nil _ _ _ h6]
    exact opensDraw_head_false _ 'F' (("ontStyle=").toList ++ p.FontStyle) rfl
      (by decide) (by decide)
  · rcases List.mem_cons.mp h7 with h | h
    · rw [h]; decide
    · rw [List.mem_singleton.mp h]; decide

theorem writeLineTypeL_no_draw (lt : LineType) :
    ∀ l ∈ writeLineTypeL lt, opensDraw l = false := by
  intro l hl
  unfold writeLineTypeL at hl
  rcases List.mem_append.mp hl with h8 | h9
  rcases List.mem_append.mp h8 with h7 | h8
  rcases List.mem_append.mp h7 with h6 | h7
  rcases List.mem_append.mp h6 with h5 | h6
  rcases List.mem_append.mp h5 with h4 | h5
  rcases List.mem_append.mp h4 with h3 | h4
  rcases List.mem_append.mp h3 with h2 | h3
  rcases List.mem_append.mp h2 with h1 | h2
  · rcases List.mem_cons.mp h1 with h | h
    · rw [h]; decide
    · rw [List.mem_singleton.mp h]
      exact opensDraw_head_false _ 'T' (("ype=").toList ++ lt.Typ) rfl (by decide) (by decide)
  · exact writeLabels_no_draw _ l h2
  · rw [mem_ite_nil _ _ _ h3]
    exact opensDraw_head_false _ 'L' (("ineWidth=").toList ++ intToChars lt.LineWidth) rfl
      (by decide) (by decide)
  · rw [mem_ite_nil _ _ _ h4]
    exact opensDraw_head_false _ 'B' (("orderWidth=").toList ++ intToChars lt.BorderWidth) rfl
      (by decide) (by decide)
  · rw [mem_ite_nil _ _ _ h5]
    exact opensDraw_head_false _ 'L' (("ineStyle=").toList ++ lt.LineStyle) rfl
      (by decide) (by decide)
  · rw [mem_ite_nil _ _ _ h6]; decide
  · rcases hD : lt.DayXpm with _ | xpm
    · rw [hD] at h7; simp at h7
    · rw [hD] at h7
      exact writeXPM_no_draw _ xpm 'X' (("pm").toList) rfl (by decide) (by decide) l h7
  · rcases hN : lt.NightXpm with _ | xpm
    · rw [hN] at h8; simp at h8
    · rw [hN] at h8
      exact writeXPM_no_draw _ xpm 'N' (("ightXpm").toList) rfl (by decide) (by decide) l h8
  · rcases List.mem_cons.mp h9 with h | h
    · rw [h]; decide
    · rw [List.mem_singleton.mp h]; decide

theorem writePolygonTypeL_no_draw (pg : PolygonType) :
    ∀ l ∈ writePolygonTypeL pg, opensDraw l = false := by
  intro l hl
  unfold writePolygonTypeL at hl
  rcases List.mem_append.mp hl with h6 | h7
  rcases List.mem_append.mp h6 with h5 | h6
  rcases List.mem_append.mp h5 with h4 | h5
  rcases List.mem_append.mp h4 with h3 | h4
  rcases List.mem_append.mp h3 with h2 | h3
  rcases List.mem_append.mp h2 with h1 | h2
  · rcases List.mem_cons.mp h1 with h | h
    · rw [h]; decide
    · rw [List.mem_singleton.mp h]
      exact opensDraw_head_false _ 'T' (("ype=").toList ++ pg.Typ) rfl (by decide) (by decide)
  · exact writeLabels_no_draw _ l h2
  · rw [mem_ite_nil _ _ _ h3]; decide
  · rw [mem_ite_nil _ _ _ h4]
    exact opensDraw_head_false _ 'F' (("ontStyle=").toList ++ pg.FontStyle) rfl
      (by decide) (by decide)
  · rcases hD : pg.DayXpm with _ | xpm
    · rw [hD] at h5; simp at h5
    · rw [hD] at h5
      exact writeXPM_no_draw _ xpm 'X' (("pm").toList) rfl (by decide) (by decide) l h5
  · rcases hN : pg.NightXpm with _ | xpm
    · rw [hN] at h6; simp at h6
    · rw [hN] at h6
      exact writeXPM_no_draw _ xpm 'N' (("ightXpm").toList) rfl (by decide) (by decide) l h6
  · rcases List.mem_cons.mp h7 with h | h
    · rw [h]; decide
    · rw [List.mem_singleton.mp h]; decide

theorem writeFileLines_no_draw (d : TYPFile) :
    ∀ l ∈ writeFileLines d, opensDraw l = false := by
  intro l hl
  unfold writeFileLines at hl
  rcases List.mem_append.mp hl with h3 | h4
  rcases List.mem_append.mp h3 with h2 | h3
  rcases List.mem_append.mp h2 with h1 | h2
  · exact writeHeaderL_no_draw _ l h1
  · obtain ⟨ls, hls, hlin⟩ := List.mem_flatten.mp h2
    obtain ⟨pt, _, hpt⟩ := List.mem_map.mp hls
    rw [← hpt] at hlin
    exact writePointTypeL_no_draw pt l hlin
  · obtain ⟨ls, hls, hlin⟩ := List.mem_flatten.mp h3
    obtain ⟨ltp, _, hlt⟩ := List.mem_map.mp hls
    rw [← hlt] at hlin
    exact writeLineTypeL_no_draw ltp l hlin
  · obtain ⟨ls, hls, hlin⟩ := List.mem_flatten.mp h4
    obtain ⟨pg, _, hpg⟩ := List.mem_map.mp hls
    rw [← hpg] at hlin
    exact writePolygonTypeL_no_draw pg l hlin

/-- The stream left over by `xpmLoop` consists of lines of its input. -/
theorem xpmLoop_mem (colors total : Int) (stream : List Str) :
    ∀ (pal : List (Str × Color)) (dat : List Str) (lr : Int) (ln : Nat),
      ∀ x ∈ (xpmLoop colors total pal dat lr ln stream).2.2.2, x ∈ stream := by
  induction stream with
  | nil => intro pal dat lr ln x hx; simp [xpmLoop] at hx
  | cons l rest ih =>
    intro pal dat lr ln x hx
    unfold xpmLoop at hx
    by_cases h1 : total ≤ lr
    · rw [if_pos h1] at hx; exact hx
    · rw [if_neg h1] at hx
      by_cases h2 : (goTrimSpace l = [] || isPfx ([';']) (goTrimSpace l)) = true
      · rw [if_pos h2] at hx
        exact List.mem_cons_of_mem _ (ih pal dat lr (ln + 1) x hx)
      · rw [if_neg h2] at hx
        by_cases h3 : (!isPfx (['"']) (goTrimSpace l)) = true
        · rw [if_pos h3] at hx
          exact List.mem_cons_of_mem _ hx
        · rw [if_neg h3] at hx
          try dsimp only at hx
          by_cases h4 : lr < colors
          · rw [if_pos h4] at hx
            exact List.mem_cons_of_mem _ (ih _ dat (lr + 1) (ln + 1) x hx)
          · rw [if_neg h4] at hx
            exact List.mem_cons_of_mem _ (ih pal _ (lr + 1) (ln + 1) x hx)

/-- The stream left over by `parseXPM` consists of lines of its input. -/
theorem parseXPM_mem (file value : Str) (ln : Nat) (stream : List Str)
    (xpm : XPMIcon) (ln2 : Nat) (rest2 : List Str)
    (h : parseXPM file value ln stream = .ok (xpm, ln2, rest2)) :
    ∀ x ∈ rest2, x ∈ stream := by
  unfold parseXPM at h
  try dsimp only at h
  split at h
  · split at h
    · simp at h
    · split at h
      · simp at h
      · split at h
        · simp at h
        · split at h
          · simp at h
          · simp only [Except.ok.injEq, Prod.mk.injEq] at h
            intro x hx
            rw [← h.2.2] at hx
            exact xpmLoop_mem _ _ stream _ _ _ _ x hx
  · simp at h

/-- The stream left over by `parsePointProperty` consists of lines of its
input. -/
theorem parsePointProperty_mem (file : Str) (pt : PointType) (line : Str) (ln : Nat)
    (stream : List Str) (pt' : PointType) (ln' : Nat) (rest' : List Str)
    (h : parsePointProperty file pt line ln stream = .ok (pt', ln', rest')) :
    ∀ x ∈ rest', x ∈ stream := by
  unfold parsePointProperty at h
  rcases hs : splitFirstChar '=' line with _ | ⟨k, v⟩
  · rw [hs] at h
    try dsimp only at h
    simp only [Except.ok.injEq, Prod.mk.injEq] at h
    intro x hx; rw [← h.2.2] at hx; exact hx
  · rw [hs] at h
    try dsimp only at h
    split_ifs at h with h1 h2 h3 h4 h5 h6 h7
    · simp only [Except.ok.injEq, Prod.mk.injEq] at h
      intro x hx; rw [← h.2.2] at hx; exact hx
    · simp only [Except.ok.injEq, Prod.mk.injEq] at h
      intro x hx; rw [← h.2.2] at hx; exact hx
    · simp only [Except.ok.injEq, Prod.mk.injEq] at h
      intro x hx; rw [← h.2.2] at hx; exact hx
    · simp only [Except.ok.injEq, Prod.mk.injEq] at h
      intro x hx; rw [← h.2.2] at hx; exact hx
    · rcases hx2 : parseXPM file (goTrimSpace v) ln stream with e | ⟨xpm, ln2, rest2⟩
      · rw [hx2] at h; simp at h
      · rw [hx2] at h
        try dsimp only at h
        simp only [Except.ok.injEq, Prod.mk.injEq] at h
        intro x hx; rw [← h.2.2] at hx
        exact parseXPM_mem file _ ln stream xpm ln2 rest2 hx2 x hx
    · rcases hx2 : parseXPM file (goTrimSpace v) ln stream with e | ⟨xpm, ln2, rest2⟩
      · rw [hx2] at h; simp at h
      · rw [hx2] at h
        try dsimp only at h
        simp only [Except.ok.injEq, Prod.mk.injEq] at h
        intro x hx; rw [← h.2.2] at hx
        exact parseXPM_mem file _ ln stream xpm ln2 rest2 hx2 x hx
    · simp only [Except.ok.injEq, Prod.mk.injEq] at h
      intro x hx; rw [← h.2.2] at hx; exact hx
    · simp only [Except.ok.injEq, Prod.mk.injEq] at h
      intro x hx; rw [← h.2.2] at hx; exact hx

/-- The stream left over by `parseLineProperty` consists of lines of its
input. -/
theorem parseLineProperty_mem (file : Str) (lt : LineType) (line : Str) (ln : Nat)
    (stream : List Str) (lt' : LineType) (ln' : Nat) (rest' : List Str)
    (h : parseLineProperty file lt line ln stream = .ok (lt', ln', rest')) :
    ∀ x ∈ rest', x ∈ stream := by
  unfold parseLineProperty at h
  rcases hs : splitFirstChar '=' line with _ | ⟨k, v⟩
  · rw [hs] at h
    try dsimp only at h
    simp only [Except.ok.injEq, Prod.mk.injEq] at h
    intro x hx; rw [← h.2.2] at hx; exact hx
  · rw [hs] at h
    try dsimp only at h
    split_ifs at h with h1 h2 h3 h4 h5 h6 h7 h8
    · simp only [Except.ok.injEq, Prod.mk.injEq] at h
      intro x hx; rw [← h.2.2] at hx; exact hx
    · simp only [Except.ok.injEq, Prod.mk.injEq] at h
      intro x hx; rw [← h.2.2] at hx; exact hx
    · simp only [Except.ok.injEq, Prod.mk.injEq] at h
      intro x hx; rw [← h.2.2] at hx; exact hx
    · rcases ha : goAtoi (goTrimSpace v) with _ | n
      · rw [ha] at h; simp at h
      · rw [ha] at h
        try dsimp only at h
        simp only [Except.ok.injEq, Prod.mk.injEq] at h
        intro x hx; rw [← h.2.2] at hx; exact hx
    · rcases ha : goAtoi (goTrimSpace v) with _ | n
      · rw [ha] at h; simp at h
      · rw [ha] at h
        try dsimp only at h
        simp only [Except.ok.injEq, Prod.mk.injEq] at h
        intro x hx; rw [← h.2.2] at hx; exact hx
    · simp only [Except.ok.injEq, Prod.mk.injEq] at h
      intro x hx; rw [← h.2.2] at hx; exact hx
    · rcases hx2 : parseXPM file (goTrimSpace v) ln stream with e | ⟨xpm, ln2, rest2⟩
      · rw [hx2] at h; simp at h
      · rw [hx2] at h
        try dsimp only at h
        simp only [Except.ok.injEq, Prod.mk.injEq] at h
        intro x hx; rw [← h.2.2] at hx
        exact parseXPM_mem file _ ln stream xpm ln2 rest2 hx2 x hx
    · simp only [Except.ok.injEq, Prod.mk.injEq] at h
      intro x hx; rw [← h.2.2] at hx; exact hx
    · simp only [Except.ok.injEq, Prod.mk.injEq] at h
      intro x hx; rw [← h.2.2] at hx; exact hx

/-- The stream left over by `parsePolygonProperty` consists of lines of its
input. -/
theorem parsePolygonProperty_mem (file : Str) (pg : PolygonType) (line : Str) (ln : Nat)
    (stream : List Str) (pg' : PolygonType) (ln' : Nat) (rest' : List Str)
    (h : parsePolygonProperty file pg line ln stream = .ok (pg', ln', rest')) :
    ∀ x ∈ rest', x ∈ stream := by
  unfold parsePolygonProperty at h
  rcases hs : splitFirstChar '=' line with _ | ⟨k, v⟩
  · rw [hs] at h
    try dsimp only at h
    simp only [Except.ok.injEq, Prod.mk.injEq] at h
    intro x hx; rw [← h.2.2] at hx; exact hx
  · rw [hs] at h
    try dsimp only at h
    split_ifs at h with h1 h2 h3 h4 h5 h6
    · simp only [Except.ok.injEq, Prod.mk.injEq] at h
      intro x hx; rw [← h.2.2] at hx; exact hx
    · simp only [Except.ok.injEq, Prod.mk.injEq] at h
      intro x hx; rw [← h.2.2] at hx; exact hx
    · simp only [Except.ok.injEq, Prod.mk.injEq] at h
      intro x hx; rw [← h.2.2] at hx; exact hx
    · rcases hx2 : parseXPM file (goTrimSpace v) ln stream with e | ⟨xpm, ln2, rest2⟩
      · rw [hx2] at h; simp at h
      · rw [hx2] at h
        try dsimp only at h
        simp only [Except.ok.injEq, Prod.mk.injEq] at h
        intro x hx; rw [← h.2.2] at hx
        exact parseXPM_mem file _ ln stream xpm ln2 rest2 hx2 x hx
    · simp only [Except.ok.injEq, Prod.mk.injEq] at h
      intro x hx; rw [← h.2.2] at hx; exact hx
    · simp only [Except.ok.injEq, Prod.mk.injEq] at h
      intro x hx; rw [← h.2.2] at hx; exact hx
    · simp only [Except.ok.injEq, Prod.mk.injEq] at h
      intro x hx; rw [← h.2.2] at hx; exact hx

/-- The stream left over by `parseHeaderBody` consists of lines of its
input. -/
theorem parseHeaderBody_mem (file : Str) (stream : List Str) :
    ∀ (hd : Header) (ln : Nat) (hd' : Header) (ln' : Nat) (rest' : List Str),
      parseHeaderBody file hd ln stream = .ok (hd', ln', rest') →
      ∀ x ∈ rest', x ∈ stream := by
  induction stream with
  | nil => intro hd ln hd' ln' rest' h; simp [parseHeaderBody] at h
  | cons l rest ih =>
    intro hd ln hd' ln' rest' h x hx
    unfold parseHeaderBody at h
    try dsimp only at h
    split_ifs at h with h1 h2
    · exact List.mem_cons_of_mem _ (ih hd (ln + 1) hd' ln' rest' h x hx)
    · simp only [Except.ok.injEq, Prod.mk.injEq] at h
      rw [← h.2.2] at hx
      exact List.mem_cons_of_mem _ hx
    · rcases hs : splitFirstChar '=' (cleanLine l) with _ | ⟨k, v⟩
      · rw [hs] at h
        try dsimp only at h
        exact List.mem_cons_of_mem _ (ih hd (ln + 1) hd' ln' rest' h x hx)
      · rw [hs] at h
        try dsimp only at h
        split_ifs at h with h3 h4 h5 h6
        · rcases ha : goAtoi (goTrimSpace v) with _ | n
          · rw [ha] at h; simp at h
          · rw [ha] at h
            try dsimp only at h
            exact List.mem_cons_of_mem _ (ih _ (ln + 1) hd' ln' rest' h x hx)
        · rcases ha : goAtoi (goTrimSpace v) with _ | n
          · rw [ha] at h; simp at h
          · rw [ha] at h
            try dsimp only at h
            exact List.mem_cons_of_mem _ (ih _ (ln + 1) hd' ln' rest' h x hx)
        · rcases ha : goAtoi (goTrimSpace v) with _ | n
          · rw [ha] at h; simp at h
          · rw [ha] at h
            try dsimp only at h
            exact List.mem_cons_of_mem _ (ih _ (ln + 1) hd' ln' rest' h x hx)
        · rcases ha : goAtoi (goTrimSpace v) with _ | n
          · rw [ha] at h; simp at h
          · rw [ha] at h
            try dsimp only at h
            exact List.mem_cons_of_mem _ (ih _ (ln + 1) hd' ln' rest' h x hx)
        · exact List.mem_cons_of_mem _ (ih hd (ln + 1) hd' ln' rest' h x hx)

/-- The stream left over by `skipToEndBody` consists of lines of its input. -/
theorem skipToEndBody_mem (file : Str) (stream : List Str) :
    ∀ (ln : Nat) (ln' : Nat) (rest' : List Str),
      skipToEndBody file ln stream = .ok (ln', rest') →
      ∀ x ∈ rest', x ∈ stream := by
  induction stream with
  | nil => intro ln ln' rest' h; simp [skipToEndBody] at h
  | cons l rest ih =>
    intro ln ln' rest' h x hx
    unfold skipToEndBody at h
    split_ifs at h with h1
    · simp only [Except.ok.injEq, Prod.mk.injEq] at h
      rw [← h.2] at hx
      exact List.mem_cons_of_mem _ hx
    · exact List.mem_cons_of_mem _ (ih (ln + 1) ln' rest' h x hx)

/-- The stream left over by `parsePointBody` consists of lines of its input. -/
theorem parsePointBody_mem (file : Str) (fuel : Nat) :
    ∀ (pt : PointType) (ln : Nat) (stream : List Str) (pt' : PointType)
      (ln' : Nat) (rest' : List Str),
      parsePointBody file fuel pt ln stream = .ok (pt', ln', rest') →
      ∀ x ∈ rest', x ∈ stream := by
  induction fuel with
  | zero =>
    intro pt ln stream pt' ln' rest' h
    match stream with
    | [] => simp [parsePointBody] at h
    | l :: rest => simp [parsePointBody] at h
  | succ fuel ih =>
    intro pt ln stream pt' ln' rest' h x hx
    match stream with
    | [] => simp [parsePointBody] at h
    | l :: rest =>
      have hred : parsePointBody file (fuel + 1) pt ln (l :: rest) =
          (if cleanLine l = [] then parsePointBody file fuel pt (ln + 1) rest
           else if cleanLine l = endTag then .ok (pt, ln + 1, rest)
           else
             match parsePointProperty file pt (cleanLine l) (ln + 1) rest with
             | .error e => .error e
             | .ok (pt2, ln2, rest2) => parsePointBody file fuel pt2 ln2 rest2) := rfl
      rw [hred] at h
      split_ifs at h with h1 h2
      · exact List.mem_cons_of_mem _ (ih pt (ln + 1) rest pt' ln' rest' h x hx)
      · simp only [Except.ok.injEq, Prod.mk.injEq] at h
        rw [← h.2.2] at hx
        exact List.mem_cons_of_mem _ hx
      · rcases hp : parsePointProperty file pt (cleanLine l) (ln + 1) rest
            with e | ⟨pt2, ln2, rest2⟩
        · rw [hp] at h; simp at h
        · rw [hp] at h
          try dsimp only at h
          have hmem2 := ih pt2 ln2 rest2 pt' ln' rest' h x hx
          exact List.mem_cons_of_mem _
            (parsePointProperty_mem file pt (cleanLine l) (ln + 1) rest pt2 ln2 rest2 hp x hmem2)

/-- The stream left over by `parseLineBody` consists of lines of its input. -/
theorem parseLineBody_mem (file : Str) (fuel : Nat) :
    ∀ (lt : LineType) (ln : Nat) (stream : List Str) (lt' : LineType)
      (ln' : Nat) (rest' : List Str),
      parseLineBody file fuel lt ln stream = .ok (lt', ln', rest') →
      ∀ x ∈ rest', x ∈ stream := by
  induction fuel with
  | zero =>
    intro lt ln stream lt' ln' rest' h
    match stream with
    | [] => simp [parseLineBody] at h
    | l :: rest => simp [parseLineBody] at h
  | succ fuel ih =>
    intro lt ln stream lt' ln' rest' h x hx
    match stream with
    | [] => simp [parseLineBody] at h
    | l :: rest =>
      have hred : parseLineBody file (fuel + 1) lt ln (l :: rest) =
          (if cleanLine l = [] then parseLineBody file fuel lt (ln + 1) rest
           else if cleanLine l = endTag then .ok (lt, ln + 1, rest)
           else
             match parseLineProperty file lt (cleanLine l) (ln + 1) rest with
             | .error e => .error e
             | .ok (lt2, ln2, rest2) => parseLineBody file fuel lt2 ln2 rest2) := rfl
      rw [hred] at h
      split_ifs at h with h1 h2
      · exact List.mem_cons_of_mem _ (ih lt (ln + 1) rest lt' ln' rest' h x hx)
      · simp only [Except.ok.injEq, Prod.mk.injEq] at h
        rw [← h.2.2] at hx
        exact List.mem_cons_of_mem _ hx
      · rcases hp : parseLineProperty file lt (cleanLine l) (ln + 1) rest
            with e | ⟨lt2, ln2, rest2⟩
        · rw [hp] at h; simp at h
        · rw [hp] at h
          try dsimp only at h
          have hmem2 := ih lt2 ln2 rest2 lt' ln' rest' h x hx
          exact List.mem_cons_of_mem _
            (parseLineProperty_mem file lt (cleanLine l) (ln + 1) rest lt2 ln2 rest2 hp x hmem2)

/-- The stream left over by `parsePolygonBody` consists of lines of its
input. -/
theorem parsePolygonBody_mem (file : Str) (fuel : Nat) :
    ∀ (pg : PolygonType) (ln : Nat) (stream : List Str) (pg' : PolygonType)
      (ln' : Nat) (rest' : List Str),
      parsePolygonBody file fuel pg ln stream = .ok (pg', ln', rest') →
      ∀ x ∈ rest', x ∈ stream := by
  induction fuel with
  | zero =>
    intro pg ln stream pg' ln' rest' h
    match stream with
    | [] => simp [parsePolygonBody] at h
    | l :: rest => simp [parsePolygonBody] at h
  | succ fuel ih =>
    intro pg ln stream pg' ln' rest' h x hx
    match stream with
    | [] => simp [parsePolygonBody] at h
    | l :: rest =>
      have hred : parsePolygonBody file (fuel + 1) pg ln (l :: rest) =
          (if cleanLine l = [] then parsePolygonBody file fuel pg (ln + 1) rest
           else if cleanLine l = endTag then .ok (pg, ln + 1, rest)
           else
             match parsePolygonProperty file pg (cleanLine l) (ln + 1) rest with
             | .error e => .error e
             | .ok (pg2, ln2, rest2) => parsePolygonBody file fuel pg2 ln2 rest2) := rfl
      rw [hred] at h
      split_ifs at h with h1 h2
      · exact List.mem_cons_of_mem _ (ih pg (ln + 1) rest pg' ln' rest' h x hx)
      · simp only [Except.ok.injEq, Prod.mk.injEq] at h
        rw [← h.2.2] at hx
        exact List.mem_cons_of_mem _ hx
      · rcases hp : parsePolygonProperty file pg (cleanLine l) (ln + 1) rest
            with e | ⟨pg2, ln2, rest2⟩
        · rw [hp] at h; simp at h
        · rw [hp] at h
          try dsimp only at h
          have hmem2 := ih pg2 ln2 rest2 pg' ln' rest' h x hx
          exact List.mem_cons_of_mem _
            (parsePolygonProperty_mem file pg (cleanLine l) (ln + 1) rest pg2 ln2 rest2 hp x hmem2)

/-- If no line of the stream opens a `[_drawOrder]` section, a successful
top-level parse leaves the draw-order accumulator unchanged. -/
theorem parseTop_draw (file : Str) (fuel : Nat) :
    ∀ (acc : TYPFile) (ln : Nat) (stream : List Str) (d : TYPFile),
      (∀ l ∈ stream, opensDraw l = false) →
      parseTop file fuel acc ln stream = .ok d → d.Draw = acc.Draw := by
  induction fuel with
  | zero =>
    intro acc ln stream d hnd h
    match stream with
    | [] =>
      simp only [parseTop, Except.ok.injEq] at h
      rw [← h]
    | l :: rest => simp [parseTop] at h
  | succ fuel ih =>
    intro acc ln stream d hnd h
    match stream with
    | [] =>
      simp only [parseTop, Except.ok.injEq] at h
      rw [← h]
    | l :: rest =>
      have hred : parseTop file (fuel + 1) acc ln (l :: rest) =
          (if cleanLine l = [] then parseTop file fuel acc (ln + 1) rest
           else if isPfx (['[']) (cleanLine l) then
             (if goTrimSpace (goTrimBrackets (cleanLine l)) = ("_id").toList then
               match parseHeaderBody file acc.Header (ln + 1) rest with
               | .error e => .error e
               | .ok (h2, ln2, rest2) =>
                 parseTop file fuel { acc with Header := h2 } ln2 rest2
             else if goTrimSpace (goTrimBrackets (cleanLine l)) = ("_point").toList then
               match parsePointBody file rest.length initPoint (ln + 1) rest with
               | .error e => .error e
               | .ok (pt, ln2, rest2) =>
                 parseTop file fuel { acc with Points := acc.Points ++ [pt] } ln2 rest2
             else if goTrimSpace (goTrimBrackets (cleanLine l)) = ("_line").toList then
               match parseLineBody file rest.length initLine (ln + 1) rest with
               | .error e => .error e
               | .ok (lt, ln2, rest2) =>
                 parseTop file fuel { acc with Lines := acc.Lines ++ [lt] } ln2 rest2
             else if goTrimSpace (goTrimBrackets (cleanLine l)) = ("_polygon").toList then
               match parsePolygonBody file rest.length initPolygon (ln + 1) rest with
               | .error e => .error e
               | .ok (pg, ln2, rest2) =>
                 parseTop file fuel { acc with Polygons := acc.Polygons ++ [pg] } ln2 rest2
             else if goTrimSpace (goTrimBrackets (cleanLine l)) = ("_drawOrder").toList then
               parseTop file fuel
                 { acc with Draw := (parseDrawOrderBody acc.Draw (ln + 1) rest).1 }
                 (parseDrawOrderBody acc.Draw (ln + 1) rest).2.1
                 (parseDrawOrderBody acc.Draw (ln + 1) rest).2.2
             else if goTrimSpace (goTrimBrackets (cleanLine l)) = ("end").toList then
               parseTop file fuel acc (ln + 1) rest
             else
               match skipToEndBody file (ln + 1) rest with
               | .error e => .error e
               | .ok (ln2, rest2) => parseTop file fuel acc ln2 rest2)
           else parseTop file fuel acc (ln + 1) rest) := rfl
      rw [hred] at h
      by_cases h1 : cleanLine l = []
      · rw [if_pos h1] at h
        exact ih acc (ln + 1) rest d
          (fun m hm => hnd m (List.mem_cons_of_mem _ hm)) h
      · rw [if_neg h1] at h
        by_cases h2 : isPfx (['[']) (cleanLine l) = true
        · rw [if_pos h2] at h
          by_cases h3 : goTrimSpace (goTrimBrackets (cleanLine l)) = ("_id").toList
          · rw [if_pos h3] at h
            rcases hh : parseHeaderBody file acc.Header (ln + 1) rest
                with e | ⟨h2d, ln2, rest2⟩
            · rw [hh] at h; simp at h
            · rw [hh] at h
              try dsimp only at h
              have hsub := parseHeaderBody_mem file rest acc.Header (ln + 1) h2d ln2 rest2 hh
              have hdr := ih _ ln2 rest2 d
                (fun m hm => hnd m (List.mem_cons_of_mem _ (hsub m hm))) h
              rw [hdr]
          · rw [if_neg h3] at h
            by_cases h4 : goTrimSpace (goTrimBrackets (cleanLine l)) = ("_point").toList
            · rw [if_pos h4] at h
              rcases hh : parsePointBody file rest.length initPoint (ln + 1) rest
                  with e | ⟨pt, ln2, rest2⟩
              · rw [hh] at h; simp at h
              · rw [hh] at h
                try dsimp only at h
                have hsub := parsePointBody_mem file rest.length initPoint (ln + 1) rest
                  pt ln2 rest2 hh
                have hdr := ih _ ln2 rest2 d
                  (fun m hm => hnd m (List.mem_cons_of_mem _ (hsub m hm))) h
                rw [hdr]
            · rw [if_neg h4] at h
              by_cases h5 : goTrimSpace (goTrimBrackets (cleanLine l)) = ("_line").toList
              · rw [if_pos h5] at h
                rcases hh : parseLineBody file rest.length initLine (ln + 1) rest
                    with e | ⟨lt, ln2, rest2⟩
                · rw [hh] at h; simp at h
                · rw [hh] at h
                  try dsimp only at h
                  have hsub := parseLineBody_mem file rest.length initLine (ln + 1) rest
                    lt ln2 rest2 hh
                  have hdr := ih _ ln2 rest2 d
                    (fun m hm => hnd m (List.mem_cons_of_mem _ (hsub m hm))) h
                  rw [hdr]
              · rw [if_neg h5] at h
                by_cases h6 : goTrimSpace (goTrimBrackets (cleanLine l)) = ("_polygon").toList
                · rw [if_pos h6] at h
                  rcases hh : parsePolygonBody file rest.length initPolygon (ln + 1) rest
                      with e | ⟨pg, ln2, rest2⟩
                  · rw [hh] at h; simp at h
                  · rw [hh] at h
                    try dsimp only at h
                    have hsub := parsePolygonBody_mem file rest.length initPolygon (ln + 1)
                      rest pg ln2 rest2 hh
                    have hdr := ih _ ln2 rest2 d
                      (fun m hm => hnd m (List.mem_cons_of_mem _ (hsub m hm))) h
                    rw [hdr]
                · rw [if_neg h6] at h
                  by_cases h7 : goTrimSpace (goTrimBrackets (cleanLine l)) =
                      ("_drawOrder").toList
                  · exfalso
                    have hcontra := hnd l (List.mem_cons_self l rest)
                    unfold opensDraw at hcontra
                    simp [h1, h2, h7] at hcontra
                  · rw [if_neg h7] at h
                    by_cases h8 : goTrimSpace (goTrimBrackets (cleanLine l)) = ("end").toList
                    · rw [if_pos h8] at h
                      exact ih acc (ln + 1) rest d
                        (fun m hm => hnd m (List.mem_cons_of_mem _ hm)) h
                    · rw [if_neg h8] at h
                      rcases hh : skipToEndBody file (ln + 1) rest with e | ⟨ln2, rest2⟩
                      · rw [hh] at h; simp at h
                      · rw [hh] at h
                        try dsimp only at h
                        have hsub := skipToEndBody_mem file rest (ln + 1) ln2 rest2 hh
                        exact ih acc ln2 rest2 d
                          (fun m hm => hnd m (List.mem_cons_of_mem _ (hsub m hm))) h
        · rw [if_neg h2] at h
          exact ih acc (ln + 1) rest d
            (fun m hm => hnd m (List.mem_cons_of_mem _ hm)) h

/-- Claim C9 (confirmed): the writer never serializes the draw-order field:
the written text does not depend on the Document's `Draw` field, no written
line opens a `[_drawOrder]` section, and re-parsing the written text always
yields an empty draw-order, even when the original Document's draw-order is
non-empty. -/
theorem c9_draw_order_dropped (f : Str) (d : TYPFile) :
    (∀ dr : DrawOrder, writeFileLines { d with Draw := dr } = writeFileLines d) ∧
    (∀ l ∈ writeFileLines d, opensDraw l = false) ∧
    (∀ d', parseFile f (writeFileLines d) = .ok d' →
      d'.Draw = { Points := [], Lines := [], Polygons := [] }) := by
  refine ⟨fun dr => rfl, writeFileLines_no_draw d, ?_⟩
  intro d' h
  have h' : parseTop f (writeFileLines d).length (initTYP f) 0 (writeFileLines d) =
      .ok d' := h
  have hres := parseTop_draw f (writeFileLines d).length (initTYP f) 0 (writeFileLines d)
    d' (writeFileLines_no_draw d) h'
  simpa [initTYP] using hres

/-- A document with a non-empty draw-order list and no records. -/
def c9doc : TYPFile :=
  { initTYP (("f").toList) with
    Draw := { Points := [("0x01").toList], Lines := [], Polygons := [] } }

/-- Claim C9, witness: on a concrete document with a non-empty draw order,
the written text is the one of the empty-draw-order document, its first line
does not open a draw-order section, and re-parsing yields an empty draw
order. -/
theorem c9_draw_order_dropped_witness :
    writeFileLines { c9doc with Draw := { Points := [], Lines := [], Polygons := [] } } =
      writeFileLines c9doc ∧
    opensDraw (("[_id]").toList) = false ∧
    (initTYP (("f").toList)).Draw = { Points := [], Lines := [], Polygons := [] } := by
  have h := c9_draw_order_dropped (("f").toList) c9doc
  exact ⟨h.1 _, h.2.1 (("[_id]").toList) (by decide),
    h.2.2 (initTYP (("f").toList)) (by decide)⟩

/-! ### Claim C1: the parse/write round trip -/

/-- A header section assigning a negative `FID`, accepted by the parser. -/
def c1input : List Str := [("[_id]").toList, ("FID=-5").toList, ("[end]").toList]

def c1doc : TYPFile :=
  { initTYP (("f").toList) with
    Header := { CodePage := 0, FID := -5, ProductCode := 0, MapID := 0 } }

/-- Claim C1, counterexample: the parser accepts `FID=-5`, but the writer
only emits header fields with positive stored value, so writing and
re-parsing the resulting Document loses the `FID` header field value. -/
theorem c1_counterexample :
    parseFile (("f").toList) c1input = .ok c1doc ∧
    c1doc.Header.FID = -5 ∧
    parseFile (("f").toList) (writeFileLines c1doc) = .ok (initTYP (("f").toList)) ∧
    (initTYP (("f").toList)).Header.FID = 0 := by decide

/-! #### Decimal formatting round-trips through the decimal parser -/

/-- Character-level facts about every character the integer formatter can
emit (digits and the minus sign): not whitespace, not a comment starter,
not a comma, quote, bracket or equals sign. -/
def digitPlain (c : Char) : Bool :=
  !goIsSpace c && !(c == ';') && !(c == '#') && !(c == ',') && !(c == '"') &&
    !(c == '[') && !(c == ']') && !(c == '=')

theorem digitChar_plain (d : Nat) : digitPlain (digitChar d) = true := by
  unfold digitChar
  split <;> decide

theorem digitChar_not_sign (d : Nat) :
    (digitChar d == '+') = false ∧ (digitChar d == '-') = false := by
  unfold digitChar
  split <;> exact ⟨by decide, by decide⟩

theorem digitVal_digitChar (d : Nat) (h : d < 10) : digitVal (digitChar d) = some d := by
  interval_cases d <;> decide

theorem natToCharsAux_all (P : Char → Prop) (hP : ∀ d, P (digitChar d)) :
    ∀ (fuel n : Nat) (acc : Str), (∀ c ∈ acc, P c) →
      ∀ c ∈ natToCharsAux fuel n acc, P c := by
  intro fuel
  induction fuel with
  | zero => intro n acc hacc c hc; exact hacc c hc
  | succ fuel ih =>
    intro n acc hacc c hc
    unfold natToCharsAux at hc
    split at hc
    · rcases List.mem_cons.mp hc with h | h
      · rw [h]; exact hP _
      · exact hacc c h
    · refine ih _ _ ?_ c hc
      intro c2 hc2
      rcases List.mem_cons.mp hc2 with h | h
      · rw [h]; exact hP _
      · exact hacc c2 h

theorem natToChars_plain (n : Nat) : ∀ c ∈ natToChars n, digitPlain c = true :=
  natToCharsAux_all (fun c => digitPlain c = true) digitChar_plain (n + 1) n []
    (by intro c hc; simp at hc)

theorem natToChars_not_sign (n : Nat) :
    ∀ c ∈ natToChars n, (c == '+') = false ∧ (c == '-') = false :=
  natToCharsAux_all (fun c => (c == '+') = false ∧ (c == '-') = false)
    digitChar_not_sign (n + 1) n [] (by intro c hc; simp at hc)

theorem intToChars_plain (i : Int) : ∀ c ∈ intToChars i, digitPlain c = true := by
  intro c hc
  unfold intToChars at hc
  split at hc
  · rcases List.mem_cons.mp hc with h | h
    · rw [h]; decide
    · exact natToChars_plain _ c h
  · exact natToChars_plain _ c hc

/-- `natToCharsAux` only prepends to its accumulator. -/
theorem natToCharsAux_acc (fuel : Nat) : ∀ (n : Nat) (acc : Str),
    natToCharsAux fuel n acc = natToCharsAux fuel n [] ++ acc := by
  induction fuel with
  | zero => intro n acc; rfl
  | succ fuel ih =>
    intro n acc
    unfold natToCharsAux
    by_cases h : n < 10
    · rw [if_pos h, if_pos h]; rfl
    · rw [if_neg h, if_neg h]
      rw [ih (n / 10) (digitChar (n % 10) :: acc), ih (n / 10) [digitChar (n % 10)]]
      simp

theorem natToChars_ne_nil (n : Nat) : natToChars n ≠ [] := by
  unfold natToChars natToCharsAux
  by_cases h : n < 10
  · rw [if_pos h]; simp
  · rw [if_neg h]
    rw [natToCharsAux_acc]
    simp

/-- Reading back the emitted digits of `n` continues the decimal
accumulation with `n` in the low digits. -/
theorem natToChars_parse (fuel : Nat) : ∀ (n a : Nat) (t : Str), n < 10 ^ fuel →
    parseDigitsAux a (natToCharsAux fuel n [] ++ t) =
      parseDigitsAux (a * 10 ^ (natToCharsAux fuel n []).length + n) t := by
  induction fuel with
  | zero =>
    intro n a t h
    simp only [pow_zero, Nat.lt_one_iff] at h
    subst h
    show parseDigitsAux a t = parseDigitsAux (a * 1 + 0) t
    rw [Nat.mul_one, Nat.add_zero]
  | succ fuel ih =>
    intro n a t h
    by_cases h10 : n < 10
    · have hD : natToCharsAux (fuel + 1) n [] = [digitChar n] := by
        unfold natToCharsAux; rw [if_pos h10]
      rw [hD]
      have hstep : parseDigitsAux a (digitChar n :: t) =
          (match digitVal (digitChar n) with
           | none => none
           | some d => parseDigitsAux (a * 10 + d) t) := rfl
      rw [List.singleton_append, hstep, digitVal_digitChar n h10]
      rw [List.length_singleton, pow_one]
    · have hD1 : natToCharsAux (fuel + 1) n [] =
          (if n < 10 then [digitChar n] else
            natToCharsAux fuel (n / 10) [digitChar (n % 10)]) := rfl
      have hD : natToCharsAux (fuel + 1) n [] =
          natToCharsAux fuel (n / 10) [] ++ [digitChar (n % 10)] := by
        rw [hD1, if_neg h10]
        exact natToCharsAux_acc fuel (n / 10) [digitChar (n % 10)]
      rw [hD]
      have hdiv : n / 10 < 10 ^ fuel := by
        rw [Nat.div_lt_iff_lt_mul (by norm_num : 0 < 10)]
        calc n < 10 ^ (fuel + 1) := h
          _ = 10 ^ fuel * 10 := pow_succ 10 fuel
      rw [List.append_assoc, ih (n / 10) a ([digitChar (n % 10)] ++ t) hdiv]
      rw [List.singleton_append]
      have hstep : parseDigitsAux
          (a * 10 ^ (natToCharsAux fuel (n / 10) []).length + n / 10)
          (digitChar (n % 10) :: t) =
          (match digitVal (digitChar (n % 10)) with
           | none => none
           | some d => parseDigitsAux
               ((a * 10 ^ (natToCharsAux fuel (n / 10) []).length + n / 10) * 10 + d)
               t) := rfl
      rw [hstep, digitVal_digitChar _ (Nat.mod_lt _ (by norm_num))]
      show parseDigitsAux
          ((a * 10 ^ (natToCharsAux fuel (n / 10) []).length + n / 10) * 10 + n % 10) t =
        parseDigitsAux
          (a * 10 ^ (natToCharsAux fuel (n / 10) [] ++ [digitChar (n % 10)]).length + n) t
      have hmod : n / 10 * 10 + n % 10 = n := by omega
      have harg : (a * 10 ^ (natToCharsAux fuel (n / 10) []).length + n / 10) * 10 + n % 10 =
          a * 10 ^ (natToCharsAux fuel (n / 10) [] ++ [digitChar (n % 10)]).length + n := by
        rw [List.length_append, List.length_singleton, pow_succ]
        calc (a * 10 ^ (natToCharsAux fuel (n / 10) []).length + n / 10) * 10 + n % 10
            = a * (10 ^ (natToCharsAux fuel (n / 10) []).length * 10) +
                (n / 10 * 10 + n % 10) := by ring
          _ = a * (10 ^ (natToCharsAux fuel (n / 10) []).length * 10) + n := by rw [hmod]
      rw [harg]

theorem parseDigits_natToChars (n : Nat) : parseDigits (natToChars n) = some n := by
  have hne := natToChars_ne_nil n
  obtain ⟨c, t, hct⟩ := List.exists_cons_of_ne_nil hne
  have hlt : n < 10 ^ (n + 1) :=
    lt_of_lt_of_le (Nat.lt_pow_self (by norm_num) n)
      (Nat.pow_le_pow_right (by norm_num) (Nat.le_succ n))
  have h := natToChars_parse (n + 1) n 0 [] hlt
  rw [List.append_nil] at h
  have hpd : parseDigits (natToChars n) = parseDigitsAux 0 (natToChars n) := by
    rw [hct]; rfl
  rw [hpd]
  show parseDigitsAux 0 (natToCharsAux (n + 1) n []) = some n
  rw [h]
  show some (0 * 10 ^ (natToCharsAux (n + 1) n []).length + n) = some n
  rw [Nat.zero_mul, Nat.zero_add]

theorem goAtoi_intToChars (i : Int) : goAtoi (intToChars i) = some i := by
  unfold intToChars
  by_cases h : i < 0
  · rw [if_pos h]
    show goAtoi ('-' :: natToChars (-i).toNat) = some i
    have hstep : goAtoi ('-' :: natToChars (-i).toNat) =
        (if ('-' : Char) = '+' then (parseDigits (natToChars (-i).toNat)).map Int.ofNat
         else if ('-' : Char) = '-' then
           (parseDigits (natToChars (-i).toNat)).map (fun n => -(n : Int))
         else (parseDigits ('-' :: natToChars (-i).toNat)).map Int.ofNat) := rfl
    rw [hstep, if_neg (by decide : ¬ ('-' : Char) = '+'), if_pos rfl]
    rw [parseDigits_natToChars]
    show some (-(((-i).toNat : Nat) : Int)) = some i
    congr 1
    omega
  · rw [if_neg h]
    have hne := natToChars_ne_nil i.toNat
    obtain ⟨c, t, hct⟩ := List.exists_cons_of_ne_nil hne
    have hsign := natToChars_not_sign i.toNat c (by rw [hct]; exact List.mem_cons_self _ _)
    rw [hct]
    have hstep : goAtoi (c :: t) =
        (if c = '+' then (parseDigits t).map Int.ofNat
         else if c = '-' then (parseDigits t).map (fun n => -(n : Int))
         else (parseDigits (c :: t)).map Int.ofNat) := rfl
    rw [hstep, if_neg (beq_eq_false_iff_ne.mp hsign.1),
      if_neg (beq_eq_false_iff_ne.mp hsign.2)]
    rw [← hct, parseDigits_natToChars]
    show some ((Int.ofNat i.toNat)) = some i
    congr 1
    exact Int.toNat_of_nonneg (le_of_not_lt h)

/-! #### Lines the writer emits survive `cleanLine` unchanged -/

theorem dropWhileB_length_le (p : Char → Bool) (s : Str) :
    (dropWhileB p s).length ≤ s.length := by
  induction s with
  | nil => simp [dropWhileB]
  | cons c t ih =>
    unfold dropWhileB
    split
    · exact le_trans ih (Nat.le_succ _)
    · simp

theorem dropWhileB_eq_self_of_length (p : Char → Bool) (s : Str)
    (h : (dropWhileB p s).length = s.length) : dropWhileB p s = s := by
  cases s with
  | nil => rfl
  | cons c t =>
    by_cases hp : p c = true
    · exfalso
      unfold dropWhileB at h
      rw [if_pos hp] at h
      have := dropWhileB_length_le p t
      rw [List.length_cons] at h
      omega
    · unfold dropWhileB
      rw [if_neg hp]

theorem trim_noop_parts (s : Str) (h : goTrimSpace s = s) :
    dropWhileB goIsSpace s = s ∧ dropWhileB goIsSpace s.reverse = s.reverse := by
  unfold goTrimSpace goTrimP at h
  have hlen := congrArg List.length h
  rw [List.length_reverse] at hlen
  have l1 : (dropWhileB goIsSpace s).length ≤ s.length := dropWhileB_length_le _ _
  have l2 : (dropWhileB goIsSpace (dropWhileB goIsSpace s).reverse).length ≤
      (dropWhileB goIsSpace s).length := by
    calc (dropWhileB goIsSpace (dropWhileB goIsSpace s).reverse).length
        ≤ (dropWhileB goIsSpace s).reverse.length := dropWhileB_length_le _ _
      _ = (dropWhileB goIsSpace s).length := List.length_reverse _
  have e1 : (dropWhileB goIsSpace s).length = s.length := by omega
  have hs1 : dropWhileB goIsSpace s = s := dropWhileB_eq_self_of_length _ _ e1
  refine ⟨hs1, ?_⟩
  rw [hs1] at h
  have h2 := congrArg List.reverse h
  rwa [List.reverse_reverse] at h2

theorem goTrimSpace_of_parts (s : Str) (hf : dropWhileB goIsSpace s = s)
    (hb : dropWhileB goIsSpace s.reverse = s.reverse) : goTrimSpace s = s := by
  unfold goTrimSpace goTrimP
  rw [hf, hb, List.reverse_reverse]

theorem dropWhileB_append_of_ne (p : Char → Bool) (a x : Str)
    (ha : dropWhileB p a = a) (hne : a ≠ []) :
    dropWhileB p (a ++ x) = a ++ x := by
  obtain ⟨c, t, rfl⟩ := List.exists_cons_of_ne_nil hne
  have hp : p c = false := by
    by_contra hcon
    rw [Bool.not_eq_false] at hcon
    unfold dropWhileB at ha
    rw [if_pos hcon] at ha
    have h1 := dropWhileB_length_le p t
    have h2 := congrArg List.length ha
    rw [List.length_cons] at h2
    omega
  rw [List.cons_append]
  exact dropWhileB_cons_neg p c (t ++ x) hp

theorem cutAtChar_eq_self_of_not_mem (ch : Char) (l : Str) (h : ch ∉ l) :
    cutAtChar ch l = l := by
  induction l with
  | nil => rfl
  | cons c t ih =>
    have hcc : ¬ (c == ch) = true := by
      intro hb
      exact h (beq_iff_eq.mp hb ▸ List.mem_cons_self c t)
    unfold cutAtChar
    rw [if_neg hcc, ih (fun hm => h (List.mem_cons_of_mem _ hm))]

theorem cleanLine_noop (l : Str) (h1 : ';' ∉ l) (h2 : '#' ∉ l)
    (h3 : goTrimSpace l = l) : cleanLine l = l := by
  unfold cleanLine
  rw [cutAtChar_eq_self_of_not_mem ';' l h1, cutAtChar_eq_self_of_not_mem '#' l h2, h3]

/-- The conditions a value string must satisfy for the written line carrying
it to survive `cleanLine`: free of comment starters and already trimmed. -/
def plainVal (s : Str) : Bool :=
  decide (';' ∉ s) && decide ('#' ∉ s) && decide (goTrimSpace s = s)

theorem plainVal_parts (s : Str) (h : plainVal s = true) :
    (';' ∉ s) ∧ ('#' ∉ s) ∧ goTrimSpace s = s := by
  simpa [plainVal, Bool.and_eq_true, decide_eq_true_eq, and_assoc] using h

theorem revside_of_val (a s : Str) (hs : goTrimSpace s = s)
    (haRev : dropWhileB goIsSpace a.reverse = a.reverse) :
    dropWhileB goIsSpace (a ++ s).reverse = (a ++ s).reverse := by
  rw [List.reverse_append]
  rcases s with _ | ⟨c, t⟩
  · simpa using haRev
  · exact dropWhileB_append_of_ne _ _ _ (trim_noop_parts _ hs).2 (by simp)

/-- `cleanLine` is the identity on a line made of a plain non-blank literal
prefix (key and `=` sign) followed by a `plainVal` value. -/
theorem cleanLine_keyline (a s : Str)
    (hlit : a ≠ [] ∧ (';' ∉ a) ∧ ('#' ∉ a) ∧ dropWhileB goIsSpace a = a ∧
      dropWhileB goIsSpace a.reverse = a.reverse)
    (hs : plainVal s = true) : cleanLine (a ++ s) = a ++ s := by
  obtain ⟨hane, hsa, hha, hfa, hra⟩ := hlit
  obtain ⟨hss, hhs, hts⟩ := plainVal_parts s hs
  apply cleanLine_noop
  · intro hm
    rcases List.mem_append.mp hm with h | h
    · exact hsa h
    · exact hss h
  · intro hm
    rcases List.mem_append.mp hm with h | h
    · exact hha h
    · exact hhs h
  · exact goTrimSpace_of_parts _ (dropWhileB_append_of_ne _ _ _ hfa hane)
      (revside_of_val a s hts hra)

/-! #### Quoted lines: trimming and quote-stripping -/

theorem goTrimSpace_quoted (inner : Str) :
    goTrimSpace ('"' :: inner ++ ['"']) = '"' :: inner ++ ['"'] := by
  apply goTrimSpace_of_parts
  · exact dropWhileB_cons_neg _ _ _ (by decide)
  · rw [show ('"' :: inner ++ ['"']).reverse = '"' :: (inner.reverse ++ ['"']) from by simp]
    exact dropWhileB_cons_neg _ _ _ (by decide)

theorem goTrimQuotes_wrap (inner : Str)
    (hh : dropWhileB (fun c => c == '"') inner = inner)
    (ht : dropWhileB (fun c => c == '"') inner.reverse = inner.reverse) :
    goTrimQuotes ('"' :: inner ++ ['"']) = inner := by
  rcases inner with _ | ⟨c, t⟩
  · decide
  · unfold goTrimQuotes goTrimP
    have h1 : dropWhileB (fun c => c == '"') ('"' :: ((c :: t) ++ ['"'])) =
        dropWhileB (fun c => c == '"') ((c :: t) ++ ['"']) := by
      simp [dropWhileB]
    have h2 : dropWhileB (fun c => c == '"') ((c :: t) ++ ['"']) = (c :: t) ++ ['"'] :=
      dropWhileB_append_of_ne _ _ _ hh (by simp)
    rw [show ('"' :: (c :: t) ++ ['"']) = '"' :: ((c :: t) ++ ['"']) from rfl, h1, h2]
    rw [show ((c :: t) ++ ['"']).reverse = '"' :: (c :: t).reverse from by simp]
    have h3 : dropWhileB (fun c => c == '"') ('"' :: (c :: t).reverse) =
        dropWhileB (fun c => c == '"') (c :: t).reverse := by
      simp [dropWhileB]
    rw [h3, ht, List.reverse_reverse]

/-! #### `strings.Fields` tokenization of the regenerated bitmap header -/

theorem dropWhileB_of_all (p : Char → Bool) (s : Str)
    (h : ∀ c ∈ s, p c = false) : dropWhileB p s = s := by
  cases s with
  | nil => rfl
  | cons c t => exact dropWhileB_cons_neg p c t (h c (List.mem_cons_self c t))

theorem digitPlain_parts (c : Char) (h : digitPlain c = true) :
    goIsSpace c = false ∧ c ≠ ';' ∧ c ≠ '#' ∧ c ≠ ',' ∧ c ≠ '"' ∧ c ≠ '[' ∧
      c ≠ ']' ∧ c ≠ '=' := by
  simp only [digitPlain, Bool.and_eq_true, Bool.not_eq_true', beq_eq_false_iff_ne,
    ne_eq] at h
  tauto

theorem fieldsWSAux_word (w : Str) (hw : ∀ c ∈ w, goIsSpace c = false) :
    ∀ (cur s : Str), fieldsWSAux cur (w ++ s) = fieldsWSAux (w.reverse ++ cur) s := by
  induction w with
  | nil => intro cur s; simp
  | cons c t ih =>
    intro cur s
    have hc : goIsSpace c = false := hw c (List.mem_cons_self c t)
    rw [List.cons_append]
    have hred : fieldsWSAux cur (c :: (t ++ s)) =
        (if goIsSpace c then
          (if cur = [] then fieldsWSAux [] (t ++ s)
           else cur.reverse :: fieldsWSAux [] (t ++ s))
         else fieldsWSAux (c :: cur) (t ++ s)) := rfl
    rw [hred, if_neg (by simp [hc])]
    rw [ih (fun c2 h2 => hw c2 (List.mem_cons_of_mem _ h2)) (c :: cur) s]
    congr 1
    simp

theorem fieldsWSAux_space (cur s : Str) (hcur : cur ≠ []) :
    fieldsWSAux cur (' ' :: s) = cur.reverse :: fieldsWSAux [] s := by
  have hred : fieldsWSAux cur (' ' :: s) =
      (if goIsSpace ' ' then
        (if cur = [] then fieldsWSAux [] s else cur.reverse :: fieldsWSAux [] s)
       else fieldsWSAux (' ' :: cur) s) := rfl
  rw [hred, if_pos (by decide), if_neg hcur]

theorem fieldsWSAux_last (cur : Str) (hcur : cur ≠ []) :
    fieldsWSAux cur [] = [cur.reverse] := by
  unfold fieldsWSAux
  rw [if_neg hcur]

theorem fieldsWS_four (w1 w2 w3 w4 : Str)
    (hs1 : ∀ c ∈ w1, goIsSpace c = false) (hn1 : w1 ≠ [])
    (hs2 : ∀ c ∈ w2, goIsSpace c = false) (hn2 : w2 ≠ [])
    (hs3 : ∀ c ∈ w3, goIsSpace c = false) (hn3 : w3 ≠ [])
    (hs4 : ∀ c ∈ w4, goIsSpace c = false) (hn4 : w4 ≠ []) :
    fieldsWS (w1 ++ ' ' :: (w2 ++ ' ' :: (w3 ++ ' ' :: w4))) = [w1, w2, w3, w4] := by
  unfold fieldsWS
  rw [fieldsWSAux_word w1 hs1 [] _]
  simp only [List.append_nil]
  rw [fieldsWSAux_space _ _ (by simpa using hn1), List.reverse_reverse]
  rw [fieldsWSAux_word w2 hs2 [] _]
  simp only [List.append_nil]
  rw [fieldsWSAux_space _ _ (by simpa using hn2), List.reverse_reverse]
  rw [fieldsWSAux_word w3 hs3 [] _]
  simp only [List.append_nil]
  rw [fieldsWSAux_space _ _ (by simpa using hn3), List.reverse_reverse]
  rw [show w4 = w4 ++ [] from (List.append_nil w4).symm]
  rw [fieldsWSAux_word w4 hs4 [] _]
  simp only [List.append_nil]
  rw [fieldsWSAux_last _ (by simpa using hn4), List.reverse_reverse]

theorem intToChars_ne_nil (i : Int) : intToChars i ≠ [] := by
  unfold intToChars
  split
  · simp
  · exact natToChars_ne_nil _

theorem intToChars_nonspace (i : Int) : ∀ c ∈ intToChars i, goIsSpace c = false :=
  fun c hc => (digitPlain_parts c (intToChars_plain i c hc)).1

theorem intToChars_nonquote (i : Int) : ∀ c ∈ intToChars i, (c == '"') = false :=
  fun c hc => beq_eq_false_iff_ne.mpr (digitPlain_parts c (intToChars_plain i c hc)).2.2.2.2.1

/-! #### The regenerated bitmap header parses back to the same four fields -/

/-- The inner text of the regenerated quoted XPM header. -/
def xpmInner (x : XPMIcon) : Str :=
  intToChars x.Width ++ (' ' :: intToChars x.Height) ++ (' ' :: intToChars x.Colors) ++
    (' ' :: intToChars x.CharsPerPixel)

/-- The quoted header value of a written bitmap property line. -/
def xpmHeaderVal (x : XPMIcon) : Str := '"' :: xpmInner x ++ ['"']

theorem xpmInner_nonquote (x : XPMIcon) : ∀ c ∈ xpmInner x, (c == '"') = false := by
  intro c hc
  unfold xpmInner at hc
  rcases List.mem_append.mp hc with h3 | h4
  rcases List.mem_append.mp h3 with h2 | h3
  rcases List.mem_append.mp h2 with h1 | h2
  · exact intToChars_nonquote _ c h1
  · rcases List.mem_cons.mp h2 with h | h
    · rw [h]; decide
    · exact intToChars_nonquote _ c h
  · rcases List.mem_cons.mp h3 with h | h
    · rw [h]; decide
    · exact intToChars_nonquote _ c h
  · rcases List.mem_cons.mp h4 with h | h
    · rw [h]; decide
    · exact intToChars_nonquote _ c h

theorem goTrimQuotes_xpmHeaderVal (x : XPMIcon) :
    goTrimQuotes (xpmHeaderVal x) = xpmInner x := by
  unfold xpmHeaderVal
  exact goTrimQuotes_wrap _
    (dropWhileB_of_all _ _ (xpmInner_nonquote x))
    (dropWhileB_of_all _ _ (fun c hc =>
      xpmInner_nonquote x c (List.mem_reverse.mp hc)))

theorem fieldsWS_xpmInner (x : XPMIcon) :
    fieldsWS (xpmInner x) = [intToChars x.Width, intToChars x.Height,
      intToChars x.Colors, intToChars x.CharsPerPixel] := by
  rw [show xpmInner x = intToChars x.Width ++ ' ' :: (intToChars x.Height ++ ' ' ::
      (intToChars x.Colors ++ ' ' :: intToChars x.CharsPerPixel)) from by
    simp [xpmInner, List.append_assoc]]
  exact fieldsWS_four _ _ _ _
    (intToChars_nonspace _) (intToChars_ne_nil _)
    (intToChars_nonspace _) (intToChars_ne_nil _)
    (intToChars_nonspace _) (intToChars_ne_nil _)
    (intToChars_nonspace _) (intToChars_ne_nil _)

/-- On the regenerated header value, `parseXPM` succeeds and reduces to the
`xpmLoop` consumption of its stream. -/
theorem parseXPM_written (file : Str) (x : XPMIcon) (ln : Nat) (stream : List Str) :
    parseXPM file (xpmHeaderVal x) ln stream =
      .ok ({ Width := x.Width, Height := x.Height, Colors := x.Colors,
             CharsPerPixel := x.CharsPerPixel,
             Data := (xpmLoop x.Colors (x.Colors + x.Height) [] [] 0 ln stream).2.1,
             Palette := (xpmLoop x.Colors (x.Colors + x.Height) [] [] 0 ln stream).1 },
           (xpmLoop x.Colors (x.Colors + x.Height) [] [] 0 ln stream).2.2.1,
           (xpmLoop x.Colors (x.Colors + x.Height) [] [] 0 ln stream).2.2.2) := by
  unfold parseXPM
  rw [goTrimQuotes_xpmHeaderVal x]
  simp only [fieldsWS_xpmInner x, goAtoi_intToChars]

/-! #### Round trip of a whole written bitmap block -/

/-- The palette line the writer emits for one palette entry. -/
def palLine (p : Str × Color) : Str :=
  if p.2.Hex = ("none").toList ∨ p.2.Hex = ("transparent").toList then
    '"' :: p.1 ++ (" c none\"").toList
  else '"' :: p.1 ++ scSep ++ p.2.Hex ++ ['"']

/-- The data line the writer emits for one pixel row. -/
def dataLine (row : Str) : Str := '"' :: row ++ ['"']

/-- The colour text the writer puts after `c` for one palette entry. -/
def writtenHex (c : Color) : Str :=
  if c.Hex = ("none").toList ∨ c.Hex = ("transparent").toList then ("none").toList
  else c.Hex

/-- The conditions under which a bitmap survives the write/parse round trip:
consistent declared counts, distinct palette keys, quote-free trimmed colour
texts other than `transparent`, default `Day`/`Name` fields, palette keys
that the ` c ` separator search splits back correctly, and quote-free pixel
rows. -/
def XpmOk (x : XPMIcon) : Prop :=
  x.Colors = (x.Palette.length : Int) ∧
  x.Height = (x.Data.length : Int) ∧
  (x.Palette.map Prod.fst).Nodup ∧
  (∀ p ∈ x.Palette, (∀ c ∈ p.1, (c == '"') = false) ∧
    (∀ c ∈ p.2.Hex, (c == '"') = false) ∧
    p.2.Hex ≠ ("transparent").toList ∧
    goTrimSpace p.2.Hex = p.2.Hex ∧
    p.2.Day = false ∧ p.2.Name = [] ∧
    splitFirstSub scSep (p.1 ++ scSep ++ writtenHex p.2) = some (p.1, writtenHex p.2)) ∧
  (∀ row ∈ x.Data, ∀ c ∈ row, (c == '"') = false)

theorem writtenHex_eq (c : Color) (h : c.Hex ≠ ("transparent").toList) :
    writtenHex c = c.Hex := by
  unfold writtenHex
  split_ifs with h1
  · rcases h1 with h1 | h1
    · exact h1.symm
    · exact absurd h1 h
  · rfl

theorem writtenHex_trim (c : Color) (hts : goTrimSpace c.Hex = c.Hex) :
    goTrimSpace (writtenHex c) = writtenHex c := by
  unfold writtenHex
  split_ifs
  · decide
  · exact hts

theorem writtenHex_nonquote (c : Color) (hx : ∀ a ∈ c.Hex, (a == '"') = false) :
    ∀ a ∈ writtenHex c, (a == '"') = false := by
  unfold writtenHex
  split_ifs
  · decide
  · exact hx

theorem palLine_shape (p : Str × Color) :
    palLine p = '"' :: (p.1 ++ scSep ++ writtenHex p.2) ++ ['"'] := by
  unfold palLine writtenHex
  split_ifs with h
  · rw [show (" c none\"").toList = scSep ++ (("none").toList ++ ['"']) from by decide]
    simp [List.append_assoc]
  · simp [List.append_assoc]

theorem contentOf_wrap (inner : Str) (h : ∀ c ∈ inner, (c == '"') = false) :
    contentOf ('"' :: inner ++ ['"']) = inner := by
  unfold contentOf
  rw [goTrimSpace_quoted, goTrimQuotes_wrap inner (dropWhileB_of_all _ _ h)
    (dropWhileB_of_all _ _ (fun c hc => h c (List.mem_reverse.mp hc)))]

theorem quoted_wrap (inner : Str) : xpmQuoted ('"' :: inner ++ ['"']) = true := by
  unfold xpmQuoted
  rw [goTrimSpace_quoted]
  exact isPfx_single.mpr ⟨inner ++ ['"'], rfl⟩

theorem palStep_palLine (pal : List (Str × Color)) (p : Str × Color)
    (hk : ∀ c ∈ p.1, (c == '"') = false) (hx : ∀ c ∈ p.2.Hex, (c == '"') = false)
    (htr : p.2.Hex ≠ ("transparent").toList) (hts : goTrimSpace p.2.Hex = p.2.Hex)
    (hday : p.2.Day = false) (hname : p.2.Name = [])
    (hsplit : splitFirstSub scSep (p.1 ++ scSep ++ writtenHex p.2) =
      some (p.1, writtenHex p.2)) :
    palStep pal (palLine p) = mapUpdate pal p.1 p.2 := by
  have hinner : ∀ c ∈ p.1 ++ scSep ++ writtenHex p.2, (c == '"') = false := by
    intro c hc
    rcases List.mem_append.mp hc with h2 | h3
    rcases List.mem_append.mp h2 with h1 | h2
    · exact hk c h1
    · rw [(by decide : scSep = [' ', 'c', ' '])] at h2
      fin_cases h2 <;> decide
    · exact writtenHex_nonquote p.2 hx c h3
  have hcnt : contentOf (palLine p) = p.1 ++ scSep ++ writtenHex p.2 := by
    rw [palLine_shape]
    exact contentOf_wrap _ hinner
  unfold palStep
  rw [hcnt, hsplit]
  show mapUpdate pal p.1
      { Hex := goTrimSpace (writtenHex p.2), Day := false, Name := [] } =
    mapUpdate pal p.1 p.2
  rw [writtenHex_trim p.2 hts, writtenHex_eq p.2 htr]
  rw [← hday, ← hname]

theorem mapUpdate_of_fresh (m : List (Str × α)) (k : Str) (v : α)
    (h : mapLookup m k = none) : mapUpdate m k v = m ++ [(k, v)] := by
  induction m with
  | nil => rfl
  | cons p rest ih =>
    unfold mapLookup at h
    unfold mapUpdate
    by_cases hk : p.1 = k
    · rw [if_pos hk] at h; exact absurd h (by simp)
    · rw [if_neg hk] at h
      rw [if_neg hk, ih h, List.cons_append]

theorem mapLookup_append_none (a b : List (Str × α)) (k : Str)
    (ha : mapLookup a k = none) : mapLookup (a ++ b) k = mapLookup b k := by
  induction a with
  | nil => rfl
  | cons p rest ih =>
    unfold mapLookup at ha
    by_cases hk : p.1 = k
    · rw [if_pos hk] at ha; exact absurd ha (by simp)
    · rw [if_neg hk] at ha
      rw [List.cons_append]
      have hred : mapLookup (p :: (rest ++ b)) k =
          (if p.1 = k then some p.2 else mapLookup (rest ++ b) k) := rfl
      rw [hred, if_neg hk]
      exact ih ha

theorem foldl_mapUpdate_fresh (m : List (Str × α)) :
    ∀ acc : List (Str × α), (m.map Prod.fst).Nodup →
      (∀ p ∈ m, mapLookup acc p.1 = none) →
      m.foldl (fun pal p => mapUpdate pal p.1 p.2) acc = acc ++ m := by
  induction m with
  | nil => intro acc _ _; simp
  | cons p m ih =>
    intro acc hnd hfresh
    simp only [List.foldl_cons]
    rw [mapUpdate_of_fresh acc p.1 p.2 (hfresh p (List.mem_cons_self p m))]
    rw [List.map_cons, List.nodup_cons] at hnd
    rw [ih (acc ++ [(p.1, p.2)]) hnd.2 ?_]
    · simp
    · intro q hq
      rw [mapLookup_append_none acc _ q.1
        (hfresh q (List.mem_cons_of_mem _ hq))]
      have hne : p.1 ≠ q.1 := by
        intro he
        exact hnd.1 (he ▸ List.mem_map_of_mem Prod.fst hq)
      unfold mapLookup
      rw [if_neg hne]
      rfl

theorem foldl_congr_mem (l : List β) :
    ∀ (f g : α → β → α) (a : α), (∀ acc x, x ∈ l → f acc x = g acc x) →
      l.foldl f a = l.foldl g a := by
  induction l with
  | nil => intro f g a _; rfl
  | cons x l ih =>
    intro f g a h
    simp only [List.foldl_cons]
    rw [h a x (List.mem_cons_self x l)]
    exact ih f g (g a x) (fun acc y hy => h acc y (List.mem_cons_of_mem _ hy))

/-- `xpmLoop` consumes the written palette and data lines and rebuilds the
palette and pixel rows exactly. -/
theorem xpmLoop_written (x : XPMIcon) (hW : XpmOk x) (ln : Nat) (rest : List Str) :
    xpmLoop x.Colors (x.Colors + x.Height) [] [] 0 ln
      ((x.Palette.map palLine ++ x.Data.map dataLine) ++ rest) =
      (x.Palette, x.Data, ln + (x.Palette.length + x.Data.length), rest) := by
  obtain ⟨hC, hH, hnd, hpal, hdat⟩ := hW
  set A := x.Palette.map palLine ++ x.Data.map dataLine with hA
  set m := x.Palette.length + x.Data.length with hm
  have hAlen : A.length = m := by simp [hA, hm]
  have htake : (A ++ rest).take m = A := by
    rw [← hAlen]; exact List.take_left A rest
  have hdrop : (A ++ rest).drop m = rest := by
    rw [← hAlen]; exact List.drop_left A rest
  have hq : ∀ l ∈ (A ++ rest).take m, xpmQuoted l = true := by
    rw [htake]
    intro l hl
    rcases List.mem_append.mp hl with h1 | h2
    · obtain ⟨p, _, hp⟩ := List.mem_map.mp h1
      rw [← hp, palLine_shape]
      exact quoted_wrap _
    · obtain ⟨row, _, hr⟩ := List.mem_map.mp h2
      rw [← hr]
      exact quoted_wrap _
  have hrun := xpmLoop_run m x.Colors (x.Colors + x.Height) [] [] 0 ln (A ++ rest)
    (by rw [hC, hH, hm]; push_cast; ring)
    hq
    (by rw [List.length_append, hAlen]; omega)
  rw [hrun]
  have hc0 : (x.Colors - 0).toNat = x.Palette.length := by
    rw [hC]; simp
  have hmin : min m (x.Colors - 0).toNat = x.Palette.length := by
    rw [hc0, hm]; omega
  have htakeP : (A ++ rest).take x.Palette.length = x.Palette.map palLine := by
    rw [hA, List.append_assoc]
    rw [show x.Palette.length = (x.Palette.map palLine).length from by simp]
    exact List.take_left _ _
  have hfold : (x.Palette.map palLine).foldl palStep [] = x.Palette := by
    rw [List.foldl_map]
    rw [foldl_congr_mem x.Palette _ (fun pal p => mapUpdate pal p.1 p.2) []
      (fun acc p hp => by
        obtain ⟨hk, hx, htr, hts, hday, hname, hsplit⟩ := hpal p hp
        exact palStep_palLine acc p hk hx htr hts hday hname hsplit)]
    rw [foldl_mapUpdate_fresh x.Palette [] hnd (fun p _ => rfl)]
    rfl
  have hdrop2 : ((A ++ rest).take m).drop (x.Colors - 0).toNat =
      x.Data.map dataLine := by
    rw [htake, hc0, hA]
    rw [show x.Palette.length = (x.Palette.map palLine).length from by simp]
    exact List.drop_left _ _
  have hmapD : (x.Data.map dataLine).map contentOf = x.Data := by
    rw [List.map_map]
    rw [List.map_congr_left (fun row hr => ?_)]
    · exact List.map_id x.Data
    · show contentOf (dataLine row) = row
      exact contentOf_wrap row (hdat row hr)
  rw [hmin, htakeP, hfold, hdrop2, hmapD, hdrop]
  simp

/-- `parseXPM` on a written bitmap block returns the bitmap unchanged and
leaves exactly the lines after the block. -/
theorem parseXPM_roundtrip (file : Str) (x : XPMIcon) (hW : XpmOk x) (ln : Nat)
    (rest : List Str) :
    parseXPM file (xpmHeaderVal x) ln
      ((x.Palette.map palLine ++ x.Data.map dataLine) ++ rest) =
      .ok (x, ln + (x.Palette.length + x.Data.length), rest) := by
  rw [parseXPM_written, xpmLoop_written x hW ln rest]

/-! #### Labels: emission order, rebuild by repeated map update -/

/-- The label line the writer emits for one code/text pair. -/
def lineOf (p : Str × Str) : Str := ("String=").toList ++ p.1 ++ [','] ++ p.2

/-- The code/text pairs in writer emission order: the `0x04` entry first
(when present), then the remaining entries in map iteration order. -/
def labelPairs (m : List (Str × Str)) : List (Str × Str) :=
  (match mapLookup m eng04 with
   | some v => [(eng04, v)]
   | none => []) ++
    m.filter (fun p => decide (¬ p.1 = eng04))

theorem writeLabels_eq (m : List (Str × Str)) :
    writeLabels m = (labelPairs m).map lineOf := by
  by_cases hm : m = []
  · subst hm; rfl
  · unfold writeLabels labelPairs
    rw [if_neg hm]
    rcases hl : mapLookup m eng04 with _ | v
    · simp [lineOf]
    · simp only [List.map_append, List.map_cons, List.map_nil]
      rw [show lineOf (eng04, v) = ("String=0x04,").toList ++ v from by
        show ("String=").toList ++ eng04 ++ [','] ++ v = ("String=0x04,").toList ++ v
        rw [show ("String=0x04,").toList = ("String=").toList ++ eng04 ++ [','] from by
          decide]]
      simp [lineOf]

/-- The conditions a label code must satisfy to round trip: plain, non-empty
and comma-free. -/
def codeOk (c : Str) : Bool := plainVal c && decide (c ≠ []) && decide (',' ∉ c)

theorem codeOk_parts (c : Str) (h : codeOk c = true) :
    plainVal c = true ∧ c ≠ [] ∧ (',' ∉ c) := by
  simpa [codeOk, Bool.and_eq_true, decide_eq_true_eq, and_assoc] using h

/-- The first occurrence of `ch` after a `ch`-free prefix splits there. -/
theorem splitFirstChar_lit (ch : Char) (a : Str) (ha : ch ∉ a) (s : Str) :
    splitFirstChar ch (a ++ ch :: s) = some (a, s) := by
  induction a with
  | nil =>
    show splitFirstChar ch (ch :: s) = some ([], s)
    unfold splitFirstChar
    rw [if_pos (by simp)]
  | cons c t ih =>
    have hne : ¬ (c == ch) = true := by
      intro hb
      exact ha (beq_iff_eq.mp hb ▸ List.mem_cons_self c t)
    rw [List.cons_append]
    unfold splitFirstChar
    rw [if_neg hne, ih (fun hm => ha (List.mem_cons_of_mem _ hm))]
    rfl

/-- A `code,text` value with a plain non-empty code and a plain text is
itself plain. -/
theorem plainVal_pair (c v : Str) (hc : plainVal c = true) (hcne : c ≠ [])
    (hv : plainVal v = true) : plainVal (c ++ [','] ++ v) = true := by
  obtain ⟨hcs, hch, hct⟩ := plainVal_parts c hc
  obtain ⟨hvs, hvh, hvt⟩ := plainVal_parts v hv
  have hmem : ∀ ch : Char, ch ≠ ',' → ch ∉ c → ch ∉ v → ch ∉ c ++ [','] ++ v := by
    intro ch hne hc1 hv1 hm
    rcases List.mem_append.mp hm with h2 | h3
    rcases List.mem_append.mp h2 with h1 | h2
    · exact hc1 h1
    · exact hne (List.mem_singleton.mp h2)
    · exact hv1 h3
  have htrim : goTrimSpace (c ++ [','] ++ v) = c ++ [','] ++ v := by
    apply goTrimSpace_of_parts
    · rw [List.append_assoc]
      exact dropWhileB_append_of_ne _ _ _ (trim_noop_parts c hct).1 hcne
    · rcases v with _ | ⟨vc, vt⟩
      · rw [show (c ++ [','] ++ ([] : Str)).reverse = ',' :: c.reverse from by simp]
        exact dropWhileB_cons_neg _ _ _ (by decide)
      · rw [show (c ++ [','] ++ (vc :: vt)).reverse =
          (vc :: vt).reverse ++ ([','] ++ c.reverse) from by simp]
        exact dropWhileB_append_of_ne _ _ _ (trim_noop_parts _ hvt).2 (by simp)
  simp only [plainVal, Bool.and_eq_true, decide_eq_true_eq]
  exact ⟨⟨hmem ';' (by decide) hcs hvs, hmem '#' (by decide) hch hvh⟩, htrim⟩

theorem mapLookup_eq_none_of (l : List (Str × α)) (k : Str)
    (h : ∀ p ∈ l, p.1 ≠ k) : mapLookup l k = none := by
  induction l with
  | nil => rfl
  | cons q l ih =>
    show (if q.1 = k then some q.2 else mapLookup l k) = none
    rw [if_neg (h q (List.mem_cons_self q l))]
    exact ih (fun p hp => h p (List.mem_cons_of_mem _ hp))

/-- Looking a non-`0x04` key up in the filtered label list. -/
theorem mapLookup_filter_ne (m : List (Str × Str)) (k : Str) (hk : k ≠ eng04) :
    mapLookup (m.filter (fun p => decide (¬ p.1 = eng04))) k = mapLookup m k := by
  induction m with
  | nil => rfl
  | cons q m ih =>
    by_cases hq : q.1 = eng04
    · rw [show List.filter (fun p => decide (¬ p.1 = eng04)) (q :: m) =
          List.filter (fun p => decide (¬ p.1 = eng04)) m from by
        simp [List.filter_cons, hq]]
      rw [ih]
      have hqk : ¬ q.1 = k := by rw [hq]; exact fun he => hk he.symm
      conv_rhs => rw [show mapLookup (q :: m) k =
        (if q.1 = k then some q.2 else mapLookup m k) from rfl]
      rw [if_neg hqk]
    · rw [show List.filter (fun p => decide (¬ p.1 = eng04)) (q :: m) =
          q :: List.filter (fun p => decide (¬ p.1 = eng04)) m from by
        simp [List.filter_cons, hq]]
      show (if q.1 = k then some q.2 else
        mapLookup (List.filter (fun p => decide (¬ p.1 = eng04)) m) k) =
        (if q.1 = k then some q.2 else mapLookup m k)
      by_cases hqk : q.1 = k
      · rw [if_pos hqk, if_pos hqk]
      · rw [if_neg hqk, if_neg hqk, ih]

theorem labelPairs_nodup (m : List (Str × Str)) (hnd : (m.map Prod.fst).Nodup) :
    ((labelPairs m).map Prod.fst).Nodup := by
  have hsub : (m.filter (fun p => decide (¬ p.1 = eng04))).Sublist m :=
    List.filter_sublist m
  have hfil : ((m.filter (fun p => decide (¬ p.1 = eng04))).map Prod.fst).Nodup :=
    (hsub.map Prod.fst).nodup hnd
  unfold labelPairs
  rcases hl : mapLookup m eng04 with _ | v
  · simpa using hfil
  · simp only [List.map_append, List.map_cons, List.map_nil, List.singleton_append]
    rw [List.nodup_cons]
    refine ⟨?_, hfil⟩
    intro hmem
    obtain ⟨p, hp, hpk⟩ := List.mem_map.mp hmem
    have hpf := List.of_mem_filter hp
    rw [hpk] at hpf
    simp at hpf

theorem labelPairs_lookup (m : List (Str × Str)) :
    ∀ k, mapLookup (labelPairs m) k = mapLookup m k := by
  intro k
  unfold labelPairs
  by_cases hk : k = eng04
  · subst hk
    rcases hl : mapLookup m eng04 with _ | v
    · rw [List.nil_append]
      apply mapLookup_eq_none_of
      intro p hp
      have hpf := List.of_mem_filter hp
      simpa using hpf
    · rw [List.singleton_append]
      show (if eng04 = eng04 then some v else
        mapLookup (m.filter (fun p => decide (¬ p.1 = eng04))) eng04) = some v
      rw [if_pos rfl]
  · rcases hl : mapLookup m eng04 with _ | v
    · rw [List.nil_append]
      exact mapLookup_filter_ne m k (fun he => hk he)
    · rw [List.singleton_append]
      show (if eng04 = k then some v else
        mapLookup (m.filter (fun p => decide (¬ p.1 = eng04))) k) = mapLookup m k
      rw [if_neg (fun he => hk he.symm)]
      exact mapLookup_filter_ne m k (fun he => hk he)

/-! #### One body step of each record section parser -/

theorem pointBody_get_step (file : Str) (fuel : Nat) (pt : PointType) (ln : Nat)
    (l : Str) (rest : List Str) (pt2 : PointType) (ln2 : Nat) (rest2 : List Str)
    (hne : cleanLine l ≠ []) (hnend : cleanLine l ≠ endTag)
    (hprop : parsePointProperty file pt (cleanLine l) (ln + 1) rest = .ok (pt2, ln2, rest2)) :
    parsePointBody file (fuel + 1) pt ln (l :: rest) =
      parsePointBody file fuel pt2 ln2 rest2 := by
  have hred : parsePointBody file (fuel + 1) pt ln (l :: rest) =
      (if cleanLine l = [] then parsePointBody file fuel pt (ln + 1) rest
       else if cleanLine l = endTag then .ok (pt, ln + 1, rest)
       else
         match parsePointProperty file pt (cleanLine l) (ln + 1) rest with
         | .error e => .error e
         | .ok (q, m, r) => parsePointBody file fuel q m r) := rfl
  rw [hred, if_neg hne, if_neg hnend, hprop]

theorem pointBody_endstep (file : Str) (fuel : Nat) (pt : PointType) (ln : Nat)
    (rest : List Str) :
    parsePointBody file (fuel + 1) pt ln (endTag :: rest) = .ok (pt, ln + 1, rest) := by
  have hred : parsePointBody file (fuel + 1) pt ln (endTag :: rest) =
      (if cleanLine endTag = [] then parsePointBody file fuel pt (ln + 1) rest
       else if cleanLine endTag = endTag then .ok (pt, ln + 1, rest)
       else
         match parsePointProperty file pt (cleanLine endTag) (ln + 1) rest with
         | .error e => .error e
         | .ok (q, m, r) => parsePointBody file fuel q m r) := rfl
  rw [hred, if_neg (by decide), if_pos (by decide)]

theorem lineBody_get_step (file : Str) (fuel : Nat) (lt : LineType) (ln : Nat)
    (l : Str) (rest : List Str) (lt2 : LineType) (ln2 : Nat) (rest2 : List Str)
    (hne : cleanLine l ≠ []) (hnend : cleanLine l ≠ endTag)
    (hprop : parseLineProperty file lt (cleanLine l) (ln + 1) rest = .ok (lt2, ln2, rest2)) :
    parseLineBody file (fuel + 1) lt ln (l :: rest) =
      parseLineBody file fuel lt2 ln2 rest2 := by
  have hred : parseLineBody file (fuel + 1) lt ln (l :: rest) =
      (if cleanLine l = [] then parseLineBody file fuel lt (ln + 1) rest
       else if cleanLine l = endTag then .ok (lt, ln + 1, rest)
       else
         match parseLineProperty file lt (cleanLine l) (ln + 1) rest with
         | .error e => .error e
         | .ok (q, m, r) => parseLineBody file fuel q m r) := rfl
  rw [hred, if_neg hne, if_neg hnend, hprop]

theorem lineBody_endstep (file : Str) (fuel : Nat) (lt : LineType) (ln : Nat)
    (rest : List Str) :
    parseLineBody file (fuel + 1) lt ln (endTag :: rest) = .ok (lt, ln + 1, rest) := by
  have hred : parseLineBody file (fuel + 1) lt ln (endTag :: rest) =
      (if cleanLine endTag = [] then parseLineBody file fuel lt (ln + 1) rest
       else if cleanLine endTag = endTag then .ok (lt, ln + 1, rest)
       else
         match parseLineProperty file lt (cleanLine endTag) (ln + 1) rest with
         | .error e => .error e
         | .ok (q, m, r) => parseLineBody file fuel q m r) := rfl
  rw [hred, if_neg (by decide), if_pos (by decide)]

theorem polyBody_get_step (file : Str) (fuel : Nat) (pg : PolygonType) (ln : Nat)
    (l : Str) (rest : List Str) (pg2 : PolygonType) (ln2 : Nat) (rest2 : List Str)
    (hne : cleanLine l ≠ []) (hnend : cleanLine l ≠ endTag)
    (hprop : parsePolygonProperty file pg (cleanLine l) (ln + 1) rest =
      .ok (pg2, ln2, rest2)) :
    parsePolygonBody file (fuel + 1) pg ln (l :: rest) =
      parsePolygonBody file fuel pg2 ln2 rest2 := by
  have hred : parsePolygonBody file (fuel + 1) pg ln (l :: rest) =
      (if cleanLine l = [] then parsePolygonBody file fuel pg (ln + 1) rest
       else if cleanLine l = endTag then .ok (pg, ln + 1, rest)
       else
         match parsePolygonProperty file pg (cleanLine l) (ln + 1) rest with
         | .error e => .error e
         | .ok (q, m, r) => parsePolygonBody file fuel q m r) := rfl
  rw [hred, if_neg hne, if_neg hnend, hprop]

theorem polyBody_endstep (file : Str) (fuel : Nat) (pg : PolygonType) (ln : Nat)
    (rest : List Str) :
    parsePolygonBody file (fuel + 1) pg ln (endTag :: rest) = .ok (pg, ln + 1, rest) := by
  have hred : parsePolygonBody file (fuel + 1) pg ln (endTag :: rest) =
      (if cleanLine endTag = [] then parsePolygonBody file fuel pg (ln + 1) rest
       else if cleanLine endTag = endTag then .ok (pg, ln + 1, rest)
       else
         match parsePolygonProperty file pg (cleanLine endTag) (ln + 1) rest with
         | .error e => .error e
         | .ok (q, m, r) => parsePolygonBody file fuel q m r) := rfl
  rw [hred, if_neg (by decide), if_pos (by decide)]

/-! #### Each written property line parses back to its field update -/

theorem splitEq (key lit : Str) (v : Str) (hlit : lit = key ++ ['='])
    (hk : '=' ∉ key) : splitFirstChar '=' (lit ++ v) = some (key, v) := by
  rw [hlit, List.append_assoc]
  exact splitFirstChar_lit '=' key hk v

theorem plainVal_intToChars (i : Int) : plainVal (intToChars i) = true := by
  simp only [plainVal, Bool.and_eq_true, decide_eq_true_eq]
  refine ⟨⟨?_, ?_⟩, ?_⟩
  · intro hm; exact (digitPlain_parts _ (intToChars_plain i _ hm)).2.1 rfl
  · intro hm; exact (digitPlain_parts _ (intToChars_plain i _ hm)).2.2.1 rfl
  · exact goTrimSpace_of_parts _
      (dropWhileB_of_all _ _ (fun c hc => intToChars_nonspace i c hc))
      (dropWhileB_of_all _ _ (fun c hc => intToChars_nonspace i c (List.mem_reverse.mp hc)))

theorem parsePointProperty_type (file : Str) (pt : PointType) (v : Str) (ln : Nat)
    (rest : List Str) (hv : plainVal v = true) :
    parsePointProperty file pt (("Type=").toList ++ v) ln rest =
      .ok ({ pt with Typ := v }, ln, rest) := by
  unfold parsePointProperty
  rw [splitEq (("Type").toList) (("Type=").toList) v (by decide) (by decide)]
  try dsimp only
  rw [show goTrimSpace (("Type").toList) = ("Type").toList from by decide]
  rw [if_pos rfl, (plainVal_parts v hv).2.2]

theorem parsePointProperty_subtype (file : Str) (pt : PointType) (v : Str) (ln : Nat)
    (rest : List Str) (hv : plainVal v = true) :
    parsePointProperty file pt (("SubType=").toList ++ v) ln rest =
      .ok ({ pt with SubType := v }, ln, rest) := by
  unfold parsePointProperty
  rw [splitEq (("SubType").toList) (("SubType=").toList) v (by decide) (by decide)]
  try dsimp only
  rw [show goTrimSpace (("SubType").toList) = ("SubType").toList from by decide]
  rw [if_neg (by decide), if_pos rfl, (plainVal_parts v hv).2.2]

theorem parsePointProperty_label (file : Str) (pt : PointType) (p : Str × Str) (ln : Nat)
    (rest : List Str) (hc : codeOk p.1 = true) (hv : plainVal p.2 = true) :
    parsePointProperty file pt (lineOf p) ln rest =
      .ok ({ pt with Labels := mapUpdate pt.Labels p.1 p.2 }, ln, rest) := by
  obtain ⟨hcp, hcne, hccomma⟩ := codeOk_parts p.1 hc
  unfold parsePointProperty
  rw [show lineOf p = ("String=").toList ++ (p.1 ++ [','] ++ p.2) from by
    unfold lineOf; simp [List.append_assoc]]
  rw [splitEq (("String").toList) (("String=").toList) _ (by decide) (by decide)]
  try dsimp only
  rw [show goTrimSpace (("String").toList) = ("String").toList from by decide]
  rw [if_neg (by decide), if_neg (by decide)]
  rw [if_pos (by decide : isStringKey (("String").toList) = true)]
  have htrimv : goTrimSpace (p.1 ++ [','] ++ p.2) = p.1 ++ [','] ++ p.2 :=
    (plainVal_parts _ (plainVal_pair p.1 p.2 hcp hcne hv)).2.2
  rw [htrimv]
  have hsv : parseStringVal (p.1 ++ [','] ++ p.2) = (p.1, p.2) := by
    unfold parseStringVal
    rw [show p.1 ++ [','] ++ p.2 = p.1 ++ ',' :: p.2 from by simp]
    rw [splitFirstChar_lit ',' p.1 hccomma p.2]
    try dsimp only
    rw [(plainVal_parts _ hcp).2.2, (plainVal_parts _ hv).2.2]
  rw [hsv]
  try dsimp only
  rw [if_pos hcne]

theorem parsePointProperty_fontstyle (file : Str) (pt : PointType) (v : Str) (ln : Nat)
    (rest : List Str) (hv : plainVal v = true) :
    parsePointProperty file pt (("FontStyle=").toList ++ v) ln rest =
      .ok ({ pt with FontStyle := v }, ln, rest) := by
  unfold parsePointProperty
  rw [splitEq (("FontStyle").toList) (("FontStyle=").toList) v (by decide) (by decide)]
  try dsimp only
  rw [show goTrimSpace (("FontStyle").toList) = ("FontStyle").toList from by decide]
  rw [if_neg (by decide), if_neg (by decide), if_neg (by decide), if_neg (by decide),
    if_neg (by decide), if_pos rfl, (plainVal_parts v hv).2.2]

theorem parsePointProperty_dayxpm (file : Str) (pt : PointType) (x : XPMIcon)
    (hW : XpmOk x) (ln : Nat) (rest : List Str) :
    parsePointProperty file pt (("DayXpm=").toList ++ xpmHeaderVal x) ln
      ((x.Palette.map palLine ++ x.Data.map dataLine) ++ rest) =
      .ok ({ pt with DayXpm := some x },
        ln + (x.Palette.length + x.Data.length), rest) := by
  unfold parsePointProperty
  rw [splitEq (("DayXpm").toList) (("DayXpm=").toList) _ (by decide) (by decide)]
  try dsimp only
  rw [show goTrimSpace (("DayXpm").toList) = ("DayXpm").toList from by decide]
  rw [if_neg (by decide), if_neg (by decide), if_neg (by decide), if_pos rfl]
  rw [show goTrimSpace (xpmHeaderVal x) = xpmHeaderVal x from by
    unfold xpmHeaderVal; exact goTrimSpace_quoted _]
  rw [parseXPM_roundtrip file x hW ln rest]

theorem parsePointProperty_nightxpm (file : Str) (pt : PointType) (x : XPMIcon)
    (hW : XpmOk x) (ln : Nat) (rest : List Str) :
    parsePointProperty file pt (("NightXpm=").toList ++ xpmHeaderVal x) ln
      ((x.Palette.map palLine ++ x.Data.map dataLine) ++ rest) =
      .ok ({ pt with NightXpm := some x },
        ln + (x.Palette.length + x.Data.length), rest) := by
  unfold parsePointProperty
  rw [splitEq (("NightXpm").toList) (("NightXpm=").toList) _ (by decide) (by decide)]
  try dsimp only
  rw [show goTrimSpace (("NightXpm").toList) = ("NightXpm").toList from by decide]
  rw [if_neg (by decide), if_neg (by decide), if_neg (by decide), if_neg (by decide),
    if_pos rfl]
  rw [show goTrimSpace (xpmHeaderVal x) = xpmHeaderVal x from by
    unfold xpmHeaderVal; exact goTrimSpace_quoted _]
  rw [parseXPM_roundtrip file x hW ln rest]

theorem parseLineProperty_type (file : Str) (lt : LineType) (v : Str) (ln : Nat)
    (rest : List Str) (hv : plainVal v = true) :
    parseLineProperty file lt (("Type=").toList ++ v) ln rest =
      .ok ({ lt with Typ := v }, ln, rest) := by
  unfold parseLineProperty
  rw [splitEq (("Type").toList) (("Type=").toList) v (by decide) (by decide)]
  try dsimp only
  rw [show goTrimSpace (("Type").toList) = ("Type").toList from by decide]
  rw [if_pos rfl, (plainVal_parts v hv).2.2]

theorem parseLineProperty_label (file : Str) (lt : LineType) (p : Str × Str) (ln : Nat)
    (rest : List Str) (hc : codeOk p.1 = true) (hv : plainVal p.2 = true) :
    parseLineProperty file lt (lineOf p) ln rest =
      .ok ({ lt with Labels := mapUpdate lt.Labels p.1 p.2 }, ln, rest) := by
  obtain ⟨hcp, hcne, hccomma⟩ := codeOk_parts p.1 hc
  unfold parseLineProperty
  rw [show lineOf p = ("String=").toList ++ (p.1 ++ [','] ++ p.2) from by
    unfold lineOf; simp [List.append_assoc]]
  rw [splitEq (("String").toList) (("String=").toList) _ (by decide) (by decide)]
  try dsimp only
  rw [show goTrimSpace (("String").toList) = ("String").toList from by decide]
  rw [if_neg (by decide)]
  rw [if_pos (by decide : isStringKey (("String").toList) = true)]
  have htrimv : goTrimSpace (p.1 ++ [','] ++ p.2) = p.1 ++ [','] ++ p.2 :=
    (plainVal_parts _ (plainVal_pair p.1 p.2 hcp hcne hv)).2.2
  rw [htrimv]
  have hsv : parseStringVal (p.1 ++ [','] ++ p.2) = (p.1, p.2) := by
    unfold parseStringVal
    rw [show p.1 ++ [','] ++ p.2 = p.1 ++ ',' :: p.2 from by simp]
    rw [splitFirstChar_lit ',' p.1 hccomma p.2]
    try dsimp only
    rw [(plainVal_parts _ hcp).2.2, (plainVal_parts _ hv).2.2]
  rw [hsv]
  try dsimp only
  rw [if_pos hcne]

theorem parseLineProperty_linewidth (file : Str) (lt : LineType) (n : Int) (ln : Nat)
    (rest : List Str) :
    parseLineProperty file lt (("LineWidth=").toList ++ intToChars n) ln rest =
      .ok ({ lt with LineWidth := n }, ln, rest) := by
  unfold parseLineProperty
  rw [splitEq (("LineWidth").toList) (("LineWidth=").toList) _ (by decide) (by decide)]
  try dsimp only
  rw [show goTrimSpace (("LineWidth").toList) = ("LineWidth").toList from by decide]
  rw [if_neg (by decide), if_neg (by decide), if_pos rfl]
  rw [(plainVal_parts _ (plainVal_intToChars n)).2.2, goAtoi_intToChars]

theorem parseLineProperty_borderwidth (file : Str) (lt : LineType) (n : Int) (ln : Nat)
    (rest : List Str) :
    parseLineProperty file lt (("BorderWidth=").toList ++ intToChars n) ln rest =
      .ok ({ lt with BorderWidth := n }, ln, rest) := by
  unfold parseLineProperty
  rw [splitEq (("BorderWidth").toList) (("BorderWidth=").toList) _ (by decide) (by decide)]
  try dsimp only
  rw [show goTrimSpace (("BorderWidth").toList) = ("BorderWidth").toList from by decide]
  rw [if_neg (by decide), if_neg (by decide), if_neg (by decide), if_pos rfl]
  rw [(plainVal_parts _ (plainVal_intToChars n)).2.2, goAtoi_intToChars]

theorem parseLineProperty_linestyle (file : Str) (lt : LineType) (v : Str) (ln : Nat)
    (rest : List Str) (hv : plainVal v = true) :
    parseLineProperty file lt (("LineStyle=").toList ++ v) ln rest =
      .ok ({ lt with LineStyle := v }, ln, rest) := by
  unfold parseLineProperty
  rw [splitEq (("LineStyle").toList) (("LineStyle=").toList) v (by decide) (by decide)]
  try dsimp only
  rw [show goTrimSpace (("LineStyle").toList) = ("LineStyle").toList from by decide]
  rw [if_neg (by decide), if_neg (by decide), if_neg (by decide), if_neg (by decide),
    if_pos rfl, (plainVal_parts v hv).2.2]

theorem parseLineProperty_useorientation (file : Str) (lt : LineType) (ln : Nat)
    (rest : List Str) :
    parseLineProperty file lt (("UseOrientation=Y").toList) ln rest =
      .ok ({ lt with UseOrientation := true }, ln, rest) := by
  unfold parseLineProperty
  rw [show ("UseOrientation=Y").toList =
    ("UseOrientation=").toList ++ (("Y").toList) from by decide]
  rw [splitEq (("UseOrientation").toList) (("UseOrientation=").toList) _
    (by decide) (by decide)]
  try dsimp only
  rw [show goTrimSpace (("UseOrientation").toList) = ("UseOrientation").toList from by
    decide]
  rw [if_neg (by decide), if_neg (by decide), if_neg (by decide), if_neg (by decide),
    if_neg (by decide), if_neg (by decide), if_pos rfl]
  rw [show goTrimSpace (("Y").toList) = ("Y").toList from by decide]
  rfl

theorem parseLineProperty_xpm (file : Str) (lt : LineType) (x : XPMIcon)
    (hW : XpmOk x) (ln : Nat) (rest : List Str) :
    parseLineProperty file lt (("Xpm=").toList ++ xpmHeaderVal x) ln
      ((x.Palette.map palLine ++ x.Data.map dataLine) ++ rest) =
      .ok ({ lt with DayXpm := some x },
        ln + (x.Palette.length + x.Data.length), rest) := by
  unfold parseLineProperty
  rw [splitEq (("Xpm").toList) (("Xpm=").toList) _ (by decide) (by decide)]
  try dsimp only
  rw [show goTrimSpace (("Xpm").toList) = ("Xpm").toList from by decide]
  rw [if_neg (by decide), if_neg (by decide), if_neg (by decide), if_neg (by decide),
    if_neg (by decide), if_pos rfl]
  rw [show goTrimSpace (xpmHeaderVal x) = xpmHeaderVal x from by
    unfold xpmHeaderVal; exact goTrimSpace_quoted _]
  rw [parseXPM_roundtrip file x hW ln rest]

theorem parsePolygonProperty_type (file : Str) (pg : PolygonType) (v : Str) (ln : Nat)
    (rest : List Str) (hv : plainVal v = true) :
    parsePolygonProperty file pg (("Type=").toList ++ v) ln rest =
      .ok ({ pg with Typ := v }, ln, rest) := by
  unfold parsePolygonProperty
  rw [splitEq (("Type").toList) (("Type=").toList) v (by decide) (by decide)]
  try dsimp only
  rw [show goTrimSpace (("Type").toList) = ("Type").toList from by decide]
  rw [if_pos rfl, (plainVal_parts v hv).2.2]

theorem parsePolygonProperty_label (file : Str) (pg : PolygonType) (p : Str × Str)
    (ln : Nat) (rest : List Str) (hc : codeOk p.1 = true) (hv : plainVal p.2 = true) :
    parsePolygonProperty file pg (lineOf p) ln rest =
      .ok ({ pg with Labels := mapUpdate pg.Labels p.1 p.2 }, ln, rest) := by
  obtain ⟨hcp, hcne, hccomma⟩ := codeOk_parts p.1 hc
  unfold parsePolygonProperty
  rw [show lineOf p = ("String=").toList ++ (p.1 ++ [','] ++ p.2) from by
    unfold lineOf; simp [List.append_assoc]]
  rw [splitEq (("String").toList) (("String=").toList) _ (by decide) (by decide)]
  try dsimp only
  rw [show goTrimSpace (("String").toList) = ("String").toList from by decide]
  rw [if_neg (by decide)]
  rw [if_pos (by decide : isStringKey (("String").toList) = true)]
  have htrimv : goTrimSpace (p.1 ++ [','] ++ p.2) = p.1 ++ [','] ++ p.2 :=
    (plainVal_parts _ (plainVal_pair p.1 p.2 hcp hcne hv)).2.2
  rw [htrimv]
  have hsv : parseStringVal (p.1 ++ [','] ++ p.2) = (p.1, p.2) := by
    unfold parseStringVal
    rw [show p.1 ++ [','] ++ p.2 = p.1 ++ ',' :: p.2 from by simp]
    rw [splitFirstChar_lit ',' p.1 hccomma p.2]
    try dsimp only
    rw [(plainVal_parts _ hcp).2.2, (plainVal_parts _ hv).2.2]
  rw [hsv]
  try dsimp only
  rw [if_pos hcne]

theorem parsePolygonProperty_extlabels (file : Str) (pg : PolygonType) (ln : Nat)
    (rest : List Str) :
    parsePolygonProperty file pg (("ExtendedLabels=Y").toList) ln rest =
      .ok ({ pg with ExtendedLabels := true }, ln, rest) := by
  unfold parsePolygonProperty
  rw [show ("ExtendedLabels=Y").toList =
    ("ExtendedLabels=").toList ++ (("Y").toList) from by decide]
  rw [splitEq (("ExtendedLabels").toList) (("ExtendedLabels=").toList) _
    (by decide) (by decide)]
  try dsimp only
  rw [show goTrimSpace (("ExtendedLabels").toList) = ("ExtendedLabels").toList from by
    decide]
  rw [if_neg (by decide), if_neg (by decide), if_neg (by decide), if_pos rfl]
  rw [show goTrimSpace (("Y").toList) = ("Y").toList from by decide]
  rfl

theorem parsePolygonProperty_fontstyle (file : Str) (pg : PolygonType) (v : Str)
    (ln : Nat) (rest : List Str) (hv : plainVal v = true) :
    parsePolygonProperty file pg (("FontStyle=").toList ++ v) ln rest =
      .ok ({ pg with FontStyle := v }, ln, rest) := by
  unfold parsePolygonProperty
  rw [splitEq (("FontStyle").toList) (("FontStyle=").toList) v (by decide) (by decide)]
  try dsimp only
  rw [show goTrimSpace (("FontStyle").toList) = ("FontStyle").toList from by decide]
  rw [if_neg (by decide), if_neg (by decide), if_neg (by decide), if_neg (by decide),
    if_pos rfl, (plainVal_parts v hv).2.2]

theorem parsePolygonProperty_xpm (file : Str) (pg : PolygonType) (x : XPMIcon)
    (hW : XpmOk x) (ln : Nat) (rest : List Str) :
    parsePolygonProperty file pg (("Xpm=").toList ++ xpmHeaderVal x) ln
      ((x.Palette.map palLine ++ x.Data.map dataLine) ++ rest) =
      .ok ({ pg with DayXpm := some x },
        ln + (x.Palette.length + x.Data.length), rest) := by
  unfold parsePolygonProperty
  rw [splitEq (("Xpm").toList) (("Xpm=").toList) _ (by decide) (by decide)]
  try dsimp only
  rw [show goTrimSpace (("Xpm").toList) = ("Xpm").toList from by decide]
  rw [if_neg (by decide), if_neg (by decide), if_pos rfl]
  rw [show goTrimSpace (xpmHeaderVal x) = xpmHeaderVal x from by
    unfold xpmHeaderVal; exact goTrimSpace_quoted _]
  rw [parseXPM_roundtrip file x hW ln rest]

/-! #### Written record blocks parse back section by section -/

/-- The palette and pixel lines of a written bitmap. -/
def xpmLines (x : XPMIcon) : List Str := x.Palette.map palLine ++ x.Data.map dataLine

theorem writeXPM_decomp (f : Str) (x : XPMIcon) :
    writeXPM f x = (f ++ ('=' :: xpmHeaderVal x)) :: (xpmLines x) := by
  unfold writeXPM xpmLines
  rw [List.cons_append]
  congr 1
  simp [xpmHeaderVal, xpmInner, List.append_assoc]

theorem xpmInner_chars (x : XPMIcon) :
    ∀ c ∈ xpmInner x, digitPlain c = true ∨ c = ' ' := by
  intro c hc
  unfold xpmInner at hc
  rcases List.mem_append.mp hc with h3 | h4
  rcases List.mem_append.mp h3 with h2 | h3
  rcases List.mem_append.mp h2 with h1 | h2
  · exact .inl (intToChars_plain _ c h1)
  · rcases List.mem_cons.mp h2 with h | h
    · exact .inr h
    · exact .inl (intToChars_plain _ c h)
  · rcases List.mem_cons.mp h3 with h | h
    · exact .inr h
    · exact .inl (intToChars_plain _ c h)
  · rcases List.mem_cons.mp h4 with h | h
    · exact .inr h
    · exact .inl (intToChars_plain _ c h)

theorem plainVal_xpmHeaderVal (x : XPMIcon) : plainVal (xpmHeaderVal x) = true := by
  simp only [plainVal, Bool.and_eq_true, decide_eq_true_eq]
  have hmem : ∀ ch : Char, ch ≠ '"' → ch ≠ ' ' → digitPlain ch = false →
      ch ∉ xpmHeaderVal x := by
    intro ch hq hsp hdp hm
    unfold xpmHeaderVal at hm
    rcases List.mem_append.mp hm with h | h2
    · rcases List.mem_cons.mp h with h | h1
      · exact hq h
      · rcases xpmInner_chars x ch h1 with hd | hd
        · rw [hd] at hdp; exact Bool.noConfusion hdp
        · exact hsp hd
    · exact hq (List.mem_singleton.mp h2)
  exact ⟨⟨hmem ';' (by decide) (by decide) (by decide),
    hmem '#' (by decide) (by decide) (by decide)⟩,
    by unfold xpmHeaderVal; exact goTrimSpace_quoted _⟩

theorem lit_append_ne_nil (c : Char) (t v : Str) : (c :: t) ++ v ≠ [] := by simp

theorem lit_append_ne_endTag (c : Char) (t v : Str) (hc : c ≠ '[') :
    (c :: t) ++ v ≠ endTag := by
  intro he
  have h2 : some c = some '[' := by
    calc some c = ((c :: t) ++ v).head? := rfl
      _ = endTag.head? := by rw [he]
      _ = some '[' := rfl
  exact hc (Option.some.inj h2)

theorem mapLookup_mem (m : List (Str × α)) (k : Str) (v : α)
    (h : mapLookup m k = some v) : (k, v) ∈ m := by
  induction m with
  | nil => exact Option.noConfusion h
  | cons q m ih =>
    have hred : mapLookup (q :: m) k =
        (if q.1 = k then some q.2 else mapLookup m k) := rfl
    rw [hred] at h
    by_cases hk : q.1 = k
    · rw [if_pos hk] at h
      have hv := Option.some.inj h
      have : (k, v) = q := by
        rw [← hk, ← hv]
      rw [this]
      exact List.mem_cons_self q m
    · rw [if_neg hk] at h
      exact List.mem_cons_of_mem _ (ih h)

/-- Consuming a run of written label lines accumulates the map updates. -/
theorem pointBody_labels (file : Str) (pairs : List (Str × Str)) :
    ∀ (fuel : Nat) (pt : PointType) (ln : Nat) (tail : List Str),
      (∀ q ∈ pairs, codeOk q.1 = true ∧ plainVal q.2 = true) →
      parsePointBody file (fuel + pairs.length) pt ln (pairs.map lineOf ++ tail) =
        parsePointBody file fuel
          { pt with Labels := pairs.foldl (fun m q => mapUpdate m q.1 q.2) pt.Labels }
          (ln + pairs.length) tail := by
  induction pairs with
  | nil =>
    intro fuel pt ln tail _
    simp only [List.length_nil, Nat.add_zero, List.map_nil, List.nil_append,
      List.foldl_nil]
  | cons p pairs ih =>
    intro fuel pt ln tail hW
    obtain ⟨hc, hv⟩ := hW p (List.mem_cons_self _ _)
    have hcl : cleanLine (lineOf p) = lineOf p := by
      rw [show lineOf p = ("String=").toList ++ (p.1 ++ [','] ++ p.2) from by
        unfold lineOf; simp [List.append_assoc]]
      exact cleanLine_keyline _ _ (by decide)
        (plainVal_pair p.1 p.2 (codeOk_parts _ hc).1 (codeOk_parts _ hc).2.1 hv)
    rw [List.map_cons, List.cons_append]
    rw [show fuel + (p :: pairs).length = (fuel + pairs.length) + 1 from rfl]
    rw [pointBody_get_step file (fuel + pairs.length) pt ln (lineOf p)
      (pairs.map lineOf ++ tail) { pt with Labels := mapUpdate pt.Labels p.1 p.2 }
      (ln + 1) (pairs.map lineOf ++ tail)
      (by rw [hcl]; exact lit_append_ne_nil 'S' _ _)
      (by rw [hcl]; exact lit_append_ne_endTag 'S' _ _ (by decide))
      (by rw [hcl]; exact parsePointProperty_label file pt p (ln + 1) _ hc hv)]
    rw [ih fuel _ (ln + 1) tail (fun q hq => hW q (List.mem_cons_of_mem _ hq))]
    rw [show ln + 1 + pairs.length = ln + (p :: pairs).length from by
      simp only [List.length_cons]; omega]
    rfl

theorem pointBody_sub_seg (file : Str) (v : Str) (hv : plainVal v = true)
    (fuel : Nat) (pt : PointType) (ln : Nat) (tail : List Str) (hpt : pt.SubType = []) :
    parsePointBody file (fuel + (if v ≠ [] then 1 else 0)) pt ln
      ((if v ≠ [] then [("SubType=").toList ++ v] else []) ++ tail) =
      parsePointBody file fuel { pt with SubType := v }
        (ln + (if v ≠ [] then 1 else 0)) tail := by
  split_ifs with hv0
  · rw [List.singleton_append]
    have hcl : cleanLine (("SubType=").toList ++ v) = ("SubType=").toList ++ v :=
      cleanLine_keyline _ _ (by decide) hv
    exact pointBody_get_step file fuel pt ln _ tail _ _ _
      (by rw [hcl]; exact lit_append_ne_nil 'S' _ _)
      (by rw [hcl]; exact lit_append_ne_endTag 'S' _ _ (by decide))
      (by rw [hcl]; exact parsePointProperty_subtype file pt v (ln + 1) tail hv)
  · rw [List.nil_append, Nat.add_zero, Nat.add_zero]
    rw [show ({ pt with SubType := v }) = pt from by
      rw [not_not.mp hv0, ← hpt]]

theorem pointBody_font_seg (file : Str) (v : Str) (hv : plainVal v = true)
    (fuel : Nat) (pt : PointType) (ln : Nat) (tail : List Str)
    (hpt : pt.FontStyle = []) :
    parsePointBody file (fuel + (if v ≠ [] then 1 else 0)) pt ln
      ((if v ≠ [] then [("FontStyle=").toList ++ v] else []) ++ tail) =
      parsePointBody file fuel { pt with FontStyle := v }
        (ln + (if v ≠ [] then 1 else 0)) tail := by
  split_ifs with hv0
  · rw [List.singleton_append]
    have hcl : cleanLine (("FontStyle=").toList ++ v) = ("FontStyle=").toList ++ v :=
      cleanLine_keyline _ _ (by decide) hv
    exact pointBody_get_step file fuel pt ln _ tail _ _ _
      (by rw [hcl]; exact lit_append_ne_nil 'F' _ _)
      (by rw [hcl]; exact lit_append_ne_endTag 'F' _ _ (by decide))
      (by rw [hcl]; exact parsePointProperty_fontstyle file pt v (ln + 1) tail hv)
  · rw [List.nil_append, Nat.add_zero, Nat.add_zero]
    rw [show ({ pt with FontStyle := v }) = pt from by
      rw [not_not.mp hv0, ← hpt]]

/-- `1` when the optional bitmap is present. -/
def optCount (ox : Option XPMIcon) : Nat :=
  match ox with
  | some _ => 1
  | none => 0

/-- The number of lines of the optional written bitmap segment. -/
def optLines (ox : Option XPMIcon) : Nat :=
  match ox with
  | some x => 1 + (x.Palette.length + x.Data.length)
  | none => 0

/-- The lines of an optional written bitmap property. -/
def optXpmSeg (f : Str) (ox : Option XPMIcon) : List Str :=
  match ox with
  | some x => writeXPM f x
  | none => []

/-- Round-trip conditions of an optional bitmap. -/
def optXpmOk (ox : Option XPMIcon) : Prop :=
  match ox with
  | some x => XpmOk x
  | none => True

theorem pointBody_day_seg (file : Str) (ox : Option XPMIcon) (hW : optXpmOk ox)
    (fuel : Nat) (pt : PointType) (ln : Nat) (tail : List Str)
    (hpt : pt.DayXpm = none) :
    parsePointBody file (fuel + optCount ox) pt ln
      (optXpmSeg (("DayXpm").toList) ox ++ tail) =
      parsePointBody file fuel { pt with DayXpm := ox } (ln + optLines ox) tail := by
  rcases ox with _ | x
  · show parsePointBody file (fuel + 0) pt ln ([] ++ tail) =
      parsePointBody file fuel { pt with DayXpm := none } (ln + 0) tail
    simp only [List.nil_append, Nat.add_zero]
    rw [show ({ pt with DayXpm := none }) = pt from by rw [← hpt]]
  · show parsePointBody file (fuel + 1) pt ln
      ((writeXPM (("DayXpm").toList) x) ++ tail) =
      parsePointBody file fuel { pt with DayXpm := some x }
        (ln + (1 + (x.Palette.length + x.Data.length))) tail
    rw [writeXPM_decomp, List.cons_append]
    have hline : ("DayXpm").toList ++ ('=' :: xpmHeaderVal x) =
        ("DayXpm=").toList ++ xpmHeaderVal x := by
      rw [show ("DayXpm=").toList = ("DayXpm").toList ++ ['='] from by decide]
      simp [List.append_assoc]
    rw [hline]
    have hcl : cleanLine (("DayXpm=").toList ++ xpmHeaderVal x) =
        ("DayXpm=").toList ++ xpmHeaderVal x :=
      cleanLine_keyline _ _ (by decide) (plainVal_xpmHeaderVal x)
    rw [pointBody_get_step file fuel pt ln _ (xpmLines x ++ tail) _ _ _
      (by rw [hcl]; exact lit_append_ne_nil 'D' _ _)
      (by rw [hcl]; exact lit_append_ne_endTag 'D' _ _ (by decide))
      (by
        rw [hcl]
        show parsePointProperty file pt (("DayXpm=").toList ++ xpmHeaderVal x)
          (ln + 1) (xpmLines x ++ tail) = _
        unfold xpmLines
        exact parsePointProperty_dayxpm file pt x hW (ln + 1) tail)]
    rw [show ln + 1 + (x.Palette.length + x.Data.length) =
      ln + (1 + (x.Palette.length + x.Data.length)) from by omega]

theorem pointBody_night_seg (file : Str) (ox : Option XPMIcon) (hW : optXpmOk ox)
    (fuel : Nat) (pt : PointType) (ln : Nat) (tail : List Str)
    (hpt : pt.NightXpm = none) :
    parsePointBody file (fuel + optCount ox) pt ln
      (optXpmSeg (("NightXpm").toList) ox ++ tail) =
      parsePointBody file fuel { pt with NightXpm := ox } (ln + optLines ox) tail := by
  rcases ox with _ | x
  · show parsePointBody file (fuel + 0) pt ln ([] ++ tail) =
      parsePointBody file fuel { pt with NightXpm := none } (ln + 0) tail
    simp only [List.nil_append, Nat.add_zero]
    rw [show ({ pt with NightXpm := none }) = pt from by rw [← hpt]]
  · show parsePointBody file (fuel + 1) pt ln
      ((writeXPM (("NightXpm").toList) x) ++ tail) =
      parsePointBody file fuel { pt with NightXpm := some x }
        (ln + (1 + (x.Palette.length + x.Data.length))) tail
    rw [writeXPM_decomp, List.cons_append]
    have hline : ("NightXpm").toList ++ ('=' :: xpmHeaderVal x) =
        ("NightXpm=").toList ++ xpmHeaderVal x := by
      rw [show ("NightXpm=").toList = ("NightXpm").toList ++ ['='] from by decide]
      simp [List.append_assoc]
    rw [hline]
    have hcl : cleanLine (("NightXpm=").toList ++ xpmHeaderVal x) =
        ("NightXpm=").toList ++ xpmHeaderVal x :=
      cleanLine_keyline _ _ (by decide) (plainVal_xpmHeaderVal x)
    rw [pointBody_get_step file fuel pt ln _ (xpmLines x ++ tail) _ _ _
      (by rw [hcl]; exact lit_append_ne_nil 'N' _ _)
      (by rw [hcl]; exact lit_append_ne_endTag 'N' _ _ (by decide))
      (by
        rw [hcl]
        show parsePointProperty file pt (("NightXpm=").toList ++ xpmHeaderVal x)
          (ln + 1) (xpmLines x ++ tail) = _
        unfold xpmLines
        exact parsePointProperty_nightxpm file pt x hW (ln + 1) tail)]
    rw [show ln + 1 + (x.Palette.length + x.Data.length) =
      ln + (1 + (x.Palette.length + x.Data.length)) from by omega]

/-- The body lines of a written point block, excluding tag and blank line. -/
def ptBody (p : PointType) : List Str :=
  [("Type=").toList ++ p.Typ] ++
  (if p.SubType ≠ [] then [("SubType=").toList ++ p.SubType] else []) ++
  (labelPairs p.Labels).map lineOf ++
  optXpmSeg (("DayXpm").toList) p.DayXpm ++
  optXpmSeg (("NightXpm").toList) p.NightXpm ++
  (if p.FontStyle ≠ [] then [("FontStyle=").toList ++ p.FontStyle] else []) ++
  [endTag]

/-- The number of parser iterations a written point body takes. -/
def ptSteps (p : PointType) : Nat :=
  1 + ((if p.SubType ≠ [] then 1 else 0) + ((labelPairs p.Labels).length +
    (optCount p.DayXpm + (optCount p.NightXpm +
      ((if p.FontStyle ≠ [] then 1 else 0) + 1)))))

theorem writePointTypeL_decomp (p : PointType) :
    writePointTypeL p = ("[_point]").toList :: (ptBody p ++ [[]]) := by
  unfold writePointTypeL ptBody optXpmSeg
  rw [writeLabels_eq]
  simp [List.append_assoc]

/-- The round-trip conditions for one point record. -/
def PtOk (p : PointType) : Prop :=
  plainVal p.Typ = true ∧ plainVal p.SubType = true ∧ plainVal p.FontStyle = true ∧
  (∀ q ∈ p.Labels, codeOk q.1 = true ∧ plainVal q.2 = true) ∧
  (p.Labels.map Prod.fst).Nodup ∧
  optXpmOk p.DayXpm ∧ optXpmOk p.NightXpm ∧
  p.DayColors = [] ∧ p.NightColors = []

/-- Tails of the written point body, one per remaining segment. -/
def ptSeg5 (p : PointType) (tail : List Str) : List Str :=
  (if p.FontStyle ≠ [] then [("FontStyle=").toList ++ p.FontStyle] else []) ++
    (endTag :: tail)

def ptSeg4 (p : PointType) (tail : List Str) : List Str :=
  optXpmSeg (("NightXpm").toList) p.NightXpm ++ ptSeg5 p tail

def ptSeg3 (p : PointType) (tail : List Str) : List Str :=
  optXpmSeg (("DayXpm").toList) p.DayXpm ++ ptSeg4 p tail

def ptSeg2 (p : PointType) (tail : List Str) : List Str :=
  (labelPairs p.Labels).map lineOf ++ ptSeg3 p tail

def ptSeg1 (p : PointType) (tail : List Str) : List Str :=
  (if p.SubType ≠ [] then [("SubType=").toList ++ p.SubType] else []) ++ ptSeg2 p tail

theorem ptBody_split (p : PointType) (tail : List Str) :
    ptBody p ++ tail = (("Type=").toList ++ p.Typ) :: ptSeg1 p tail := by
  unfold ptBody ptSeg1 ptSeg2 ptSeg3 ptSeg4 ptSeg5
  simp [List.append_assoc]

theorem foldl_mapUpdate_nil (m : List (Str × Str))
    (hnd : (m.map Prod.fst).Nodup) :
    List.foldl (fun pal q => mapUpdate pal q.1 q.2) [] m = m := by
  have h := foldl_mapUpdate_fresh m [] hnd (fun q _ => rfl)
  simpa using h

theorem labelPairs_conds (m : List (Str × Str))
    (hLab : ∀ q ∈ m, codeOk q.1 = true ∧ plainVal q.2 = true) :
    ∀ q ∈ labelPairs m, codeOk q.1 = true ∧ plainVal q.2 = true := by
  intro q hq
  unfold labelPairs at hq
  rcases List.mem_append.mp hq with h1 | h2
  · rcases hl : mapLookup m eng04 with _ | v
    · rw [hl] at h1; simp at h1
    · rw [hl] at h1
      have hq1 : q = (eng04, v) := by simpa using h1
      rw [hq1]
      exact ⟨(by decide : codeOk eng04 = true),
        (hLab (eng04, v) (mapLookup_mem m eng04 v hl)).2⟩
  · exact hLab q (List.mem_filter.mp h2).1

/-- A written point block parses back to the point record, with the labels in
emission order. -/
theorem pointBlock_roundtrip (file : Str) (p : PointType) (hW : PtOk p)
    (fuel ln : Nat) (tail : List Str) : ∃ ln2,
      parsePointBody file (fuel + ptSteps p) initPoint ln (ptBody p ++ tail) =
        .ok ({ p with Labels := labelPairs p.Labels }, ln2, tail) := by
  obtain ⟨hTyp, hSub, hFont, hLab, hNd, hDay, hNight, hDC, hNC⟩ := hW
  have hclT : cleanLine (("Type=").toList ++ p.Typ) = ("Type=").toList ++ p.Typ :=
    cleanLine_keyline _ _ (by decide) hTyp
  have h1 : ∀ F, parsePointBody file (F + 1) initPoint ln
      ((("Type=").toList ++ p.Typ) :: ptSeg1 p tail) =
      parsePointBody file F { initPoint with Typ := p.Typ } (ln + 1)
        (ptSeg1 p tail) := by
    intro F
    exact pointBody_get_step file F initPoint ln _ (ptSeg1 p tail) _ _ _
      (by rw [hclT]; exact lit_append_ne_nil 'T' _ _)
      (by rw [hclT]; exact lit_append_ne_endTag 'T' _ _ (by decide))
      (by rw [hclT]
          exact parsePointProperty_type file initPoint p.Typ (ln + 1) _ hTyp)
  have h2 : ∀ F L, parsePointBody file (F + (if p.SubType ≠ [] then 1 else 0))
      { initPoint with Typ := p.Typ } L (ptSeg1 p tail) =
      parsePointBody file F { initPoint with Typ := p.Typ, SubType := p.SubType }
        (L + (if p.SubType ≠ [] then 1 else 0)) (ptSeg2 p tail) := by
    intro F L
    exact pointBody_sub_seg file p.SubType hSub F _ L (ptSeg2 p tail) rfl
  have h3 : ∀ F L, parsePointBody file (F + (labelPairs p.Labels).length)
      { initPoint with Typ := p.Typ, SubType := p.SubType } L (ptSeg2 p tail) =
      parsePointBody file F
        { initPoint with
          Typ := p.Typ,
          SubType := p.SubType,
          Labels := List.foldl (fun pal q => mapUpdate pal q.1 q.2) [] (labelPairs p.Labels) }
        (L + (labelPairs p.Labels).length) (ptSeg3 p tail) := by
    intro F L
    exact pointBody_labels file (labelPairs p.Labels) F _ L (ptSeg3 p tail)
      (labelPairs_conds _ hLab)
  have h3b : ∀ F L, parsePointBody file (F + (labelPairs p.Labels).length)
      { initPoint with Typ := p.Typ, SubType := p.SubType } L (ptSeg2 p tail) =
      parsePointBody file F
        { initPoint with
          Typ := p.Typ,
          SubType := p.SubType,
          Labels := labelPairs p.Labels }
        (L + (labelPairs p.Labels).length) (ptSeg3 p tail) := by
    intro F L
    rw [h3 F L, foldl_mapUpdate_nil _ (labelPairs_nodup _ hNd)]
  have h4 : ∀ F L, parsePointBody file (F + optCount p.DayXpm)
      { initPoint with
        Typ := p.Typ,
        SubType := p.SubType,
        Labels := labelPairs p.Labels } L (ptSeg3 p tail) =
      parsePointBody file F
        { initPoint with
          Typ := p.Typ,
          SubType := p.SubType,
          Labels := labelPairs p.Labels,
          DayXpm := p.DayXpm }
        (L + optLines p.DayXpm) (ptSeg4 p tail) := by
    intro F L
    exact pointBody_day_seg file p.DayXpm hDay F _ L (ptSeg4 p tail) rfl
  have h5 : ∀ F L, parsePointBody file (F + optCount p.NightXpm)
      { initPoint with
        Typ := p.Typ,
        SubType := p.SubType,
        Labels := labelPairs p.Labels,
        DayXpm := p.DayXpm } L (ptSeg4 p tail) =
      parsePointBody file F
        { initPoint with
          Typ := p.Typ,
          SubType := p.SubType,
          Labels := labelPairs p.Labels,
          DayXpm := p.DayXpm,
          NightXpm := p.NightXpm }
        (L + optLines p.NightXpm) (ptSeg5 p tail) := by
    intro F L
    exact pointBody_night_seg file p.NightXpm hNight F _ L (ptSeg5 p tail) rfl
  have h6 : ∀ F L, parsePointBody file (F + (if p.FontStyle ≠ [] then 1 else 0))
      { initPoint with
        Typ := p.Typ,
        SubType := p.SubType,
        Labels := labelPairs p.Labels,
        DayXpm := p.DayXpm,
        NightXpm := p.NightXpm } L (ptSeg5 p tail) =
      parsePointBody file F
        { initPoint with
          Typ := p.Typ,
          SubType := p.SubType,
          Labels := labelPairs p.Labels,
          DayXpm := p.DayXpm,
          NightXpm := p.NightXpm,
          FontStyle := p.FontStyle }
        (L + (if p.FontStyle ≠ [] then 1 else 0)) (endTag :: tail) := by
    intro F L
    exact pointBody_font_seg file p.FontStyle hFont F _ L (endTag :: tail) rfl
  rw [ptBody_split]
  rw [show fuel + ptSteps p =
    ((fuel + ((if p.SubType ≠ [] then 1 else 0) + ((labelPairs p.Labels).length +
      (optCount p.DayXpm + (optCount p.NightXpm +
        ((if p.FontStyle ≠ [] then 1 else 0) + 1))))))) + 1 from by
    unfold ptSteps; omega]
  rw [h1]
  rw [show fuel + ((if p.SubType ≠ [] then 1 else 0) + ((labelPairs p.Labels).length +
      (optCount p.DayXpm + (optCount p.NightXpm +
        ((if p.FontStyle ≠ [] then 1 else 0) + 1))))) =
    (fuel + ((labelPairs p.Labels).length +
      (optCount p.DayXpm + (optCount p.NightXpm +
        ((if p.FontStyle ≠ [] then 1 else 0) + 1))))) +
      (if p.SubType ≠ [] then 1 else 0) from by omega]
  rw [h2]
  rw [show fuel + ((labelPairs p.Labels).length +
      (optCount p.DayXpm + (optCount p.NightXpm +
        ((if p.FontStyle ≠ [] then 1 else 0) + 1)))) =
    (fuel + (optCount p.DayXpm + (optCount p.NightXpm +
        ((if p.FontStyle ≠ [] then 1 else 0) + 1)))) +
      (labelPairs p.Labels).length from by omega]
  rw [h3b]
  rw [show fuel + (optCount p.DayXpm + (optCount p.NightXpm +
        ((if p.FontStyle ≠ [] then 1 else 0) + 1))) =
    (fuel + (optCount p.NightXpm + ((if p.FontStyle ≠ [] then 1 else 0) + 1))) +
      optCount p.DayXpm from by omega]
  rw [h4]
  rw [show fuel + (optCount p.NightXpm + ((if p.FontStyle ≠ [] then 1 else 0) + 1)) =
    (fuel + ((if p.FontStyle ≠ [] then 1 else 0) + 1)) + optCount p.NightXpm from by
    omega]
  rw [h5]
  rw [show fuel + ((if p.FontStyle ≠ [] then 1 else 0) + 1) =
    (fuel + 1) + (if p.FontStyle ≠ [] then 1 else 0) from by omega]
  rw [h6]
  rw [pointBody_endstep file fuel _ _ tail]
  refine ⟨((ln + 1 + (if p.SubType ≠ [] then 1 else 0)) + (labelPairs p.Labels).length +
    optLines p.DayXpm + optLines p.NightXpm + (if p.FontStyle ≠ [] then 1 else 0)) + 1,
    ?_⟩
  rw [hDC, hNC]
  rfl

/-! #### The line record block -/

theorem lineBody_labels (file : Str) (pairs : List (Str × Str)) :
    ∀ (fuel : Nat) (lt : LineType) (ln : Nat) (tail : List Str),
      (∀ q ∈ pairs, codeOk q.1 = true ∧ plainVal q.2 = true) →
      parseLineBody file (fuel + pairs.length) lt ln (pairs.map lineOf ++ tail) =
        parseLineBody file fuel
          { lt with Labels := pairs.foldl (fun m q => mapUpdate m q.1 q.2) lt.Labels }
          (ln + pairs.length) tail := by
  induction pairs with
  | nil =>
    intro fuel lt ln tail _
    simp only [List.length_nil, Nat.add_zero, List.map_nil, List.nil_append,
      List.foldl_nil]
  | cons p pairs ih =>
    intro fuel lt ln tail hW
    obtain ⟨hc, hv⟩ := hW p (List.mem_cons_self _ _)
    have hcl : cleanLine (lineOf p) = lineOf p := by
      rw [show lineOf p = ("String=").toList ++ (p.1 ++ [','] ++ p.2) from by
        unfold lineOf; simp [List.append_assoc]]
      exact cleanLine_keyline _ _ (by decide)
        (plainVal_pair p.1 p.2 (codeOk_parts _ hc).1 (codeOk_parts _ hc).2.1 hv)
    rw [List.map_cons, List.cons_append]
    rw [show fuel + (p :: pairs).length = (fuel + pairs.length) + 1 from rfl]
    rw [lineBody_get_step file (fuel + pairs.length) lt ln (lineOf p)
      (pairs.map lineOf ++ tail) { lt with Labels := mapUpdate lt.Labels p.1 p.2 }
      (ln + 1) (pairs.map lineOf ++ tail)
      (by rw [hcl]; exact lit_append_ne_nil 'S' _ _)
      (by rw [hcl]; exact lit_append_ne_endTag 'S' _ _ (by decide))
      (by rw [hcl]; exact parseLineProperty_label file lt p (ln + 1) _ hc hv)]
    rw [ih fuel _ (ln + 1) tail (fun q hq => hW q (List.mem_cons_of_mem _ hq))]
    rw [show ln + 1 + pairs.length = ln + (p :: pairs).length from by
      simp only [List.length_cons]; omega]
    rfl

theorem lineBody_lw_seg (file : Str) (n : Int) (hn : 0 ≤ n)
    (fuel : Nat) (lt : LineType) (ln : Nat) (tail : List Str)
    (hpt : lt.LineWidth = 0) :
    parseLineBody file (fuel + (if 0 < n then 1 else 0)) lt ln
      ((if 0 < n then [("LineWidth=").toList ++ intToChars n] else []) ++ tail) =
      parseLineBody file fuel { lt with LineWidth := n }
        (ln + (if 0 < n then 1 else 0)) tail := by
  split_ifs with hn0
  · rw [List.singleton_append]
    have hcl : cleanLine (("LineWidth=").toList ++ intToChars n) =
        ("LineWidth=").toList ++ intToChars n :=
      cleanLine_keyline _ _ (by decide) (plainVal_intToChars n)
    exact lineBody_get_step file fuel lt ln _ tail _ _ _
      (by rw [hcl]; exact lit_append_ne_nil 'L' _ _)
      (by rw [hcl]; exact lit_append_ne_endTag 'L' _ _ (by decide))
      (by rw [hcl]; exact parseLineProperty_linewidth file lt n (ln + 1) tail)
  · rw [List.nil_append, Nat.add_zero, Nat.add_zero]
    rw [show ({ lt with LineWidth := n }) = lt from by
      rw [show n = (0 : Int) from by omega, ← hpt]]

theorem lineBody_bw_seg (file : Str) (n : Int) (hn : 0 ≤ n)
    (fuel : Nat) (lt : LineType) (ln : Nat) (tail : List Str)
    (hpt : lt.BorderWidth = 0) :
    parseLineBody file (fuel + (if 0 < n then 1 else 0)) lt ln
      ((if 0 < n then [("BorderWidth=").toList ++ intToChars n] else []) ++ tail) =
      parseLineBody file fuel { lt with BorderWidth := n }
        (ln + (if 0 < n then 1 else 0)) tail := by
  split_ifs with hn0
  · rw [List.singleton_append]
    have hcl : cleanLine (("BorderWidth=").toList ++ intToChars n) =
        ("BorderWidth=").toList ++ intToChars n :=
      cleanLine_keyline _ _ (by decide) (plainVal_intToChars n)
    exact lineBody_get_step file fuel lt ln _ tail _ _ _
      (by rw [hcl]; exact lit_append_ne_nil 'B' _ _)
      (by rw [hcl]; exact lit_append_ne_endTag 'B' _ _ (by decide))
      (by rw [hcl]; exact parseLineProperty_borderwidth file lt n (ln + 1) tail)
  · rw [List.nil_append, Nat.add_zero, Nat.add_zero]
    rw [show ({ lt with BorderWidth := n }) = lt from by
      rw [show n = (0 : Int) from by omega, ← hpt]]

theorem lineBody_ls_seg (file : Str) (v : Str) (hv : plainVal v = true)
    (fuel : Nat) (lt : LineType) (ln : Nat) (tail : List Str)
    (hpt : lt.LineStyle = []) :
    parseLineBody file (fuel + (if v ≠ [] then 1 else 0)) lt ln
      ((if v ≠ [] then [("LineStyle=").toList ++ v] else []) ++ tail) =
      parseLineBody file fuel { lt with LineStyle := v }
        (ln + (if v ≠ [] then 1 else 0)) tail := by
  split_ifs with hv0
  · rw [List.singleton_append]
    have hcl : cleanLine (("LineStyle=").toList ++ v) = ("LineStyle=").toList ++ v :=
      cleanLine_keyline _ _ (by decide) hv
    exact lineBody_get_step file fuel lt ln _ tail _ _ _
      (by rw [hcl]; exact lit_append_ne_nil 'L' _ _)
      (by rw [hcl]; exact lit_append_ne_endTag 'L' _ _ (by decide))
      (by rw [hcl]; exact parseLineProperty_linestyle file lt v (ln + 1) tail hv)
  · rw [List.nil_append, Nat.add_zero, Nat.add_zero]
    rw [show ({ lt with LineStyle := v }) = lt from by
      rw [not_not.mp hv0, ← hpt]]

theorem lineBody_uo_seg (file : Str) (b : Bool)
    (fuel : Nat) (lt : LineType) (ln : Nat) (tail : List Str)
    (hpt : lt.UseOrientation = false) :
    parseLineBody file (fuel + (if b then 1 else 0)) lt ln
      ((if b then [("UseOrientation=Y").toList] else []) ++ tail) =
      parseLineBody file fuel { lt with UseOrientation := b }
        (ln + (if b then 1 else 0)) tail := by
  split_ifs with hb
  · rw [List.singleton_append]
    have hcl : cleanLine (("UseOrientation=Y").toList) = ("UseOrientation=Y").toList :=
      by decide
    rw [lineBody_get_step file fuel lt ln _ tail _ _ _
      (by rw [hcl]; decide)
      (by rw [hcl]; decide)
      (by rw [hcl]; exact parseLineProperty_useorientation file lt (ln + 1) tail)]
    rw [hb]
  · rw [List.nil_append, Nat.add_zero, Nat.add_zero]
    rw [show ({ lt with UseOrientation := b }) = lt from by
      rw [Bool.not_eq_true b] at hb
      rw [hb, ← hpt]]

theorem lineBody_xpm_seg (file : Str) (ox : Option XPMIcon) (hW : optXpmOk ox)
    (fuel : Nat) (lt : LineType) (ln : Nat) (tail : List Str)
    (hpt : lt.DayXpm = none) :
    parseLineBody file (fuel + optCount ox) lt ln
      (optXpmSeg (("Xpm").toList) ox ++ tail) =
      parseLineBody file fuel { lt with DayXpm := ox } (ln + optLines ox) tail := by
  rcases ox with _ | x
  · show parseLineBody file (fuel + 0) lt ln ([] ++ tail) =
      parseLineBody file fuel { lt with DayXpm := none } (ln + 0) tail
    simp only [List.nil_append, Nat.add_zero]
    rw [show ({ lt with DayXpm := none }) = lt from by rw [← hpt]]
  · show parseLineBody file (fuel + 1) lt ln ((writeXPM (("Xpm").toList) x) ++ tail) =
      parseLineBody file fuel { lt with DayXpm := some x }
        (ln + (1 + (x.Palette.length + x.Data.length))) tail
    rw [writeXPM_decomp, List.cons_append]
    have hline : ("Xpm").toList ++ ('=' :: xpmHeaderVal x) =
        ("Xpm=").toList ++ xpmHeaderVal x := by
      rw [show ("Xpm=").toList = ("Xpm").toList ++ ['='] from by decide]
      simp [List.append_assoc]
    rw [hline]
    have hcl : cleanLine (("Xpm=").toList ++ xpmHeaderVal x) =
        ("Xpm=").toList ++ xpmHeaderVal x :=
      cleanLine_keyline _ _ (by decide) (plainVal_xpmHeaderVal x)
    rw [lineBody_get_step file fuel lt ln _ (xpmLines x ++ tail) _ _ _
      (by rw [hcl]; exact lit_append_ne_nil 'X' _ _)
      (by rw [hcl]; exact lit_append_ne_endTag 'X' _ _ (by decide))
      (by
        rw [hcl]
        show parseLineProperty file lt (("Xpm=").toList ++ xpmHeaderVal x)
          (ln + 1) (xpmLines x ++ tail) = _
        unfold xpmLines
        exact parseLineProperty_xpm file lt x hW (ln + 1) tail)]
    rw [show ln + 1 + (x.Palette.length + x.Data.length) =
      ln + (1 + (x.Palette.length + x.Data.length)) from by omega]

/-- The body lines of a written line block (no `NightXpm`: the parser never
reads one back, so round-trip requires it absent). -/
def ltBody (l : LineType) : List Str :=
  [("Type=").toList ++ l.Typ] ++
  (labelPairs l.Labels).map lineOf ++
  (if 0 < l.LineWidth then [("LineWidth=").toList ++ intToChars l.LineWidth] else []) ++
  (if 0 < l.BorderWidth then
    [("BorderWidth=").toList ++ intToChars l.BorderWidth] else []) ++
  (if l.LineStyle ≠ [] then [("LineStyle=").toList ++ l.LineStyle] else []) ++
  (if l.UseOrientation then [("UseOrientation=Y").toList] else []) ++
  optXpmSeg (("Xpm").toList) l.DayXpm ++
  [endTag]

def ltSteps (l : LineType) : Nat :=
  1 + ((labelPairs l.Labels).length + ((if 0 < l.LineWidth then 1 else 0) +
    ((if 0 < l.BorderWidth then 1 else 0) + ((if l.LineStyle ≠ [] then 1 else 0) +
      ((if l.UseOrientation then 1 else 0) + (optCount l.DayXpm + 1))))))

theorem writeLineTypeL_decomp (l : LineType) (hNX : l.NightXpm = none) :
    writeLineTypeL l = ("[_line]").toList :: (ltBody l ++ [[]]) := by
  unfold writeLineTypeL ltBody optXpmSeg
  rw [writeLabels_eq, hNX]
  simp [List.append_assoc]

/-- The round-trip conditions for one line record. -/
def LtOk (l : LineType) : Prop :=
  plainVal l.Typ = true ∧
  (∀ q ∈ l.Labels, codeOk q.1 = true ∧ plainVal q.2 = true) ∧
  (l.Labels.map Prod.fst).Nodup ∧
  0 ≤ l.LineWidth ∧ 0 ≤ l.BorderWidth ∧ plainVal l.LineStyle = true ∧
  optXpmOk l.DayXpm ∧ l.NightXpm = none

def ltSeg6 (l : LineType) (tail : List Str) : List Str :=
  optXpmSeg (("Xpm").toList) l.DayXpm ++ (endTag :: tail)

def ltSeg5 (l : LineType) (tail : List Str) : List Str :=
  (if l.UseOrientation then [("UseOrientation=Y").toList] else []) ++ ltSeg6 l tail

def ltSeg4 (l : LineType) (tail : List Str) : List Str :=
  (if l.LineStyle ≠ [] then [("LineStyle=").toList ++ l.LineStyle] else []) ++
    ltSeg5 l tail

def ltSeg3 (l : LineType) (tail : List Str) : List Str :=
  (if 0 < l.BorderWidth then
    [("BorderWidth=").toList ++ intToChars l.BorderWidth] else []) ++ ltSeg4 l tail

def ltSeg2 (l : LineType) (tail : List Str) : List Str :=
  (if 0 < l.LineWidth then
    [("LineWidth=").toList ++ intToChars l.LineWidth] else []) ++ ltSeg3 l tail

def ltSeg1 (l : LineType) (tail : List Str) : List Str :=
  (labelPairs l.Labels).map lineOf ++ ltSeg2 l tail

theorem ltBody_split (l : LineType) (tail : List Str) :
    ltBody l ++ tail = (("Type=").toList ++ l.Typ) :: ltSeg1 l tail := by
  unfold ltBody ltSeg1 ltSeg2 ltSeg3 ltSeg4 ltSeg5 ltSeg6
  simp [List.append_assoc]

/-- A written line block parses back to the line record, with the labels in
emission order. -/
theorem lineBlock_roundtrip (file : Str) (l : LineType) (hW : LtOk l)
    (fuel ln : Nat) (tail : List Str) : ∃ ln2,
      parseLineBody file (fuel + ltSteps l) initLine ln (ltBody l ++ tail) =
        .ok ({ l with Labels := labelPairs l.Labels }, ln2, tail) := by
  obtain ⟨hTyp, hLab, hNd, hLW, hBW, hLS, hDay, hNX⟩ := hW
  have hclT : cleanLine (("Type=").toList ++ l.Typ) = ("Type=").toList ++ l.Typ :=
    cleanLine_keyline _ _ (by decide) hTyp
  have h1 : ∀ F, parseLineBody file (F + 1) initLine ln
      ((("Type=").toList ++ l.Typ) :: ltSeg1 l tail) =
      parseLineBody file F { initLine with Typ := l.Typ } (ln + 1) (ltSeg1 l tail) := by
    intro F
    exact lineBody_get_step file F initLine ln _ (ltSeg1 l tail) _ _ _
      (by rw [hclT]; exact lit_append_ne_nil 'T' _ _)
      (by rw [hclT]; exact lit_append_ne_endTag 'T' _ _ (by decide))
      (by rw [hclT]
          exact parseLineProperty_type file initLine l.Typ (ln + 1) _ hTyp)
  have h2 : ∀ F L, parseLineBody file (F + (labelPairs l.Labels).length)
      { initLine with Typ := l.Typ } L (ltSeg1 l tail) =
      parseLineBody file F
        { initLine with
          Typ := l.Typ,
          Labels := List.foldl (fun pal q => mapUpdate pal q.1 q.2) []
            (labelPairs l.Labels) }
        (L + (labelPairs l.Labels).length) (ltSeg2 l tail) := by
    intro F L
    exact lineBody_labels file (labelPairs l.Labels) F _ L (ltSeg2 l tail)
      (labelPairs_conds _ hLab)
  have h2b : ∀ F L, parseLineBody file (F + (labelPairs l.Labels).length)
      { initLine with Typ := l.Typ } L (ltSeg1 l tail) =
      parseLineBody file F
        { initLine with
          Typ := l.Typ,
          Labels := labelPairs l.Labels }
        (L + (labelPairs l.Labels).length) (ltSeg2 l tail) := by
    intro F L
    rw [h2 F L, foldl_mapUpdate_nil _ (labelPairs_nodup _ hNd)]
  have h3 : ∀ F L, parseLineBody file (F + (if 0 < l.LineWidth then 1 else 0))
      { initLine with
        Typ := l.Typ,
        Labels := labelPairs l.Labels } L (ltSeg2 l tail) =
      parseLineBody file F
        { initLine with
          Typ := l.Typ,
          Labels := labelPairs l.Labels,
          LineWidth := l.LineWidth }
        (L + (if 0 < l.LineWidth then 1 else 0)) (ltSeg3 l tail) := by
    intro F L
    exact lineBody_lw_seg file l.LineWidth hLW F _ L (ltSeg3 l tail) rfl
  have h4 : ∀ F L, parseLineBody file (F + (if 0 < l.BorderWidth then 1 else 0))
      { initLine with
        Typ := l.Typ,
        Labels := labelPairs l.Labels,
        LineWidth := l.LineWidth } L (ltSeg3 l tail) =
      parseLineBody file F
        { initLine with
          Typ := l.Typ,
          Labels := labelPairs l.Labels,
          LineWidth := l.LineWidth,
          BorderWidth := l.BorderWidth }
        (L + (if 0 < l.BorderWidth then 1 else 0)) (ltSeg4 l tail) := by
    intro F L
    exact lineBody_bw_seg file l.BorderWidth hBW F _ L (ltSeg4 l tail) rfl
  have h5 : ∀ F L, parseLineBody file (F + (if l.LineStyle ≠ [] then 1 else 0))
      { initLine with
        Typ := l.Typ,
        Labels := labelPairs l.Labels,
        LineWidth := l.LineWidth,
        BorderWidth := l.BorderWidth } L (ltSeg4 l tail) =
      parseLineBody file F
        { initLine with
          Typ := l.Typ,
          Labels := labelPairs l.Labels,
          LineWidth := l.LineWidth,
          BorderWidth := l.BorderWidth,
          LineStyle := l.LineStyle }
        (L + (if l.LineStyle ≠ [] then 1 else 0)) (ltSeg5 l tail) := by
    intro F L
    exact lineBody_ls_seg file l.LineStyle hLS F _ L (ltSeg5 l tail) rfl
  have h6 : ∀ F L, parseLineBody file (F + (if l.UseOrientation then 1 else 0))
      { initLine with
        Typ := l.Typ,
        Labels := labelPairs l.Labels,
        LineWidth := l.LineWidth,
        BorderWidth := l.BorderWidth,
        LineStyle := l.LineStyle } L (ltSeg5 l tail) =
      parseLineBody file F
        { initLine with
          Typ := l.Typ,
          Labels := labelPairs l.Labels,
          LineWidth := l.LineWidth,
          BorderWidth := l.BorderWidth,
          LineStyle := l.LineStyle,
          UseOrientation := l.UseOrientation }
        (L + (if l.UseOrientation then 1 else 0)) (ltSeg6 l tail) := by
    intro F L
    exact lineBody_uo_seg file l.UseOrientation F _ L (ltSeg6 l tail) rfl
  have h7 : ∀ F L, parseLineBody file (F + optCount l.DayXpm)
      { initLine with
        Typ := l.Typ,
        Labels := labelPairs l.Labels,
        LineWidth := l.LineWidth,
        BorderWidth := l.BorderWidth,
        LineStyle := l.LineStyle,
        UseOrientation := l.UseOrientation } L (ltSeg6 l tail) =
      parseLineBody file F
        { initLine with
          Typ := l.Typ,
          Labels := labelPairs l.Labels,
          LineWidth := l.LineWidth,
          BorderWidth := l.BorderWidth,
          LineStyle := l.LineStyle,
          UseOrientation := l.UseOrientation,
          DayXpm := l.DayXpm }
        (L + optLines l.DayXpm) (endTag :: tail) := by
    intro F L
    exact lineBody_xpm_seg file l.DayXpm hDay F _ L (endTag :: tail) rfl
  rw [ltBody_split]
  rw [show fuel + ltSteps l =
    (fuel + ((labelPairs l.Labels).length + ((if 0 < l.LineWidth then 1 else 0) +
      ((if 0 < l.BorderWidth then 1 else 0) + ((if l.LineStyle ≠ [] then 1 else 0) +
        ((if l.UseOrientation then 1 else 0) + (optCount l.DayXpm + 1))))))) + 1 from by
    unfold ltSteps; omega]
  rw [h1]
  rw [show fuel + ((labelPairs l.Labels).length + ((if 0 < l.LineWidth then 1 else 0) +
      ((if 0 < l.BorderWidth then 1 else 0) + ((if l.LineStyle ≠ [] then 1 else 0) +
        ((if l.UseOrientation then 1 else 0) + (optCount l.DayXpm + 1)))))) =
    (fuel + ((if 0 < l.LineWidth then 1 else 0) +
      ((if 0 < l.BorderWidth then 1 else 0) + ((if l.LineStyle ≠ [] then 1 else 0) +
        ((if l.UseOrientation then 1 else 0) + (optCount l.DayXpm + 1)))))) +
      (labelPairs l.Labels).length from by omega]
  rw [h2b]
  rw [show fuel + ((if 0 < l.LineWidth then 1 else 0) +
      ((if 0 < l.BorderWidth then 1 else 0) + ((if l.LineStyle ≠ [] then 1 else 0) +
        ((if l.UseOrientation then 1 else 0) + (optCount l.DayXpm + 1))))) =
    (fuel + ((if 0 < l.BorderWidth then 1 else 0) +
      ((if l.LineStyle ≠ [] then 1 else 0) +
        ((if l.UseOrientation then 1 else 0) + (optCount l.DayXpm + 1))))) +
      (if 0 < l.LineWidth then 1 else 0) from by omega]
  rw [h3]
  rw [show fuel + ((if 0 < l.BorderWidth then 1 else 0) +
      ((if l.LineStyle ≠ [] then 1 else 0) +
        ((if l.UseOrientation then 1 else 0) + (optCount l.DayXpm + 1)))) =
    (fuel + ((if l.LineStyle ≠ [] then 1 else 0) +
        ((if l.UseOrientation then 1 else 0) + (optCount l.DayXpm + 1)))) +
      (if 0 < l.BorderWidth then 1 else 0) from by omega]
  rw [h4]
  rw [show fuel + ((if l.LineStyle ≠ [] then 1 else 0) +
      ((if l.UseOrientation then 1 else 0) + (optCount l.DayXpm + 1))) =
    (fuel + ((if l.UseOrientation then 1 else 0) + (optCount l.DayXpm + 1))) +
      (if l.LineStyle ≠ [] then 1 else 0) from by omega]
  rw [h5]
  rw [show fuel + ((if l.UseOrientation then 1 else 0) + (optCount l.DayXpm + 1)) =
    (fuel + (optCount l.DayXpm + 1)) + (if l.UseOrientation then 1 else 0) from by
    omega]
  rw [h6]
  rw [show fuel + (optCount l.DayXpm + 1) = (fuel + 1) + optCount l.DayXpm from by
    omega]
  rw [h7]
  rw [lineBody_endstep file fuel _ _ tail]
  refine ⟨(((((ln + 1 + (labelPairs l.Labels).length) +
    (if 0 < l.LineWidth then 1 else 0)) + (if 0 < l.BorderWidth then 1 else 0) +
    (if l.LineStyle ≠ [] then 1 else 0) + (if l.UseOrientation then 1 else 0)) +
    optLines l.DayXpm) + 1), ?_⟩
  rw [hNX]
  rfl

/-! #### The polygon record block -/

theorem polyBody_labels (file : Str) (pairs : List (Str × Str)) :
    ∀ (fuel : Nat) (pg : PolygonType) (ln : Nat) (tail : List Str),
      (∀ q ∈ pairs, codeOk q.1 = true ∧ plainVal q.2 = true) →
      parsePolygonBody file (fuel + pairs.length) pg ln (pairs.map lineOf ++ tail) =
        parsePolygonBody file fuel
          { pg with Labels := pairs.foldl (fun m q => mapUpdate m q.1 q.2) pg.Labels }
          (ln + pairs.length) tail := by
  induction pairs with
  | nil =>
    intro fuel pg ln tail _
    simp only [List.length_nil, Nat.add_zero, List.map_nil, List.nil_append,
      List.foldl_nil]
  | cons p pairs ih =>
    intro fuel pg ln tail hW
    obtain ⟨hc, hv⟩ := hW p (List.mem_cons_self _ _)
    have hcl : cleanLine (lineOf p) = lineOf p := by
      rw [show lineOf p = ("String=").toList ++ (p.1 ++ [','] ++ p.2) from by
        unfold lineOf; simp [List.append_assoc]]
      exact cleanLine_keyline _ _ (by decide)
        (plainVal_pair p.1 p.2 (codeOk_parts _ hc).1 (codeOk_parts _ hc).2.1 hv)
    rw [List.map_cons, List.cons_append]
    rw [show fuel + (p :: pairs).length = (fuel + pairs.length) + 1 from rfl]
    rw [polyBody_get_step file (fuel + pairs.length) pg ln (lineOf p)
      (pairs.map lineOf ++ tail) { pg with Labels := mapUpdate pg.Labels p.1 p.2 }
      (ln + 1) (pairs.map lineOf ++ tail)
      (by rw [hcl]; exact lit_append_ne_nil 'S' _ _)
      (by rw [hcl]; exact lit_append_ne_endTag 'S' _ _ (by decide))
      (by rw [hcl]; exact parsePolygonProperty_label file pg p (ln + 1) _ hc hv)]
    rw [ih fuel _ (ln + 1) tail (fun q hq => hW q (List.mem_cons_of_mem _ hq))]
    rw [show ln + 1 + pairs.length = ln + (p :: pairs).length from by
      simp only [List.length_cons]; omega]
    rfl

theorem polyBody_el_seg (file : Str) (b : Bool)
    (fuel : Nat) (pg : PolygonType) (ln : Nat) (tail : List Str)
    (hpt : pg.ExtendedLabels = false) :
    parsePolygonBody file (fuel + (if b then 1 else 0)) pg ln
      ((if b then [("ExtendedLabels=Y").toList] else []) ++ tail) =
      parsePolygonBody file fuel { pg with ExtendedLabels := b }
        (ln + (if b then 1 else 0)) tail := by
  split_ifs with hb
  · rw [List.singleton_append]
    have hcl : cleanLine (("ExtendedLabels=Y").toList) =
        ("ExtendedLabels=Y").toList := by decide
    rw [polyBody_get_step file fuel pg ln _ tail _ _ _
      (by rw [hcl]; decide)
      (by rw [hcl]; decide)
      (by rw [hcl]; exact parsePolygonProperty_extlabels file pg (ln + 1) tail)]
    rw [hb]
  · rw [List.nil_append, Nat.add_zero, Nat.add_zero]
    rw [show ({ pg with ExtendedLabels := b }) = pg from by
      rw [Bool.not_eq_true b] at hb
      rw [hb, ← hpt]]

theorem polyBody_fs_seg (file : Str) (v : Str) (hv : plainVal v = true)
    (fuel : Nat) (pg : PolygonType) (ln : Nat) (tail : List Str)
    (hpt : pg.FontStyle = []) :
    parsePolygonBody file (fuel + (if v ≠ [] then 1 else 0)) pg ln
      ((if v ≠ [] then [("FontStyle=").toList ++ v] else []) ++ tail) =
      parsePolygonBody file fuel { pg with FontStyle := v }
        (ln + (if v ≠ [] then 1 else 0)) tail := by
  split_ifs with hv0
  · rw [List.singleton_append]
    have hcl : cleanLine (("FontStyle=").toList ++ v) = ("FontStyle=").toList ++ v :=
      cleanLine_keyline _ _ (by decide) hv
    exact polyBody_get_step file fuel pg ln _ tail _ _ _
      (by rw [hcl]; exact lit_append_ne_nil 'F' _ _)
      (by rw [hcl]; exact lit_append_ne_endTag 'F' _ _ (by decide))
      (by rw [hcl]; exact parsePolygonProperty_fontstyle file pg v (ln + 1) tail hv)
  · rw [List.nil_append, Nat.add_zero, Nat.add_zero]
    rw [show ({ pg with FontStyle := v }) = pg from by
      rw [not_not.mp hv0, ← hpt]]

theorem polyBody_xpm_seg (file : Str) (ox : Option XPMIcon) (hW : optXpmOk ox)
    (fuel : Nat) (pg : PolygonType) (ln : Nat) (tail : List Str)
    (hpt : pg.DayXpm = none) :
    parsePolygonBody file (fuel + optCount ox) pg ln
      (optXpmSeg (("Xpm").toList) ox ++ tail) =
      parsePolygonBody file fuel { pg with DayXpm := ox } (ln + optLines ox) tail := by
  rcases ox with _ | x
  · show parsePolygonBody file (fuel + 0) pg ln ([] ++ tail) =
      parsePolygonBody file fuel { pg with DayXpm := none } (ln + 0) tail
    simp only [List.nil_append, Nat.add_zero]
    rw [show ({ pg with DayXpm := none }) = pg from by rw [← hpt]]
  · show parsePolygonBody file (fuel + 1) pg ln ((writeXPM (("Xpm").toList) x) ++ tail) =
      parsePolygonBody file fuel { pg with DayXpm := some x }
        (ln + (1 + (x.Palette.length + x.Data.length))) tail
    rw [writeXPM_decomp, List.cons_append]
    have hline : ("Xpm").toList ++ ('=' :: xpmHeaderVal x) =
        ("Xpm=").toList ++ xpmHeaderVal x := by
      rw [show ("Xpm=").toList = ("Xpm").toList ++ ['='] from by decide]
      simp [List.append_assoc]
    rw [hline]
    have hcl : cleanLine (("Xpm=").toList ++ xpmHeaderVal x) =
        ("Xpm=").toList ++ xpmHeaderVal x :=
      cleanLine_keyline _ _ (by decide) (plainVal_xpmHeaderVal x)
    rw [polyBody_get_step file fuel pg ln _ (xpmLines x ++ tail) _ _ _
      (by rw [hcl]; exact lit_append_ne_nil 'X' _ _)
      (by rw [hcl]; exact lit_append_ne_endTag 'X' _ _ (by decide))
      (by
        rw [hcl]
        show parsePolygonProperty file pg (("Xpm=").toList ++ xpmHeaderVal x)
          (ln + 1) (xpmLines x ++ tail) = _
        unfold xpmLines
        exact parsePolygonProperty_xpm file pg x hW (ln + 1) tail)]
    rw [show ln + 1 + (x.Palette.length + x.Data.length) =
      ln + (1 + (x.Palette.length + x.Data.length)) from by omega]

/-- The body lines of a written polygon block (no `NightXpm`: the parser never
reads one back, so round-trip requires it absent). -/
def pgBody (g : PolygonType) : List Str :=
  [("Type=").toList ++ g.Typ] ++
  (labelPairs g.Labels).map lineOf ++
  (if g.ExtendedLabels then [("ExtendedLabels=Y").toList] else []) ++
  (if g.FontStyle ≠ [] then [("FontStyle=").toList ++ g.FontStyle] else []) ++
  optXpmSeg (("Xpm").toList) g.DayXpm ++
  [endTag]

def pgSteps (g : PolygonType) : Nat :=
  1 + ((labelPairs g.Labels).length + ((if g.ExtendedLabels then 1 else 0) +
    ((if g.FontStyle ≠ [] then 1 else 0) + (optCount g.DayXpm + 1))))

theorem writePolygonTypeL_decomp (g : PolygonType) (hNX : g.NightXpm = none) :
    writePolygonTypeL g = ("[_polygon]").toList :: (pgBody g ++ [[]]) := by
  unfold writePolygonTypeL pgBody optXpmSeg
  rw [writeLabels_eq, hNX]
  simp [List.append_assoc]

/-- The round-trip conditions for one polygon record. -/
def PgOk (g : PolygonType) : Prop :=
  plainVal g.Typ = true ∧
  (∀ q ∈ g.Labels, codeOk q.1 = true ∧ plainVal q.2 = true) ∧
  (g.Labels.map Prod.fst).Nodup ∧
  plainVal g.FontStyle = true ∧
  optXpmOk g.DayXpm ∧ g.NightXpm = none

def pgSeg4 (g : PolygonType) (tail : List Str) : List Str :=
  optXpmSeg (("Xpm").toList) g.DayXpm ++ (endTag :: tail)

def pgSeg3 (g : PolygonType) (tail : List Str) : List Str :=
  (if g.FontStyle ≠ [] then [("FontStyle=").toList ++ g.FontStyle] else []) ++
    pgSeg4 g tail

def pgSeg2 (g : PolygonType) (tail : List Str) : List Str :=
  (if g.ExtendedLabels then [("ExtendedLabels=Y").toList] else []) ++ pgSeg3 g tail

def pgSeg1 (g : PolygonType) (tail : List Str) : List Str :=
  (labelPairs g.Labels).map lineOf ++ pgSeg2 g tail

theorem pgBody_split (g : PolygonType) (tail : List Str) :
    pgBody g ++ tail = (("Type=").toList ++ g.Typ) :: pgSeg1 g tail := by
  unfold pgBody pgSeg1 pgSeg2 pgSeg3 pgSeg4
  simp [List.append_assoc]

/-- A written polygon block parses back to the polygon record, with the
labels in emission order. -/
theorem polyBlock_roundtrip (file : Str) (g : PolygonType) (hW : PgOk g)
    (fuel ln : Nat) (tail : List Str) : ∃ ln2,
      parsePolygonBody file (fuel + pgSteps g) initPolygon ln (pgBody g ++ tail) =
        .ok ({ g with Labels := labelPairs g.Labels }, ln2, tail) := by
  obtain ⟨hTyp, hLab, hNd, hFS, hDay, hNX⟩ := hW
  have hclT : cleanLine (("Type=").toList ++ g.Typ) = ("Type=").toList ++ g.Typ :=
    cleanLine_keyline _ _ (by decide) hTyp
  have h1 : ∀ F, parsePolygonBody file (F + 1) initPolygon ln
      ((("Type=").toList ++ g.Typ) :: pgSeg1 g tail) =
      parsePolygonBody file F { initPolygon with Typ := g.Typ } (ln + 1)
        (pgSeg1 g tail) := by
    intro F
    exact polyBody_get_step file F initPolygon ln _ (pgSeg1 g tail) _ _ _
      (by rw [hclT]; exact lit_append_ne_nil 'T' _ _)
      (by rw [hclT]; exact lit_append_ne_endTag 'T' _ _ (by decide))
      (by rw [hclT]
          exact parsePolygonProperty_type file initPolygon g.Typ (ln + 1) _ hTyp)
  have h2 : ∀ F L, parsePolygonBody file (F + (labelPairs g.Labels).length)
      { initPolygon with Typ := g.Typ } L (pgSeg1 g tail) =
      parsePolygonBody file F
        { initPolygon with
          Typ := g.Typ,
          Labels := List.foldl (fun pal q => mapUpdate pal q.1 q.2) []
            (labelPairs g.Labels) }
        (L + (labelPairs g.Labels).length) (pgSeg2 g tail) := by
    intro F L
    exact polyBody_labels file (labelPairs g.Labels) F _ L (pgSeg2 g tail)
      (labelPairs_conds _ hLab)
  have h2b : ∀ F L, parsePolygonBody file (F + (labelPairs g.Labels).length)
      { initPolygon with Typ := g.Typ } L (pgSeg1 g tail) =
      parsePolygonBody file F
        { initPolygon with
          Typ := g.Typ,
          Labels := labelPairs g.Labels }
        (L + (labelPairs g.Labels).length) (pgSeg2 g tail) := by
    intro F L
    rw [h2 F L, foldl_mapUpdate_nil _ (labelPairs_nodup _ hNd)]
  have h3 : ∀ F L, parsePolygonBody file (F + (if g.ExtendedLabels then 1 else 0))
      { initPolygon with
        Typ := g.Typ,
        Labels := labelPairs g.Labels } L (pgSeg2 g tail) =
      parsePolygonBody file F
        { initPolygon with
          Typ := g.Typ,
          Labels := labelPairs g.Labels,
          ExtendedLabels := g.ExtendedLabels }
        (L + (if g.ExtendedLabels then 1 else 0)) (pgSeg3 g tail) := by
    intro F L
    exact polyBody_el_seg file g.ExtendedLabels F _ L (pgSeg3 g tail) rfl
  have h4 : ∀ F L, parsePolygonBody file (F + (if g.FontStyle ≠ [] then 1 else 0))
      { initPolygon with
        Typ := g.Typ,
        Labels := labelPairs g.Labels,
        ExtendedLabels := g.ExtendedLabels } L (pgSeg3 g tail) =
      parsePolygonBody file F
        { initPolygon with
          Typ := g.Typ,
          Labels := labelPairs g.Labels,
          ExtendedLabels := g.ExtendedLabels,
          FontStyle := g.FontStyle }
        (L + (if g.FontStyle ≠ [] then 1 else 0)) (pgSeg4 g tail) := by
    intro F L
    exact polyBody_fs_seg file g.FontStyle hFS F _ L (pgSeg4 g tail) rfl
  have h5 : ∀ F L, parsePolygonBody file (F + optCount g.DayXpm)
      { initPolygon with
        Typ := g.Typ,
        Labels := labelPairs g.Labels,
        ExtendedLabels := g.ExtendedLabels,
        FontStyle := g.FontStyle } L (pgSeg4 g tail) =
      parsePolygonBody file F
        { initPolygon with
          Typ := g.Typ,
          Labels := labelPairs g.Labels,
          ExtendedLabels := g.ExtendedLabels,
          FontStyle := g.FontStyle,
          DayXpm := g.DayXpm }
        (L + optLines g.DayXpm) (endTag :: tail) := by
    intro F L
    exact polyBody_xpm_seg file g.DayXpm hDay F _ L (endTag :: tail) rfl
  rw [pgBody_split]
  rw [show fuel + pgSteps g =
    (fuel + ((labelPairs g.Labels).length + ((if g.ExtendedLabels then 1 else 0) +
      ((if g.FontStyle ≠ [] then 1 else 0) + (optCount g.DayXpm + 1))))) + 1 from by
    unfold pgSteps; omega]
  rw [h1]
  rw [show fuel + ((labelPairs g.Labels).length + ((if g.ExtendedLabels then 1 else 0) +
      ((if g.FontStyle ≠ [] then 1 else 0) + (optCount g.DayXpm + 1)))) =
    (fuel + ((if g.ExtendedLabels then 1 else 0) +
      ((if g.FontStyle ≠ [] then 1 else 0) + (optCount g.DayXpm + 1)))) +
      (labelPairs g.Labels).length from by omega]
  rw [h2b]
  rw [show fuel + ((if g.ExtendedLabels then 1 else 0) +
      ((if g.FontStyle ≠ [] then 1 else 0) + (optCount g.DayXpm + 1))) =
    (fuel + ((if g.FontStyle ≠ [] then 1 else 0) + (optCount g.DayXpm + 1))) +
      (if g.ExtendedLabels then 1 else 0) from by omega]
  rw [h3]
  rw [show fuel + ((if g.FontStyle ≠ [] then 1 else 0) + (optCount g.DayXpm + 1)) =
    (fuel + (optCount g.DayXpm + 1)) + (if g.FontStyle ≠ [] then 1 else 0) from by
    omega]
  rw [h4]
  rw [show fuel + (optCount g.DayXpm + 1) = (fuel + 1) + optCount g.DayXpm from by
    omega]
  rw [h5]
  rw [polyBody_endstep file fuel _ _ tail]
  refine ⟨((((ln + 1 + (labelPairs g.Labels).length) +
    (if g.ExtendedLabels then 1 else 0)) + (if g.FontStyle ≠ [] then 1 else 0)) +
    optLines g.DayXpm) + 1, ?_⟩
  rw [hNX]
  rfl

/-! #### The header block -/

theorem headerBody_cp_seg (file : Str) (n : Int) (hn : 0 ≤ n) (h : Header)
    (hpt : h.CodePage = 0) (ln : Nat) (tail : List Str) :
    parseHeaderBody file h ln
      ((if 0 < n then [("CodePage=").toList ++ intToChars n] else []) ++ tail) =
      parseHeaderBody file { h with CodePage := n }
        (ln + (if 0 < n then 1 else 0)) tail := by
  split_ifs with hn0
  · rw [List.singleton_append]
    have hcl : cleanLine (("CodePage=").toList ++ intToChars n) =
        ("CodePage=").toList ++ intToChars n :=
      cleanLine_keyline _ _ (by decide) (plainVal_intToChars n)
    conv_lhs => unfold parseHeaderBody
    rw [hcl]
    dsimp only
    rw [if_neg (show ¬(("CodePage=").toList ++ intToChars n = []) from
      lit_append_ne_nil 'C' _ _)]
    rw [if_neg (show ¬(("CodePage=").toList ++ intToChars n = endTag) from
      lit_append_ne_endTag 'C' _ _ (by decide))]
    rw [splitEq (("CodePage").toList) _ (intToChars n) (by decide) (by decide)]
    dsimp only
    rw [(by decide : goTrimSpace (("CodePage").toList) = ("CodePage").toList)]
    rw [(plainVal_parts _ (plainVal_intToChars n)).2.2]
    rw [if_pos rfl, goAtoi_intToChars n]
  · rw [List.nil_append, Nat.add_zero]
    rw [show ({ h with CodePage := n }) = h from by
      rw [show n = (0 : Int) from by omega, ← hpt]]

theorem headerBody_fid_seg (file : Str) (n : Int) (hn : 0 ≤ n) (h : Header)
    (hpt : h.FID = 0) (ln : Nat) (tail : List Str) :
    parseHeaderBody file h ln
      ((if 0 < n then [("FID=").toList ++ intToChars n] else []) ++ tail) =
      parseHeaderBody file { h with FID := n }
        (ln + (if 0 < n then 1 else 0)) tail := by
  split_ifs with hn0
  · rw [List.singleton_append]
    have hcl : cleanLine (("FID=").toList ++ intToChars n) =
        ("FID=").toList ++ intToChars n :=
      cleanLine_keyline _ _ (by decide) (plainVal_intToChars n)
    conv_lhs => unfold parseHeaderBody
    rw [hcl]
    dsimp only
    rw [if_neg (show ¬(("FID=").toList ++ intToChars n = []) from
      lit_append_ne_nil 'F' _ _)]
    rw [if_neg (show ¬(("FID=").toList ++ intToChars n = endTag) from
      lit_append_ne_endTag 'F' _ _ (by decide))]
    rw [splitEq (("FID").toList) _ (intToChars n) (by decide) (by decide)]
    dsimp only
    rw [(by decide : goTrimSpace (("FID").toList) = ("FID").toList)]
    rw [(plainVal_parts _ (plainVal_intToChars n)).2.2]
    rw [if_neg (by decide : ¬((("FID").toList : Str) = ("CodePage").toList)),
      if_pos rfl, goAtoi_intToChars n]
  · rw [List.nil_append, Nat.add_zero]
    rw [show ({ h with FID := n }) = h from by
      rw [show n = (0 : Int) from by omega, ← hpt]]

theorem headerBody_pc_seg (file : Str) (n : Int) (hn : 0 ≤ n) (h : Header)
    (hpt : h.ProductCode = 0) (ln : Nat) (tail : List Str) :
    parseHeaderBody file h ln
      ((if 0 < n then [("ProductCode=").toList ++ intToChars n] else []) ++ tail) =
      parseHeaderBody file { h with ProductCode := n }
        (ln + (if 0 < n then 1 else 0)) tail := by
  split_ifs with hn0
  · rw [List.singleton_append]
    have hcl : cleanLine (("ProductCode=").toList ++ intToChars n) =
        ("ProductCode=").toList ++ intToChars n :=
      cleanLine_keyline _ _ (by decide) (plainVal_intToChars n)
    conv_lhs => unfold parseHeaderBody
    rw [hcl]
    dsimp only
    rw [if_neg (show ¬(("ProductCode=").toList ++ intToChars n = []) from
      lit_append_ne_nil 'P' _ _)]
    rw [if_neg (show ¬(("ProductCode=").toList ++ intToChars n = endTag) from
      lit_append_ne_endTag 'P' _ _ (by decide))]
    rw [splitEq (("ProductCode").toList) _ (intToChars n) (by decide) (by decide)]
    dsimp only
    rw [(by decide : goTrimSpace (("ProductCode").toList) = ("ProductCode").toList)]
    rw [(plainVal_parts _ (plainVal_intToChars n)).2.2]
    rw [if_neg (by decide : ¬((("ProductCode").toList : Str) = ("CodePage").toList)),
      if_neg (by decide : ¬((("ProductCode").toList : Str) = ("FID").toList)),
      if_pos rfl, goAtoi_intToChars n]
  · rw [List.nil_append, Nat.add_zero]
    rw [show ({ h with ProductCode := n }) = h from by
      rw [show n = (0 : Int) from by omega, ← hpt]]

theorem headerBody_mid_seg (file : Str) (n : Int) (hn : 0 ≤ n) (h : Header)
    (hpt : h.MapID = 0) (ln : Nat) (tail : List Str) :
    parseHeaderBody file h ln
      ((if 0 < n then [("MapID=").toList ++ intToChars n] else []) ++ tail) =
      parseHeaderBody file { h with MapID := n }
        (ln + (if 0 < n then 1 else 0)) tail := by
  split_ifs with hn0
  · rw [List.singleton_append]
    have hcl : cleanLine (("MapID=").toList ++ intToChars n) =
        ("MapID=").toList ++ intToChars n :=
      cleanLine_keyline _ _ (by decide) (plainVal_intToChars n)
    conv_lhs => unfold parseHeaderBody
    rw [hcl]
    dsimp only
    rw [if_neg (show ¬(("MapID=").toList ++ intToChars n = []) from
      lit_append_ne_nil 'M' _ _)]
    rw [if_neg (show ¬(("MapID=").toList ++ intToChars n = endTag) from
      lit_append_ne_endTag 'M' _ _ (by decide))]
    rw [splitEq (("MapID").toList) _ (intToChars n) (by decide) (by decide)]
    dsimp only
    rw [(by decide : goTrimSpace (("MapID").toList) = ("MapID").toList)]
    rw [(plainVal_parts _ (plainVal_intToChars n)).2.2]
    rw [if_neg (by decide : ¬((("MapID").toList : Str) = ("CodePage").toList)),
      if_neg (by decide : ¬((("MapID").toList : Str) = ("FID").toList)),
      if_neg (by decide : ¬((("MapID").toList : Str) = ("ProductCode").toList)),
      if_pos rfl, goAtoi_intToChars n]
  · rw [List.nil_append, Nat.add_zero]
    rw [show ({ h with MapID := n }) = h from by
      rw [show n = (0 : Int) from by omega, ← hpt]]

theorem headerBody_endstep (file : Str) (h : Header) (ln : Nat) (rest : List Str) :
    parseHeaderBody file h ln (endTag :: rest) = .ok (h, ln + 1, rest) := by
  unfold parseHeaderBody
  rw [(by decide : cleanLine endTag = endTag)]
  rw [if_neg (by decide : ¬(endTag = ([] : Str))), if_pos rfl]

/-- The body lines of a written header block. -/
def hdBody (h : Header) : List Str :=
  (if 0 < h.CodePage then [("CodePage=").toList ++ intToChars h.CodePage] else []) ++
  (if 0 < h.FID then [("FID=").toList ++ intToChars h.FID] else []) ++
  (if 0 < h.ProductCode then
    [("ProductCode=").toList ++ intToChars h.ProductCode] else []) ++
  (if 0 < h.MapID then [("MapID=").toList ++ intToChars h.MapID] else []) ++
  [endTag]

theorem writeHeaderL_decomp (h : Header) :
    writeHeaderL h = ("[_id]").toList :: (hdBody h ++ [[]]) := by
  unfold writeHeaderL hdBody
  simp [List.append_assoc]

/-- The round-trip conditions for the header. -/
def HdOk (h : Header) : Prop :=
  0 ≤ h.CodePage ∧ 0 ≤ h.FID ∧ 0 ≤ h.ProductCode ∧ 0 ≤ h.MapID

/-- A written header body parses back, starting from the all-zero header. -/
theorem headerBlock_roundtrip (file : Str) (h : Header) (hW : HdOk h)
    (h0 : Header) (hcp : h0.CodePage = 0) (hf : h0.FID = 0)
    (hpc : h0.ProductCode = 0) (hm : h0.MapID = 0)
    (ln : Nat) (tail : List Str) :
    ∃ ln2, parseHeaderBody file h0 ln (hdBody h ++ tail) = .ok (h, ln2, tail) := by
  obtain ⟨h1, h2, h3, h4⟩ := hW
  rw [show hdBody h ++ tail =
    (if 0 < h.CodePage then [("CodePage=").toList ++ intToChars h.CodePage] else []) ++
    ((if 0 < h.FID then [("FID=").toList ++ intToChars h.FID] else []) ++
    ((if 0 < h.ProductCode then
      [("ProductCode=").toList ++ intToChars h.ProductCode] else []) ++
    ((if 0 < h.MapID then [("MapID=").toList ++ intToChars h.MapID] else []) ++
    (endTag :: tail)))) from by
    unfold hdBody; simp [List.append_assoc]]
  rw [headerBody_cp_seg file h.CodePage h1 h0 hcp ln _]
  rw [headerBody_fid_seg file h.FID h2 ({ h0 with CodePage := h.CodePage }) hf _ _]
  rw [headerBody_pc_seg file h.ProductCode h3
    ({ h0 with
       CodePage := h.CodePage,
       FID := h.FID }) hpc _ _]
  rw [headerBody_mid_seg file h.MapID h4
    ({ h0 with
       CodePage := h.CodePage,
       FID := h.FID,
       ProductCode := h.ProductCode }) hm _ _]
  rw [headerBody_endstep]
  exact ⟨((((ln + (if 0 < h.CodePage then 1 else 0)) + (if 0 < h.FID then 1 else 0)) +
    (if 0 < h.ProductCode then 1 else 0)) + (if 0 < h.MapID then 1 else 0)) + 1, rfl⟩

/-! #### Assembling `parseTop` over a whole written file -/

theorem parseTop_nil (file : Str) (fuel : Nat) (acc : TYPFile) (ln : Nat) :
    parseTop file fuel acc ln [] = .ok acc := by
  cases fuel <;> rfl

theorem optCount_le_optLines (ox : Option XPMIcon) : optCount ox ≤ optLines ox := by
  rcases ox with _ | x
  · exact Nat.le_refl 0
  · show 1 ≤ 1 + (x.Palette.length + x.Data.length)
    omega

theorem optXpmSeg_length (f : Str) (ox : Option XPMIcon) :
    (optXpmSeg f ox).length = optLines ox := by
  rcases ox with _ | x
  · rfl
  · show (writeXPM f x).length = 1 + (x.Palette.length + x.Data.length)
    rw [writeXPM_decomp]
    simp only [List.length_cons, xpmLines, List.length_append, List.length_map]
    omega

theorem ptSteps_le (p : PointType) : ptSteps p ≤ (ptBody p).length := by
  have h1 := optCount_le_optLines p.DayXpm
  have h2 := optCount_le_optLines p.NightXpm
  unfold ptSteps ptBody
  simp only [List.length_append, List.length_map, List.length_cons, List.length_nil,
    optXpmSeg_length, apply_ite List.length, Nat.zero_add]
  omega

theorem ltSteps_le (l : LineType) : ltSteps l ≤ (ltBody l).length := by
  have h1 := optCount_le_optLines l.DayXpm
  unfold ltSteps ltBody
  simp only [List.length_append, List.length_map, List.length_cons, List.length_nil,
    optXpmSeg_length, apply_ite List.length, Nat.zero_add]
  omega

theorem pgSteps_le (g : PolygonType) : pgSteps g ≤ (pgBody g).length := by
  have h1 := optCount_le_optLines g.DayXpm
  unfold pgSteps pgBody
  simp only [List.length_append, List.length_map, List.length_cons, List.length_nil,
    optXpmSeg_length, apply_ite List.length, Nat.zero_add]
  omega

/-- `parseTop` consumes one whole written header section plus the blank
separator line behind it. -/
theorem parseTop_header_block (file : Str) (h : Header) (hW : HdOk h)
    (fuel : Nat) (acc : TYPFile) (hcp : acc.Header.CodePage = 0)
    (hf : acc.Header.FID = 0) (hpc : acc.Header.ProductCode = 0)
    (hm : acc.Header.MapID = 0) (ln : Nat) (rest : List Str) :
    ∃ ln2, parseTop file (fuel + 2) acc ln (writeHeaderL h ++ rest) =
      parseTop file fuel { acc with Header := h } ln2 rest := by
  rw [writeHeaderL_decomp, List.cons_append]
  rw [show (hdBody h ++ [[]]) ++ rest = hdBody h ++ (([] : Str) :: rest) from by
    simp [List.append_assoc]]
  obtain ⟨ln2, hblk⟩ := headerBlock_roundtrip file h hW acc.Header hcp hf hpc hm
    (ln + 1) (([] : Str) :: rest)
  rw [show fuel + 2 = (fuel + 1) + 1 from rfl]
  refine ⟨ln2 + 1, ?_⟩
  conv_lhs => unfold parseTop
  rw [(by decide : cleanLine (("[_id]").toList) = ("[_id]").toList)]
  rw [if_neg (by decide : ¬((("[_id]").toList : Str) = []))]
  simp only [(by decide : isPfx (['[']) (("[_id]").toList) = true), if_true]
  rw [(by decide : goTrimSpace (goTrimBrackets (("[_id]").toList)) = ("_id").toList)]
  rw [if_pos (rfl : (("_id").toList : Str) = ("_id").toList)]
  rw [hblk]
  dsimp only
  conv_lhs => unfold parseTop
  rw [(by decide : cleanLine ([] : Str) = ([] : Str))]
  rw [if_pos (rfl : ([] : Str) = [])]

/-- `parseTop` consumes one whole written point block plus the blank
separator line behind it. -/
theorem parseTop_point_block (file : Str) (p : PointType) (hW : PtOk p)
    (fuel : Nat) (acc : TYPFile) (ln : Nat) (rest : List Str) :
    ∃ ln2, parseTop file (fuel + 2) acc ln (writePointTypeL p ++ rest) =
      parseTop file fuel
        { acc with Points := acc.Points ++ [{ p with Labels := labelPairs p.Labels }] }
        ln2 rest := by
  rw [writePointTypeL_decomp, List.cons_append]
  rw [show (ptBody p ++ [[]]) ++ rest = ptBody p ++ (([] : Str) :: rest) from by
    simp [List.append_assoc]]
  have hle : ptSteps p ≤ (ptBody p ++ (([] : Str) :: rest)).length := by
    rw [List.length_append]
    have := ptSteps_le p
    omega
  have hlen : (ptBody p ++ (([] : Str) :: rest)).length =
      ((ptBody p ++ (([] : Str) :: rest)).length - ptSteps p) + ptSteps p := by omega
  obtain ⟨ln2, hblk⟩ := pointBlock_roundtrip file p hW
    ((ptBody p ++ (([] : Str) :: rest)).length - ptSteps p) (ln + 1)
    (([] : Str) :: rest)
  rw [show fuel + 2 = (fuel + 1) + 1 from rfl]
  refine ⟨ln2 + 1, ?_⟩
  conv_lhs => unfold parseTop
  rw [(by decide : cleanLine (("[_point]").toList) = ("[_point]").toList)]
  rw [if_neg (by decide : ¬((("[_point]").toList : Str) = []))]
  simp only [(by decide : isPfx (['[']) (("[_point]").toList) = true), if_true]
  rw [(by decide : goTrimSpace (goTrimBrackets (("[_point]").toList)) =
    ("_point").toList)]
  rw [if_neg (by decide : ¬((("_point").toList : Str) = ("_id").toList))]
  rw [if_pos (rfl : (("_point").toList : Str) = ("_point").toList)]
  rw [hlen, hblk]
  dsimp only
  conv_lhs => unfold parseTop
  rw [(by decide : cleanLine ([] : Str) = ([] : Str))]
  rw [if_pos (rfl : ([] : Str) = [])]

/-- `parseTop` consumes one whole written line block plus the blank
separator line behind it. -/
theorem parseTop_line_block (file : Str) (l : LineType) (hW : LtOk l)
    (fuel : Nat) (acc : TYPFile) (ln : Nat) (rest : List Str) :
    ∃ ln2, parseTop file (fuel + 2) acc ln (writeLineTypeL l ++ rest) =
      parseTop file fuel
        { acc with Lines := acc.Lines ++ [{ l with Labels := labelPairs l.Labels }] }
        ln2 rest := by
  have hNX : l.NightXpm = none := hW.2.2.2.2.2.2.2
  rw [writeLineTypeL_decomp l hNX, List.cons_append]
  rw [show (ltBody l ++ [[]]) ++ rest = ltBody l ++ (([] : Str) :: rest) from by
    simp [List.append_assoc]]
  have hle : ltSteps l ≤ (ltBody l ++ (([] : Str) :: rest)).length := by
    rw [List.length_append]
    have := ltSteps_le l
    omega
  have hlen : (ltBody l ++ (([] : Str) :: rest)).length =
      ((ltBody l ++ (([] : Str) :: rest)).length - ltSteps l) + ltSteps l := by omega
  obtain ⟨ln2, hblk⟩ := lineBlock_roundtrip file l hW
    ((ltBody l ++ (([] : Str) :: rest)).length - ltSteps l) (ln + 1)
    (([] : Str) :: rest)
  rw [show fuel + 2 = (fuel + 1) + 1 from rfl]
  refine ⟨ln2 + 1, ?_⟩
  conv_lhs => unfold parseTop
  rw [(by decide : cleanLine (("[_line]").toList) = ("[_line]").toList)]
  rw [if_neg (by decide : ¬((("[_line]").toList : Str) = []))]
  simp only [(by decide : isPfx (['[']) (("[_line]").toList) = true), if_true]
  rw [(by decide : goTrimSpace (goTrimBrackets (("[_line]").toList)) =
    ("_line").toList)]
  rw [if_neg (by decide : ¬((("_line").toList : Str) = ("_id").toList))]
  rw [if_neg (by decide : ¬((("_line").toList : Str) = ("_point").toList))]
  rw [if_pos (rfl : (("_line").toList : Str) = ("_line").toList)]
  rw [hlen, hblk]
  dsimp only
  conv_lhs => unfold parseTop
  rw [(by decide : cleanLine ([] : Str) = ([] : Str))]
  rw [if_pos (rfl : ([] : Str) = [])]

/-- `parseTop` consumes one whole written polygon block plus the blank
separator line behind it. -/
theorem parseTop_poly_block (file : Str) (g : PolygonType) (hW : PgOk g)
    (fuel : Nat) (acc : TYPFile) (ln : Nat) (rest : List Str) :
    ∃ ln2, parseTop file (fuel + 2) acc ln (writePolygonTypeL g ++ rest) =
      parseTop file fuel
        { acc with
          Polygons := acc.Polygons ++ [{ g with Labels := labelPairs g.Labels }] }
        ln2 rest := by
  have hNX : g.NightXpm = none := hW.2.2.2.2.2
  rw [writePolygonTypeL_decomp g hNX, List.cons_append]
  rw [show (pgBody g ++ [[]]) ++ rest = pgBody g ++ (([] : Str) :: rest) from by
    simp [List.append_assoc]]
  have hle : pgSteps g ≤ (pgBody g ++ (([] : Str) :: rest)).length := by
    rw [List.length_append]
    have := pgSteps_le g
    omega
  have hlen : (pgBody g ++ (([] : Str) :: rest)).length =
      ((pgBody g ++ (([] : Str) :: rest)).length - pgSteps g) + pgSteps g := by omega
  obtain ⟨ln2, hblk⟩ := polyBlock_roundtrip file g hW
    ((pgBody g ++ (([] : Str) :: rest)).length - pgSteps g) (ln + 1)
    (([] : Str) :: rest)
  rw [show fuel + 2 = (fuel + 1) + 1 from rfl]
  refine ⟨ln2 + 1, ?_⟩
  conv_lhs => unfold parseTop
  rw [(by decide : cleanLine (("[_polygon]").toList) = ("[_polygon]").toList)]
  rw [if_neg (by decide : ¬((("[_polygon]").toList : Str) = []))]
  simp only [(by decide : isPfx (['[']) (("[_polygon]").toList) = true), if_true]
  rw [(by decide : goTrimSpace (goTrimBrackets (("[_polygon]").toList)) =
    ("_polygon").toList)]
  rw [if_neg (by decide : ¬((("_polygon").toList : Str) = ("_id").toList))]
  rw [if_neg (by decide : ¬((("_polygon").toList : Str) = ("_point").toList))]
  rw [if_neg (by decide : ¬((("_polygon").toList : Str) = ("_line").toList))]
  rw [if_pos (rfl : (("_polygon").toList : Str) = ("_polygon").toList)]
  rw [hlen, hblk]
  dsimp only
  conv_lhs => unfold parseTop
  rw [(by decide : cleanLine ([] : Str) = ([] : Str))]
  rw [if_pos (rfl : ([] : Str) = [])]

theorem parseTop_points (file : Str) (ps : List PointType) :
    ∀ (fuel : Nat) (acc : TYPFile) (ln : Nat) (tail : List Str),
      (∀ p ∈ ps, PtOk p) →
      ∃ ln2, parseTop file (fuel + 2 * ps.length) acc ln
          ((ps.map writePointTypeL).flatten ++ tail) =
        parseTop file fuel
          { acc with
            Points := acc.Points ++
              ps.map (fun p => { p with Labels := labelPairs p.Labels }) }
          ln2 tail := by
  induction ps with
  | nil =>
    intro fuel acc ln tail _
    refine ⟨ln, ?_⟩
    simp only [List.map_nil, List.flatten_nil, List.nil_append, List.length_nil,
      Nat.mul_zero, Nat.add_zero, List.append_nil]
  | cons p ps ih =>
    intro fuel acc ln tail hW
    rw [List.map_cons, List.flatten_cons, List.append_assoc]
    rw [show fuel + 2 * (p :: ps).length = (fuel + 2 * ps.length) + 2 from by
      simp only [List.length_cons]; omega]
    obtain ⟨ln2, h1⟩ := parseTop_point_block file p (hW p (List.mem_cons_self _ _))
      (fuel + 2 * ps.length) acc ln ((ps.map writePointTypeL).flatten ++ tail)
    rw [h1]
    obtain ⟨ln3, h2⟩ := ih fuel
      { acc with
        Points := acc.Points ++ [{ p with Labels := labelPairs p.Labels }] }
      ln2 tail (fun q hq => hW q (List.mem_cons_of_mem _ hq))
    rw [h2]
    refine ⟨ln3, ?_⟩
    rw [show (acc.Points ++ [{ p with Labels := labelPairs p.Labels }]) ++
        ps.map (fun p => { p with Labels := labelPairs p.Labels }) =
      acc.Points ++
        (p :: ps).map (fun p => { p with Labels := labelPairs p.Labels }) from by
      simp]

theorem parseTop_lines (file : Str) (ls : List LineType) :
    ∀ (fuel : Nat) (acc : TYPFile) (ln : Nat) (tail : List Str),
      (∀ l ∈ ls, LtOk l) →
      ∃ ln2, parseTop file (fuel + 2 * ls.length) acc ln
          ((ls.map writeLineTypeL).flatten ++ tail) =
        parseTop file fuel
          { acc with
            Lines := acc.Lines ++
              ls.map (fun l => { l with Labels := labelPairs l.Labels }) }
          ln2 tail := by
  induction ls with
  | nil =>
    intro fuel acc ln tail _
    refine ⟨ln, ?_⟩
    simp only [List.map_nil, List.flatten_nil, List.nil_append, List.length_nil,
      Nat.mul_zero, Nat.add_zero, List.append_nil]
  | cons l ls ih =>
    intro fuel acc ln tail hW
    rw [List.map_cons, List.flatten_cons, List.append_assoc]
    rw [show fuel + 2 * (l :: ls).length = (fuel + 2 * ls.length) + 2 from by
      simp only [List.length_cons]; omega]
    obtain ⟨ln2, h1⟩ := parseTop_line_block file l (hW l (List.mem_cons_self _ _))
      (fuel + 2 * ls.length) acc ln ((ls.map writeLineTypeL).flatten ++ tail)
    rw [h1]
    obtain ⟨ln3, h2⟩ := ih fuel
      { acc with
        Lines := acc.Lines ++ [{ l with Labels := labelPairs l.Labels }] }
      ln2 tail (fun q hq => hW q (List.mem_cons_of_mem _ hq))
    rw [h2]
    refine ⟨ln3, ?_⟩
    rw [show (acc.Lines ++ [{ l with Labels := labelPairs l.Labels }]) ++
        ls.map (fun l => { l with Labels := labelPairs l.Labels }) =
      acc.Lines ++
        (l :: ls).map (fun l => { l with Labels := labelPairs l.Labels }) from by
      simp]

theorem parseTop_polys (file : Str) (gs : List PolygonType) :
    ∀ (fuel : Nat) (acc : TYPFile) (ln : Nat) (tail : List Str),
      (∀ g ∈ gs, PgOk g) →
      ∃ ln2, parseTop file (fuel + 2 * gs.length) acc ln
          ((gs.map writePolygonTypeL).flatten ++ tail) =
        parseTop file fuel
          { acc with
            Polygons := acc.Polygons ++
              gs.map (fun g => { g with Labels := labelPairs g.Labels }) }
          ln2 tail := by
  induction gs with
  | nil =>
    intro fuel acc ln tail _
    refine ⟨ln, ?_⟩
    simp only [List.map_nil, List.flatten_nil, List.nil_append, List.length_nil,
      Nat.mul_zero, Nat.add_zero, List.append_nil]
  | cons g gs ih =>
    intro fuel acc ln tail hW
    rw [List.map_cons, List.flatten_cons, List.append_assoc]
    rw [show fuel + 2 * (g :: gs).length = (fuel + 2 * gs.length) + 2 from by
      simp only [List.length_cons]; omega]
    obtain ⟨ln2, h1⟩ := parseTop_poly_block file g (hW g (List.mem_cons_self _ _))
      (fuel + 2 * gs.length) acc ln ((gs.map writePolygonTypeL).flatten ++ tail)
    rw [h1]
    obtain ⟨ln3, h2⟩ := ih fuel
      { acc with
        Polygons := acc.Polygons ++ [{ g with Labels := labelPairs g.Labels }] }
      ln2 tail (fun q hq => hW q (List.mem_cons_of_mem _ hq))
    rw [h2]
    refine ⟨ln3, ?_⟩
    rw [show (acc.Polygons ++ [{ g with Labels := labelPairs g.Labels }]) ++
        gs.map (fun g => { g with Labels := labelPairs g.Labels }) =
      acc.Polygons ++
        (g :: gs).map (fun g => { g with Labels := labelPairs g.Labels }) from by
      simp]

/-- The document that a written file parses back to: the same header, each
record's label map replaced by its emission-ordered association list, and
every other field carried over; draw order, colour caches and file path are
reset by the fresh parse. -/
def rebuilt (file : Str) (d : TYPFile) : TYPFile :=
  { initTYP file with
    Header := d.Header,
    Points := d.Points.map (fun p => { p with Labels := labelPairs p.Labels }),
    Lines := d.Lines.map (fun l => { l with Labels := labelPairs l.Labels }),
    Polygons := d.Polygons.map (fun g => { g with Labels := labelPairs g.Labels }) }

/-- The round-trip conditions for a whole document. -/
def DocOk (d : TYPFile) : Prop :=
  HdOk d.Header ∧ (∀ p ∈ d.Points, PtOk p) ∧ (∀ l ∈ d.Lines, LtOk l) ∧
    (∀ g ∈ d.Polygons, PgOk g)

theorem writeHeaderL_len (h : Header) : 2 ≤ (writeHeaderL h).length := by
  rw [writeHeaderL_decomp]
  simp only [List.length_cons, List.length_append]
  omega

theorem writePointTypeL_len (p : PointType) : 2 ≤ (writePointTypeL p).length := by
  rw [writePointTypeL_decomp]
  simp only [List.length_cons, List.length_append]
  omega

theorem writeLineTypeL_len (l : LineType) : 2 ≤ (writeLineTypeL l).length := by
  unfold writeLineTypeL
  simp only [List.cons_append, List.length_cons, List.length_append]
  omega

theorem writePolygonTypeL_len (g : PolygonType) : 2 ≤ (writePolygonTypeL g).length := by
  unfold writePolygonTypeL
  simp only [List.cons_append, List.length_cons, List.length_append]
  omega

theorem flatten_len_ge {α : Type} (f : α → List Str)
    (hf : ∀ x, 2 ≤ (f x).length) (l : List α) :
    2 * l.length ≤ ((l.map f).flatten).length := by
  induction l with
  | nil => simp
  | cons a l ih =>
    rw [List.map_cons, List.flatten_cons, List.length_append, List.length_cons]
    have := hf a
    omega

theorem writeFileLines_len (d : TYPFile) :
    2 + 2 * d.Points.length + 2 * d.Lines.length + 2 * d.Polygons.length ≤
      (writeFileLines d).length := by
  unfold writeFileLines
  simp only [List.length_append]
  have h0 := writeHeaderL_len d.Header
  have h1 := flatten_len_ge writePointTypeL writePointTypeL_len d.Points
  have h2 := flatten_len_ge writeLineTypeL writeLineTypeL_len d.Lines
  have h3 := flatten_len_ge writePolygonTypeL writePolygonTypeL_len d.Polygons
  omega

theorem parseTop_written_all (file : Str) (d : TYPFile)
    (hH : HdOk d.Header) (hP : ∀ p ∈ d.Points, PtOk p)
    (hL : ∀ l ∈ d.Lines, LtOk l) (hG : ∀ g ∈ d.Polygons, PgOk g)
    (F0 ln : Nat) :
    parseTop file
      ((((F0 + 2 * d.Polygons.length) + 2 * d.Lines.length) +
        2 * d.Points.length) + 2)
      (initTYP file) ln
      (writeHeaderL d.Header ++ ((d.Points.map writePointTypeL).flatten ++
        ((d.Lines.map writeLineTypeL).flatten ++
          ((d.Polygons.map writePolygonTypeL).flatten ++ [])))) =
      .ok (rebuilt file d) := by
  obtain ⟨ln1, e1⟩ := parseTop_header_block file d.Header hH
    (((F0 + 2 * d.Polygons.length) + 2 * d.Lines.length) + 2 * d.Points.length)
    (initTYP file) rfl rfl rfl rfl ln
    ((d.Points.map writePointTypeL).flatten ++
      ((d.Lines.map writeLineTypeL).flatten ++
        ((d.Polygons.map writePolygonTypeL).flatten ++ [])))
  rw [e1]
  obtain ⟨ln2, e2⟩ := parseTop_points file d.Points
    ((F0 + 2 * d.Polygons.length) + 2 * d.Lines.length)
    { initTYP file with Header := d.Header } ln1
    ((d.Lines.map writeLineTypeL).flatten ++
      ((d.Polygons.map writePolygonTypeL).flatten ++ [])) hP
  rw [e2]
  obtain ⟨ln3, e3⟩ := parseTop_lines file d.Lines (F0 + 2 * d.Polygons.length)
    { ({ initTYP file with Header := d.Header } : TYPFile) with
      Points := (initTYP file).Points ++
        d.Points.map (fun p => { p with Labels := labelPairs p.Labels }) } ln2
    ((d.Polygons.map writePolygonTypeL).flatten ++ []) hL
  rw [e3]
  obtain ⟨ln4, e4⟩ := parseTop_polys file d.Polygons F0
    { ({ ({ initTYP file with Header := d.Header } : TYPFile) with
        Points := (initTYP file).Points ++
          d.Points.map (fun p => { p with Labels := labelPairs p.Labels }) } :
          TYPFile) with
      Lines := (initTYP file).Lines ++
        d.Lines.map (fun l => { l with Labels := labelPairs l.Labels }) } ln3
    [] hG
  rw [e4]
  rw [parseTop_nil]
  rfl

/-- Parsing the written lines of a well-formed document succeeds and yields
exactly the rebuilt document. -/
theorem writeFileLines_parse (file : Str) (d : TYPFile) (hW : DocOk d) :
    parseFile file (writeFileLines d) = .ok (rebuilt file d) := by
  obtain ⟨hH, hP, hL, hG⟩ := hW
  unfold parseFile
  have hfuel : (writeFileLines d).length =
      (((((writeFileLines d).length -
        (2 + 2 * d.Points.length + 2 * d.Lines.length + 2 * d.Polygons.length)) +
          2 * d.Polygons.length) + 2 * d.Lines.length) + 2 * d.Points.length) + 2 := by
    have := writeFileLines_len d
    omega
  rw [hfuel]
  rw [show writeFileLines d =
    writeHeaderL d.Header ++ ((d.Points.map writePointTypeL).flatten ++
      ((d.Lines.map writeLineTypeL).flatten ++
        ((d.Polygons.map writePolygonTypeL).flatten ++ []))) from by
    unfold writeFileLines; simp [List.append_assoc]]
  exact parseTop_written_all file d hH hP hL hG _ 0

/-- Field-level agreement of a re-parsed point record with the original:
type codes, label text per language code, and the bitmaps. -/
def ptAgrees (q p : PointType) : Prop :=
  q.Typ = p.Typ ∧ q.SubType = p.SubType ∧ q.FontStyle = p.FontStyle ∧
  (∀ k, mapLookup q.Labels k = mapLookup p.Labels k) ∧
  q.DayXpm = p.DayXpm ∧ q.NightXpm = p.NightXpm

/-- Field-level agreement of a re-parsed line record with the original. -/
def ltAgrees (q l : LineType) : Prop :=
  q.Typ = l.Typ ∧ (∀ k, mapLookup q.Labels k = mapLookup l.Labels k) ∧
  q.LineWidth = l.LineWidth ∧ q.BorderWidth = l.BorderWidth ∧
  q.LineStyle = l.LineStyle ∧ q.UseOrientation = l.UseOrientation ∧
  q.DayXpm = l.DayXpm ∧ q.NightXpm = l.NightXpm

/-- Field-level agreement of a re-parsed polygon record with the original. -/
def pgAgrees (q g : PolygonType) : Prop :=
  q.Typ = g.Typ ∧ (∀ k, mapLookup q.Labels k = mapLookup g.Labels k) ∧
  q.FontStyle = g.FontStyle ∧ q.ExtendedLabels = g.ExtendedLabels ∧
  q.DayXpm = g.DayXpm ∧ q.NightXpm = g.NightXpm

theorem forall2_map_self {α β : Type} (R : β → α → Prop) (f : α → β)
    (l : List α) (h : ∀ x ∈ l, R (f x) x) : List.Forall₂ R (l.map f) l := by
  induction l with
  | nil => exact List.Forall₂.nil
  | cons a l ih =>
    exact List.Forall₂.cons (h a (List.mem_cons_self _ _))
      (ih (fun x hx => h x (List.mem_cons_of_mem _ hx)))

/-- Claim C1 (amended): the parse/write round trip preserves all the claimed
fields for documents in the writer's image domain: header fields are
non-negative (the parser accepts negative values, but the writer drops
non-positive ones — see the counterexample), line and polygon records carry
no night bitmap (the writer emits `NightXpm=` lines that the line/polygon
property parser never recognises), widths are non-negative, text fields are
trim-stable and free of `;`, `#`, and (for label codes) commas, label codes
are distinct, and bitmaps are exactly re-generable from the stored palette
and pixel rows.  For such a document, re-parsing the written text succeeds
and yields a document with the same header field values, the same number of
point, line, and polygon records, the same type codes, the same label text
per language code, and the same bitmaps. -/
theorem c1_round_trip_amended (file : Str) (d : TYPFile) (hW : DocOk d) :
    ∃ d', parseFile file (writeFileLines d) = .ok d' ∧
      d'.Header = d.Header ∧
      d'.Points.length = d.Points.length ∧
      d'.Lines.length = d.Lines.length ∧
      d'.Polygons.length = d.Polygons.length ∧
      List.Forall₂ ptAgrees d'.Points d.Points ∧
      List.Forall₂ ltAgrees d'.Lines d.Lines ∧
      List.Forall₂ pgAgrees d'.Polygons d.Polygons := by
  have hPts : (rebuilt file d).Points =
      d.Points.map (fun p => { p with Labels := labelPairs p.Labels }) := rfl
  have hLns : (rebuilt file d).Lines =
      d.Lines.map (fun l => { l with Labels := labelPairs l.Labels }) := rfl
  have hPgs : (rebuilt file d).Polygons =
      d.Polygons.map (fun g => { g with Labels := labelPairs g.Labels }) := rfl
  refine ⟨rebuilt file d, writeFileLines_parse file d hW, rfl, ?_, ?_, ?_, ?_, ?_, ?_⟩
  · rw [hPts, List.length_map]
  · rw [hLns, List.length_map]
  · rw [hPgs, List.length_map]
  · rw [hPts]
    exact forall2_map_self _ _ _
      (fun p _ => ⟨rfl, rfl, rfl, labelPairs_lookup p.Labels, rfl, rfl⟩)
  · rw [hLns]
    exact forall2_map_self _ _ _
      (fun l _ => ⟨rfl, labelPairs_lookup l.Labels, rfl, rfl, rfl, rfl, rfl, rfl⟩)
  · rw [hPgs]
    exact forall2_map_self _ _ _
      (fun g _ => ⟨rfl, labelPairs_lookup g.Labels, rfl, rfl, rfl, rfl⟩)

instance (x : XPMIcon) : Decidable (XpmOk x) := by
  unfold XpmOk
  infer_instance

instance (ox : Option XPMIcon) : Decidable (optXpmOk ox) := by
  rcases ox with _ | x
  · exact isTrue trivial
  · exact (inferInstance : Decidable (XpmOk x))

instance (p : PointType) : Decidable (PtOk p) := by
  unfold PtOk
  infer_instance

instance (l : LineType) : Decidable (LtOk l) := by
  unfold LtOk
  infer_instance

instance (g : PolygonType) : Decidable (PgOk g) := by
  unfold PgOk
  infer_instance

instance (h : Header) : Decidable (HdOk h) := by
  unfold HdOk
  infer_instance

instance (d : TYPFile) : Decidable (DocOk d) := by
  unfold DocOk
  infer_instance

/-- A small bitmap used by the C1 witness document. -/
def c1xpm : XPMIcon :=
  { Width := 2, Height := 2, Colors := 2, CharsPerPixel := 1,
    Data := [("ab").toList, ("ba").toList],
    Palette := [((("a").toList : Str),
                 { Hex := ("#FF0000").toList, Day := false, Name := [] }),
                ((("b").toList : Str),
                 { Hex := ("none").toList, Day := false, Name := [] })] }

/-- The C1 witness document: positive and zero header fields, one point with
sub-type, labels, bitmap and font style, one line with widths, style,
orientation and bitmap, one polygon with extended labels. -/
def c1wit : TYPFile :=
  { Header := { CodePage := 1252, FID := 77, ProductCode := 1, MapID := 0 },
    Points := [{ Typ := ("0x2a00").toList, SubType := ("0x01").toList,
                 Labels := [((("0x04").toList : Str), ("Shop").toList),
                            ((("0x01").toList : Str), ("Bolt").toList)],
                 DayXpm := some c1xpm, NightXpm := none,
                 DayColors := [], NightColors := [],
                 FontStyle := ("NoLabel").toList }],
    Lines := [{ Typ := ("0x01").toList,
                Labels := [((("0x04").toList : Str), ("Road").toList)],
                LineWidth := 3, BorderWidth := 1,
                DayXpm := some c1xpm, NightXpm := none,
                UseOrientation := true, LineStyle := ("dashed").toList }],
    Polygons := [{ Typ := ("0x13").toList,
                   Labels := [((("0x02").toList : Str), ("Park").toList)],
                   DayXpm := none, NightXpm := none,
                   FontStyle := [], ExtendedLabels := true }],
    Draw := { Points := [("0x2a00").toList], Lines := [], Polygons := [] },
    FilePath := ("orig").toList, Modified := true }

/-- Claim C1 amended, witness: the concrete document `c1wit` satisfies the
round-trip conditions and the theorem applies to it. -/
theorem c1_round_trip_amended_witness :
    DocOk c1wit ∧
    (∃ d', parseFile (("f").toList) (writeFileLines c1wit) = .ok d' ∧
      d'.Header = c1wit.Header ∧
      d'.Points.length = c1wit.Points.length ∧
      d'.Lines.length = c1wit.Lines.length ∧
      d'.Polygons.length = c1wit.Polygons.length ∧
      List.Forall₂ ptAgrees d'.Points c1wit.Points ∧
      List.Forall₂ ltAgrees d'.Lines c1wit.Lines ∧
      List.Forall₂ pgAgrees d'.Polygons c1wit.Polygons) :=
  ⟨by decide, c1_round_trip_amended (("f").toList) c1wit (by decide)⟩

end TypCodec
